import Mathlib

/-!
# BLEBeaconParser: a shallow embedding of the advertisement decoders

The C++ sources under `lib/BLEBeaconParser/src` are embedded as pure Lean functions.

* A buffer argument `const uint8_t* data` is the list of bytes of the array object the
  pointer refers to (`List Nat`, every byte in `0..255`); the `uint8_t len` argument is a
  separate natural number, exactly as in the C++ signature.
* A pointer into the buffer (`out_data`, `mfg_data`, `frame_data`) is an offset into that
  list; `p[i]` is a read at `offset + i`.
* Every read goes through `readByte`.  A read outside the array object has no defined
  behaviour in C++; here it stops the computation with `Fault.outOfBounds i`.
* `while` loops over the `uint8_t` cursor take a fuel argument; the cursor is reduced
  modulo 256 after every update, as the C++ type does.
* `BeaconData` has one field for each member of the C++ payload union; a field holds what
  was last stored through that member.  The members overlap in the C++ object: `ibeacon`
  and `eddystone_url` begin with a `String` object, the other three are plain bytes laid
  over it.  The library never reads a payload member, so the overlap can change its
  behaviour in one way only: an assignment to `ibeacon.uuid` or `eddystone_url.url` calls
  `String::operator=` on that storage, which has no defined behaviour once a write through
  `eddystone_uid`, `eddystone_tlm` or `altbeacon` has overwritten the `String`.  The field
  `holds_string` records whether the storage still holds the `String`; an assignment to
  it when it does not stops the computation with `Fault.deadString`.
* An Arduino `String` is a Lean `String` with one character per `char`; appending the byte
  `b` as `(char)b` appends the character with code `b`.
* A returned `bool` together with the `BeaconData& result` after the call is a pair
  `(Bool × BeaconData)`; an out-parameter pair `out_data`, `out_len` that is only set on
  `return true` is an `Option (Nat × Nat)`.
-/

/-- Ways in which a run of the embedded code can have no defined result: a read outside the
array object, a loop that uses up its fuel, and an assignment to the `String` of a payload
union whose storage no longer holds a `String`. -/
inductive Fault where
  | outOfBounds (index : Nat)
  | outOfFuel
  | deadString
  deriving DecidableEq, Repr

/-- Result of running embedded code: a value, or a fault. -/
abbrev Run (α : Type) := Except Fault α

deriving instance DecidableEq for Except

/-- The read `data[i]` of the C++ code: defined only inside the array object. -/
def readByte (data : List Nat) (i : Nat) : Run Nat :=
  match data[i]? with
  | some b => .ok b
  | none => .error (.outOfBounds i)

/-- The copy loop `for (int i = 0; i < n; i++) dst[i] = src[off + i];`, reading the source
bytes in increasing order and returning the bytes written to the destination array. -/
def readBytes (data : List Nat) (off : Nat) : Nat → Run (List Nat)
  | 0 => pure []
  | n + 1 => do
    let b ← readByte data off
    let rest ← readBytes data (off + 1) n
    pure (b :: rest)

/-- The conversion `(int8_t)x` of a byte value. -/
def toInt8 (x : Nat) : Int :=
  if x % 256 < 128 then (x % 256 : Nat) else ((x % 256 : Nat) : Int) - 256

/-- The conversion to `int16_t` performed by `int16_t temp_raw = ...`. -/
def toInt16 (x : Nat) : Int :=
  if x % 65536 < 32768 then (x % 65536 : Nat) else ((x % 65536 : Nat) : Int) - 65536

/-- The enumeration `BeaconType` of `BeaconData.h`. -/
inductive BeaconType where
  | BEACON_TYPE_UNKNOWN
  | BEACON_TYPE_IBEACON
  | BEACON_TYPE_EDDYSTONE_UID
  | BEACON_TYPE_EDDYSTONE_URL
  | BEACON_TYPE_EDDYSTONE_TLM
  | BEACON_TYPE_ALTBEACON
  deriving DecidableEq, Repr

open BeaconType

/-- The struct `iBeaconData`. -/
structure iBeaconData where
  uuid : String
  major : Nat
  minor : Nat
  tx_power : Int
  deriving DecidableEq, Repr

/-- The struct `EddystoneUIDData`. -/
structure EddystoneUIDData where
  namespace_id : List Nat
  instance_id : List Nat
  tx_power : Int
  deriving DecidableEq, Repr

/-- The struct `EddystoneURLData`. -/
structure EddystoneURLData where
  url : String
  tx_power : Int
  deriving DecidableEq, Repr

/-- The struct `EddystoneTLMData`.  The `float temperature` field is kept as the exact
rational value of the float: the only value ever stored is `temp_raw / 256.0f` for an
`int16_t temp_raw`; every 16-bit integer is a binary32 value and a division by `2^8` only
changes the exponent, so the stored float is the rational `temp_raw / 256` without rounding. -/
structure EddystoneTLMData where
  battery_voltage : Nat
  temperature : ℚ
  adv_count : Nat
  uptime : Nat
  deriving DecidableEq, Repr

/-- The struct `AltBeaconData`. -/
structure AltBeaconData where
  id : List Nat
  major : Nat
  minor : Nat
  tx_power : Int
  mfg_reserved : Nat
  deriving DecidableEq, Repr

/-- The struct `BeaconData`: discriminant, validity flag and the five members of the payload
union.  Each payload field holds what was last stored through that member.  In the C++ object
the five members share one storage, at whose start `ibeacon.uuid` and `eddystone_url.url` are
one `String` object; `holds_string` is true while that object is alive, that is, until a write
through `eddystone_uid`, `eddystone_tlm` or `altbeacon` puts plain bytes over it. -/
structure BeaconData where
  type : BeaconType
  valid : Bool
  ibeacon : iBeaconData
  eddystone_uid : EddystoneUIDData
  eddystone_url : EddystoneURLData
  eddystone_tlm : EddystoneTLMData
  altbeacon : AltBeaconData
  holds_string : Bool
  deriving DecidableEq, Repr

/-- The call of `String::operator=` made by an assignment to `result.ibeacon.uuid` or to
`result.eddystone_url.url`: it is defined only while the start of the payload union holds a
`String` object. -/
def assignString (result : BeaconData) : Run Unit :=
  if result.holds_string then pure () else Except.error Fault.deadString

/-- The constructor `BeaconData()`: unknown and invalid; `new (&ibeacon) iBeaconData()` puts an
empty `String` at the start of the payload union.  The fields the constructor leaves without a
value are given zeros. -/
def BeaconData.new : BeaconData :=
  { type := BEACON_TYPE_UNKNOWN
    valid := false
    ibeacon := { uuid := "", major := 0, minor := 0, tx_power := 0 }
    eddystone_uid := { namespace_id := List.replicate 10 0, instance_id := List.replicate 6 0,
                       tx_power := 0 }
    eddystone_url := { url := "", tx_power := 0 }
    eddystone_tlm := { battery_voltage := 0, temperature := 0, adv_count := 0, uptime := 0 }
    altbeacon := { id := List.replicate 16 0, major := 0, minor := 0, tx_power := 0,
                   mfg_reserved := 0 }
    holds_string := true }

/-! ## iBeaconParser -/

/-- One upper-case hexadecimal digit, for a digit value below 16. -/
def hexDigitUpper (n : Nat) : Char :=
  if n < 10 then Char.ofNat (48 + n) else Char.ofNat (55 + n)

/-- The call `sprintf(hex, "%02X", b)` for a `uint8_t` argument: two upper-case hexadecimal
digits, high nibble first. -/
def sprintf02X (b : Nat) : String :=
  String.mk [hexDigitUpper (b / 16), hexDigitUpper (b % 16)]

/-- The `while` loop of `iBeaconParser::findAppleManufacturerData`, started at cursor `pos`.
The result is `some (offset of out_data, out_len)` for `return true` and `none` for
`return false`. -/
def iBeaconParser.findAppleManufacturerDataLoop (data : List Nat) (len : Nat) :
    Nat → Nat → Run (Option (Nat × Nat))
  | 0, pos => if pos < len then .error .outOfFuel else pure none
  | fuel + 1, pos =>
    if pos < len then do
      let ad_len ← readByte data pos
      if ad_len = 0 then pure none
      else if pos + ad_len ≥ len then pure none
      else do
        let ad_type ← readByte data (pos + 1)
        let hit ←
          (if ad_type = 0xFF then
            if ad_len ≥ 2 then do
              let company_id_low ← readByte data (pos + 2)
              let company_id_high ← readByte data (pos + 3)
              if company_id_low = 0x4C ∧ company_id_high = 0x00 then
                pure (some (pos + 4, (ad_len - 2) % 256))
              else pure none
            else pure none
          else pure none : Run (Option (Nat × Nat)))
        match hit with
        | some found => pure (some found)
        | none =>
          iBeaconParser.findAppleManufacturerDataLoop data len fuel ((pos + ad_len + 1) % 256)
    else pure none

/-- The function `iBeaconParser::findAppleManufacturerData`. -/
def iBeaconParser.findAppleManufacturerData (data : List Nat) (len : Nat) :
    Run (Option (Nat × Nat)) :=
  iBeaconParser.findAppleManufacturerDataLoop data len len 0

/-- The function `iBeaconParser::canParse`. -/
def iBeaconParser.canParse (data : List Nat) (len : Nat) : Run Bool := do
  match ← iBeaconParser.findAppleManufacturerData data len with
  | none => pure false
  | some (mfg_data, mfg_len) =>
    if mfg_len < 2 then pure false
    else do
      let b0 ← readByte data mfg_data
      if b0 = 0x02 then do
        let b1 ← readByte data (mfg_data + 1)
        pure (decide (b1 = 0x15))
      else pure false

/-- The `for` loop of `iBeaconParser::uuidToString`: `n` iterations remain, `i` is the loop
counter and `uuid` the string built so far. -/
def iBeaconParser.uuidToStringLoop (data : List Nat) (uuid_bytes : Nat) :
    Nat → Nat → String → Run String
  | 0, _, uuid => pure uuid
  | n + 1, i, uuid => do
    let uuid1 :=
      if uuid.length > 0 then
        if i = 4 ∨ i = 6 ∨ i = 8 ∨ i = 10 then uuid ++ "-" else uuid
      else uuid
    let b ← readByte data (uuid_bytes + i)
    iBeaconParser.uuidToStringLoop data uuid_bytes n (i + 1) (uuid1 ++ sprintf02X b)

/-- The function `iBeaconParser::uuidToString`, applied to the pointer `&data[uuid_bytes]`. -/
def iBeaconParser.uuidToString (data : List Nat) (uuid_bytes : Nat) : Run String :=
  iBeaconParser.uuidToStringLoop data uuid_bytes 16 0 ""

/-- The function `iBeaconParser::parse`: the returned pair is the `bool` result and the
`BeaconData& result` after the call.  The statement `result.ibeacon.uuid = uuidToString(...)`
first evaluates its right-hand side and then assigns to the `String` in the union. -/
def iBeaconParser.parse (data : List Nat) (len : Nat) (result : BeaconData) :
    Run (Bool × BeaconData) := do
  match ← iBeaconParser.findAppleManufacturerData data len with
  | none => pure (false, { result with valid := false })
  | some (mfg_data, mfg_len) =>
    if mfg_len < 23 then pure (false, { result with valid := false })
    else do
      let b0 ← readByte data mfg_data
      if b0 ≠ 0x02 then pure (false, { result with valid := false })
      else do
        let b1 ← readByte data (mfg_data + 1)
        if b1 ≠ 0x15 then pure (false, { result with valid := false })
        else do
          let uuid ← iBeaconParser.uuidToString data (mfg_data + 2)
          assignString result
          let m18 ← readByte data (mfg_data + 18)
          let m19 ← readByte data (mfg_data + 19)
          let m20 ← readByte data (mfg_data + 20)
          let m21 ← readByte data (mfg_data + 21)
          let m22 ← readByte data (mfg_data + 22)
          pure (true,
            { result with
              ibeacon :=
                { uuid := uuid
                  major := ((m18 <<< 8) ||| m19) % 65536
                  minor := ((m20 <<< 8) ||| m21) % 65536
                  tx_power := toInt8 m22 }
              type := BEACON_TYPE_IBEACON
              valid := true })

/-! ## AltBeaconParser -/

/-- The `while` loop of `AltBeaconParser::findRadiusManufacturerData`, started at cursor
`pos`. -/
def AltBeaconParser.findRadiusManufacturerDataLoop (data : List Nat) (len : Nat) :
    Nat → Nat → Run (Option (Nat × Nat))
  | 0, pos => if pos < len then .error .outOfFuel else pure none
  | fuel + 1, pos =>
    if pos < len then do
      let ad_len ← readByte data pos
      if ad_len = 0 then pure none
      else if pos + ad_len ≥ len then pure none
      else do
        let ad_type ← readByte data (pos + 1)
        let hit ←
          (if ad_type = 0xFF then
            if ad_len ≥ 2 then do
              let company_id_low ← readByte data (pos + 2)
              let company_id_high ← readByte data (pos + 3)
              if company_id_low = 0x18 ∧ company_id_high = 0x01 then
                pure (some (pos + 4, (ad_len - 2) % 256))
              else pure none
            else pure none
          else pure none : Run (Option (Nat × Nat)))
        match hit with
        | some found => pure (some found)
        | none =>
          AltBeaconParser.findRadiusManufacturerDataLoop data len fuel
            ((pos + ad_len + 1) % 256)
    else pure none

/-- The function `AltBeaconParser::findRadiusManufacturerData`. -/
def AltBeaconParser.findRadiusManufacturerData (data : List Nat) (len : Nat) :
    Run (Option (Nat × Nat)) :=
  AltBeaconParser.findRadiusManufacturerDataLoop data len len 0

/-- The function `AltBeaconParser::canParse`. -/
def AltBeaconParser.canParse (data : List Nat) (len : Nat) : Run Bool := do
  match ← AltBeaconParser.findRadiusManufacturerData data len with
  | none => pure false
  | some (mfg_data, mfg_len) =>
    if mfg_len < 2 then pure false
    else do
      let b0 ← readByte data mfg_data
      if b0 = 0xBE then do
        let b1 ← readByte data (mfg_data + 1)
        pure (decide (b1 = 0xAC))
      else pure false

/-- The function `AltBeaconParser::parse`.  Its writes to `result.altbeacon` put plain bytes
over the start of the payload union. -/
def AltBeaconParser.parse (data : List Nat) (len : Nat) (result : BeaconData) :
    Run (Bool × BeaconData) := do
  match ← AltBeaconParser.findRadiusManufacturerData data len with
  | none => pure (false, { result with valid := false })
  | some (mfg_data, mfg_len) =>
    if mfg_len < 24 then pure (false, { result with valid := false })
    else do
      let b0 ← readByte data mfg_data
      if b0 ≠ 0xBE then pure (false, { result with valid := false })
      else do
        let b1 ← readByte data (mfg_data + 1)
        if b1 ≠ 0xAC then pure (false, { result with valid := false })
        else do
          let id ← readBytes data (mfg_data + 2) 16
          let m18 ← readByte data (mfg_data + 18)
          let m19 ← readByte data (mfg_data + 19)
          let m20 ← readByte data (mfg_data + 20)
          let m21 ← readByte data (mfg_data + 21)
          let m22 ← readByte data (mfg_data + 22)
          let m23 ← readByte data (mfg_data + 23)
          pure (true,
            { result with
              altbeacon :=
                { id := id
                  tx_power := toInt8 m18
                  mfg_reserved := m19
                  major := ((m20 <<< 8) ||| m21) % 65536
                  minor := ((m22 <<< 8) ||| m23) % 65536 }
              holds_string := false
              type := BEACON_TYPE_ALTBEACON
              valid := true })

/-! ## EddystoneParser -/

/-- The `while` loop of `EddystoneParser::findEddystoneServiceData`, started at cursor
`pos`. -/
def EddystoneParser.findEddystoneServiceDataLoop (data : List Nat) (len : Nat) :
    Nat → Nat → Run (Option (Nat × Nat))
  | 0, pos => if pos < len then .error .outOfFuel else pure none
  | fuel + 1, pos =>
    if pos < len then do
      let ad_len ← readByte data pos
      if ad_len = 0 then pure none
      else if pos + 1 + ad_len > len then pure none
      else do
        let ad_type ← readByte data (pos + 1)
        let hit ←
          (if ad_type = 0x16 then
            if ad_len ≥ 2 then do
              let uuid_low ← readByte data (pos + 2)
              let uuid_high ← readByte data (pos + 3)
              if uuid_low = 0xAA ∧ uuid_high = 0xFE then
                pure (some (pos + 2, (ad_len - 1) % 256))
              else pure none
            else pure none
          else pure none : Run (Option (Nat × Nat)))
        match hit with
        | some found => pure (some found)
        | none =>
          EddystoneParser.findEddystoneServiceDataLoop data len fuel
            ((pos + ad_len + 1) % 256)
    else pure none

/-- The function `EddystoneParser::findEddystoneServiceData`. -/
def EddystoneParser.findEddystoneServiceData (data : List Nat) (len : Nat) :
    Run (Option (Nat × Nat)) :=
  EddystoneParser.findEddystoneServiceDataLoop data len len 0

/-- The function `EddystoneParser::canParse`. -/
def EddystoneParser.canParse (data : List Nat) (len : Nat) : Run Bool := do
  match ← EddystoneParser.findEddystoneServiceData data len with
  | none => pure false
  | some _ => pure true

/-- The function `EddystoneParser::decodeURLScheme`. -/
def EddystoneParser.decodeURLScheme (encoded_url : Nat) : String :=
  match encoded_url with
  | 0x00 => "http://www."
  | 0x01 => "https://www."
  | 0x02 => "http://"
  | 0x03 => "https://"
  | _ => ""

/-- The function `EddystoneParser::decodeURLSuffix`. -/
def EddystoneParser.decodeURLSuffix (encoded_suffix : Nat) : String :=
  match encoded_suffix with
  | 0x00 => ".com/"
  | 0x01 => ".org/"
  | 0x02 => ".edu/"
  | 0x03 => ".net/"
  | 0x04 => ".info/"
  | 0x05 => ".biz/"
  | 0x06 => ".gov/"
  | 0x07 => ".com"
  | 0x08 => ".org"
  | 0x09 => ".edu"
  | 0x0A => ".net"
  | 0x0B => ".info"
  | 0x0C => ".biz"
  | 0x0D => ".gov"
  | _ => ""

/-- The function `EddystoneParser::parseUID`, applied to the pointer `&data[frame_data]`.  Its
writes to `result.eddystone_uid` put plain bytes over the start of the payload union. -/
def EddystoneParser.parseUID (data : List Nat) (frame_data frame_len : Nat)
    (result : BeaconData) : Run (Bool × BeaconData) :=
  if frame_len < 17 then pure (false, { result with valid := false })
  else do
    let f0 ← readByte data frame_data
    let namespace_id ← readBytes data (frame_data + 1) 10
    let instance_id ← readBytes data (frame_data + 11) 6
    pure (true,
      { result with
        eddystone_uid :=
          { tx_power := toInt8 f0, namespace_id := namespace_id, instance_id := instance_id }
        holds_string := false
        type := BEACON_TYPE_EDDYSTONE_UID
        valid := true })

/-- The `for (uint8_t i = 2; i < frame_len; i++)` loop of `EddystoneParser::parseURL`: `n`
iterations remain (`n = frame_len - i`), `i` is the loop counter and `url` the string built
so far. -/
def EddystoneParser.parseURLLoop (data : List Nat) (frame_data : Nat) :
    Nat → Nat → String → Run String
  | 0, _, url => pure url
  | n + 1, i, url => do
    let b ← readByte data (frame_data + i)
    let suffix := EddystoneParser.decodeURLSuffix b
    let url1 := if suffix.length > 0 then url ++ suffix else url.push (Char.ofNat b)
    EddystoneParser.parseURLLoop data frame_data n (i + 1) url1

/-- The function `EddystoneParser::parseURL`.  The write to `eddystone_url.tx_power` comes
before the scheme check, as in the source; the assignment `result.eddystone_url.url = url`
to the `String` in the union comes after the loop. -/
def EddystoneParser.parseURL (data : List Nat) (frame_data frame_len : Nat)
    (result : BeaconData) : Run (Bool × BeaconData) :=
  if frame_len < 2 then pure (false, { result with valid := false })
  else do
    let f0 ← readByte data frame_data
    let result1 : BeaconData :=
      { result with eddystone_url := { result.eddystone_url with tx_power := toInt8 f0 } }
    let f1 ← readByte data (frame_data + 1)
    let url := EddystoneParser.decodeURLScheme f1
    if url.length = 0 then pure (false, { result1 with valid := false })
    else do
      let url1 ← EddystoneParser.parseURLLoop data frame_data (frame_len - 2) 2 url
      assignString result1
      pure (true,
        { result1 with
          eddystone_url := { result1.eddystone_url with url := url1 }
          type := BEACON_TYPE_EDDYSTONE_URL
          valid := true })

/-- The function `EddystoneParser::parseTLM`.  Its writes to `result.eddystone_tlm` put plain
bytes over the start of the payload union. -/
def EddystoneParser.parseTLM (data : List Nat) (frame_data frame_len : Nat)
    (result : BeaconData) : Run (Bool × BeaconData) :=
  if frame_len < 13 then pure (false, { result with valid := false })
  else do
    let version ← readByte data frame_data
    if version ≠ 0x00 then pure (false, { result with valid := false })
    else do
      let f1 ← readByte data (frame_data + 1)
      let f2 ← readByte data (frame_data + 2)
      let f3 ← readByte data (frame_data + 3)
      let f4 ← readByte data (frame_data + 4)
      let temp_raw : Int := toInt16 ((f3 <<< 8) ||| f4)
      let f5 ← readByte data (frame_data + 5)
      let f6 ← readByte data (frame_data + 6)
      let f7 ← readByte data (frame_data + 7)
      let f8 ← readByte data (frame_data + 8)
      let f9 ← readByte data (frame_data + 9)
      let f10 ← readByte data (frame_data + 10)
      let f11 ← readByte data (frame_data + 11)
      let f12 ← readByte data (frame_data + 12)
      let sec_raw : Nat :=
        (((f9 <<< 24) % 4294967296) ||| ((f10 <<< 16) % 4294967296) |||
          ((f11 <<< 8) % 4294967296) ||| (f12 % 4294967296)) % 4294967296
      pure (true,
        { result with
          eddystone_tlm :=
            { battery_voltage := ((f1 <<< 8) ||| f2) % 65536
              temperature := (temp_raw : ℚ) / 256
              adv_count :=
                (((f5 <<< 24) % 4294967296) ||| ((f6 <<< 16) % 4294967296) |||
                  ((f7 <<< 8) % 4294967296) ||| (f8 % 4294967296)) % 4294967296
              uptime := sec_raw / 10 }
          holds_string := false
          type := BEACON_TYPE_EDDYSTONE_TLM
          valid := true })

/-- The function `EddystoneParser::parse`. -/
def EddystoneParser.parse (data : List Nat) (len : Nat) (result : BeaconData) :
    Run (Bool × BeaconData) := do
  match ← EddystoneParser.findEddystoneServiceData data len with
  | none => pure (false, { result with valid := false })
  | some (service_data, service_len) =>
    if service_len < 3 then pure (false, { result with valid := false })
    else do
      let frame_type ← readByte data (service_data + 2)
      let frame_data := service_data + 3
      let frame_len := (service_len - 3) % 256
      if frame_type = 0x00 then EddystoneParser.parseUID data frame_data frame_len result
      else if frame_type = 0x10 then EddystoneParser.parseURL data frame_data frame_len result
      else if frame_type = 0x20 then EddystoneParser.parseTLM data frame_data frame_len result
      else pure (false, { result with valid := false })

/-! ## BLEBeaconParser -/

/-- The function `BLEBeaconParser::parse`.  The argument `data` is `none` for a null
pointer. -/
def BLEBeaconParser.parse (data : Option (List Nat)) (len : Nat) (result : BeaconData) :
    Run (Bool × BeaconData) :=
  let result0 : BeaconData := { result with type := BEACON_TYPE_UNKNOWN, valid := false }
  match data with
  | none => pure (false, result0)
  | some data =>
    if len = 0 then pure (false, result0)
    else do
      let c1 ← iBeaconParser.canParse data len
      let (r1, result1) ← (if c1 then iBeaconParser.parse data len result0
                            else pure (false, result0) : Run (Bool × BeaconData))
      if r1 then pure (true, result1)
      else do
        let c2 ← AltBeaconParser.canParse data len
        let (r2, result2) ← (if c2 then AltBeaconParser.parse data len result1
                              else pure (false, result1) : Run (Bool × BeaconData))
        if r2 then pure (true, result2)
        else do
          let c3 ← EddystoneParser.canParse data len
          let (r3, result3) ← (if c3 then EddystoneParser.parse data len result2
                                else pure (false, result2) : Run (Bool × BeaconData))
          if r3 then pure (true, result3)
          else pure (false, result3)

/-- The function `BLEBeaconParser::findManufacturerData`: its `while` loop, started at
cursor `pos`. -/
def BLEBeaconParser.findManufacturerDataLoop (data : List Nat) (len company_id : Nat) :
    Nat → Nat → Run (Option (Nat × Nat))
  | 0, pos => if pos < len then .error .outOfFuel else pure none
  | fuel + 1, pos =>
    if pos < len then do
      let ad_len ← readByte data pos
      if ad_len = 0 then pure none
      else if pos + ad_len ≥ len then pure none
      else do
        let ad_type ← readByte data (pos + 1)
        let hit ←
          (if ad_type = 0xFF then
            if ad_len ≥ 2 then do
              let company_id_low ← readByte data (pos + 2)
              let company_id_high ← readByte data (pos + 3)
              let found_company_id := ((company_id_high <<< 8) ||| company_id_low) % 65536
              if found_company_id = company_id then
                pure (some (pos + 4, (ad_len - 2) % 256))
              else pure none
            else pure none
          else pure none : Run (Option (Nat × Nat)))
        match hit with
        | some found => pure (some found)
        | none =>
          BLEBeaconParser.findManufacturerDataLoop data len company_id fuel
            ((pos + ad_len + 1) % 256)
    else pure none

/-- The function `BLEBeaconParser::findManufacturerData`. -/
def BLEBeaconParser.findManufacturerData (data : List Nat) (len company_id : Nat) :
    Run (Option (Nat × Nat)) :=
  BLEBeaconParser.findManufacturerDataLoop data len company_id len 0

/-- The function `BLEBeaconParser::findServiceData`: its `while` loop, started at cursor
`pos`. -/
def BLEBeaconParser.findServiceDataLoop (data : List Nat) (len service_uuid : Nat) :
    Nat → Nat → Run (Option (Nat × Nat))
  | 0, pos => if pos < len then .error .outOfFuel else pure none
  | fuel + 1, pos =>
    if pos < len then do
      let ad_len ← readByte data pos
      if ad_len = 0 then pure none
      else if pos + ad_len ≥ len then pure none
      else do
        let ad_type ← readByte data (pos + 1)
        let hit ←
          (if ad_type = 0x16 then
            if ad_len ≥ 2 then do
              let uuid_low ← readByte data (pos + 2)
              let uuid_high ← readByte data (pos + 3)
              let found_uuid := ((uuid_high <<< 8) ||| uuid_low) % 65536
              if found_uuid = service_uuid then
                pure (some (pos + 2, ad_len))
              else pure none
            else pure none
          else pure none : Run (Option (Nat × Nat)))
        match hit with
        | some found => pure (some found)
        | none =>
          BLEBeaconParser.findServiceDataLoop data len service_uuid fuel
            ((pos + ad_len + 1) % 256)
    else pure none

/-- The function `BLEBeaconParser::findServiceData`. -/
def BLEBeaconParser.findServiceData (data : List Nat) (len service_uuid : Nat) :
    Run (Option (Nat × Nat)) :=
  BLEBeaconParser.findServiceDataLoop data len service_uuid len 0

/-- The function `BLEBeaconParser::findADType`: its `while` loop, started at cursor
`pos`. -/
def BLEBeaconParser.findADTypeLoop (data : List Nat) (len ad_type : Nat) :
    Nat → Nat → Run (Option (Nat × Nat))
  | 0, pos => if pos < len then .error .outOfFuel else pure none
  | fuel + 1, pos =>
    if pos < len then do
      let ad_len ← readByte data pos
      if ad_len = 0 then pure none
      else if pos + ad_len ≥ len then pure none
      else do
        let found_type ← readByte data (pos + 1)
        if found_type = ad_type then pure (some (pos + 2, (ad_len - 1) % 256))
        else BLEBeaconParser.findADTypeLoop data len ad_type fuel ((pos + ad_len + 1) % 256)
    else pure none

/-- The function `BLEBeaconParser::findADType`. -/
def BLEBeaconParser.findADType (data : List Nat) (len ad_type : Nat) :
    Run (Option (Nat × Nat)) :=
  BLEBeaconParser.findADTypeLoop data len ad_type len 0

/-! ## Sample packets of the unit tests -/

/-- The array `ibeacon_packet` of `test_iBeacon.cpp`. -/
def ibeacon_packet : List Nat :=
  [0x1A, 0xFF, 0x4C, 0x00, 0x02, 0x15,
   0x5F, 0x2D, 0xD8, 0x96, 0xB8, 0x86, 0x45, 0x49, 0xAE, 0x01, 0xE4, 0x1A, 0xCD, 0x7A, 0x35, 0x4A,
   0x00, 0x01, 0x00, 0x02, 0xC5]

/-- The array `altbeacon_packet` of `test_AltBeacon.cpp`. -/
def altbeacon_packet : List Nat :=
  [0x1B, 0xFF, 0x18, 0x01, 0xBE, 0xAC,
   0x00, 0x11, 0x22, 0x33, 0x44, 0x55, 0x66, 0x77, 0x88, 0x99, 0xAA, 0xBB, 0xCC, 0xDD, 0xEE, 0xFF,
   0xC5, 0x00, 0x00, 0x01, 0x00, 0x02]

/-- The array `eddystone_uid_packet` of `test_Eddystone.cpp`. -/
def eddystone_uid_packet : List Nat :=
  [0x15, 0x16, 0xAA, 0xFE, 0x00, 0xF0,
   0x00, 0x11, 0x22, 0x33, 0x44, 0x55, 0x66, 0x77, 0x88, 0x99,
   0xAA, 0xBB, 0xCC, 0xDD, 0xEE, 0xFF]

/-- The array `eddystone_url_packet` of `test_Eddystone.cpp`. -/
def eddystone_url_packet : List Nat :=
  [0x0E, 0x16, 0xAA, 0xFE, 0x10, 0xF0, 0x00, 0x65, 0x78, 0x61, 0x6D, 0x70, 0x6C, 0x65, 0x00]

/-- The array `eddystone_tlm_packet` of `test_Eddystone.cpp`. -/
def eddystone_tlm_packet : List Nat :=
  [0x11, 0x16, 0xAA, 0xFE, 0x20, 0x00, 0x0B, 0xB8, 0x19, 0x00,
   0x00, 0x00, 0x00, 0x64, 0x00, 0x00, 0x03, 0xE8]


/-! ## Reference renderings used to state the properties -/

/-- The sixteen upper-case hexadecimal digits, in order of value. -/
def upperHexDigits : List Char := "0123456789ABCDEF".toList

/-- The two hexadecimal digits of a byte, high nibble first. -/
def hexPair (b : Nat) : List Char :=
  [upperHexDigits.getD (b / 16) '?', upperHexDigits.getD (b % 16) '?']

/-- The rendering `XXXXXXXX-XXXX-XXXX-XXXX-XXXXXXXXXXXX` of sixteen bytes: groups of 4, 2, 2, 2
and 6 bytes, two upper-case hexadecimal digits per byte, joined by hyphens. -/
def dashedHex (u : List Nat) : String :=
  String.mk (List.intercalate ['-']
    [(u.take 4).flatMap hexPair, ((u.drop 4).take 2).flatMap hexPair, ((u.drop 6).take 2).flatMap hexPair,
     ((u.drop 8).take 2).flatMap hexPair, (u.drop 10).flatMap hexPair])

/-- A byte read as a signed 8-bit integer. -/
def signedByte (t : Nat) : Int := if t < 128 then (t : Int) else (t : Int) - 256

/-- The characters appended by the loop of `uuidToString` for the bytes `bs`, the first of
which has loop counter `i`. -/
def uuidChars : Nat → List Nat → List Char
  | _, [] => []
  | i, b :: bs =>
    (if i = 4 ∨ i = 6 ∨ i = 8 ∨ i = 10 then ['-'] else []) ++
      ([hexDigitUpper (b / 16), hexDigitUpper (b % 16)] ++ uuidChars (i + 1) bs)

/-- A 16-bit value read as a two's-complement signed integer. -/
def signed16 (x : Nat) : Int := if x < 32768 then (x : Int) else (x : Int) - 65536

/-- The big-endian 32-bit value of four bytes. -/
def bigEndian32 (a b c d : Nat) : Nat := a * 16777216 + b * 65536 + c * 256 + d

/-- The four URL scheme strings, indexed by scheme code. -/
def schemeTable : List String := ["http://www.", "https://www.", "http://", "https://"]

/-- The fourteen URL expansion strings, indexed by the codes `0x00..0x0D`. -/
def suffixTable : List String :=
  [".com/", ".org/", ".edu/", ".net/", ".info/", ".biz/", ".gov/",
   ".com", ".org", ".edu", ".net", ".info", ".biz", ".gov"]

/-- The text one encoded URL byte stands for: its table entry for a code `0x00..0x0D`, and the
one-character string holding the byte otherwise. -/
def expandURLByte (b : Nat) : String :=
  suffixTable.getD b (String.singleton (Char.ofNat b))

/-- The decoded URL of scheme code `c` and encoded bytes `r`:
`scheme(c) ++ e(r[0]) ++ ... ++ e(r[k-1])`. -/
def expectedURL (c : Nat) (r : List Nat) : String :=
  r.foldl (fun acc b => acc ++ expandURLByte b) (schemeTable.getD c "")

/-- The result object as the dispatcher hands it to the first decoder: unknown and invalid. -/
def resetResult (result : BeaconData) : BeaconData :=
  { result with type := BEACON_TYPE_UNKNOWN, valid := false }

/-- A decoder accepts a buffer with reading `res`: its `canParse` returns true and its `parse`,
started on the reset result, then succeeds and leaves `res`. -/
def decoderAccepts (canParse : Run Bool) (parse : BeaconData → Run (Bool × BeaconData))
    (result res : BeaconData) : Prop :=
  canParse = Except.ok true ∧ parse (resetResult result) = Except.ok (true, res)

/-- A decoder declines a buffer: its `canParse` returns false, or returns true and its `parse`
then fails. -/
def decoderDeclines (canParse : Run Bool) (parse : BeaconData → Run (Bool × BeaconData))
    (result : BeaconData) : Prop :=
  canParse = Except.ok false ∨
    (canParse = Except.ok true ∧ ∃ r, parse (resetResult result) = Except.ok (false, r))

/-- The result object that `BLEBeaconParser::parse` leaves when it decodes
`eddystone_uid_packet` into a new `BeaconData`.  A caller that keeps one `BeaconData` for all
its calls, as `examples/generic_example/main.cpp` does, passes it in such a state to the next
call. -/
def uid_decoded_result : BeaconData :=
  { BeaconData.new with
    type := BEACON_TYPE_EDDYSTONE_UID
    valid := true
    eddystone_uid :=
      { tx_power := -16
        namespace_id := [0x00, 0x11, 0x22, 0x33, 0x44, 0x55, 0x66, 0x77, 0x88, 0x99]
        instance_id := [0xAA, 0xBB, 0xCC, 0xDD, 0xEE, 0xFF] }
    holds_string := false }

/-- An Eddystone-UID record followed by the iBeacon record of the unit test, in one buffer. -/
def uid_then_ibeacon_packet : List Nat := eddystone_uid_packet ++ ibeacon_packet

/-! ## The record chain and the common shape of the scanners -/

/-- The records `recs` (offset and length byte of each) are the AD structures met by starting
at offset `p` and advancing by `L + 1` past each structure with length byte `L`, and `e` is the
offset reached after them: every length byte is non-zero and every structure lies inside the
first `len` bytes. -/
def isChain (data : List Nat) (len : Nat) : Nat → List (Nat × Nat) → Nat → Prop
  | p, [], e => p = e
  | p, (q, L) :: rs, e =>
    q = p ∧ data[p]? = some L ∧ L ≠ 0 ∧ p + 1 + L ≤ len ∧ isChain data len (p + L + 1) rs e

/-- The full record chain of a buffer, as a list of (offset, length byte): start at `p` and
advance by `L + 1`, stopping at an offset `≥ len`, at a zero length byte, or at a structure
with `offset + 1 + L > len`.  The first argument bounds the number of records. -/
def recordChainFrom (data : List Nat) (len : Nat) : Nat → Nat → List (Nat × Nat)
  | 0, _ => []
  | fuel + 1, p =>
    if p < len then
      match data[p]? with
      | some L =>
        if L = 0 then []
        else if p + 1 + L > len then []
        else (p, L) :: recordChainFrom data len fuel (p + L + 1)
      | none => []
    else []

/-- The record chain of a buffer, from offset 0. -/
def recordChain (data : List Nat) (len : Nat) : List (Nat × Nat) :=
  recordChainFrom data len len 0

/-- The record `(p, L)` carries AD type `ty` and the two key bytes `lo`, `hi` as the scanners
test it: the type byte at `p + 1`, a length byte of at least 2, and the bytes at `p + 2` and
`p + 3`. -/
def recordHasKey (data : List Nat) (ty lo hi : Nat) (r : Nat × Nat) : Prop :=
  data[r.1 + 1]? = some ty ∧ 2 ≤ r.2 ∧ data[r.1 + 2]? = some lo ∧ data[r.1 + 3]? = some hi

/-- The record `(p, L)` has AD type `ty` and a value (the `L - 1` bytes after the type byte) of
at least two bytes that starts with the key bytes `lo`, `hi`. -/
def recordValueHasKey (data : List Nat) (ty lo hi : Nat) (r : Nat × Nat) : Prop :=
  data[r.1 + 1]? = some ty ∧ 2 ≤ r.2 - 1 ∧ data[r.1 + 2]? = some lo ∧ data[r.1 + 3]? = some hi

/-- The loop shared by the five scanners, with the AD type `ty`, the test `key` on the two
sub-key bytes and the output `out` as parameters. -/
def scanLoop (data : List Nat) (len ty : Nat) (key : Nat → Nat → Bool)
    (out : Nat → Nat → Nat × Nat) : Nat → Nat → Run (Option (Nat × Nat))
  | 0, pos => if pos < len then .error .outOfFuel else pure none
  | fuel + 1, pos =>
    if pos < len then do
      let ad_len ← readByte data pos
      if ad_len = 0 then pure none
      else if pos + ad_len ≥ len then pure none
      else do
        let ad_type ← readByte data (pos + 1)
        let hit ←
          (if ad_type = ty then
            if ad_len ≥ 2 then do
              let lo ← readByte data (pos + 2)
              let hi ← readByte data (pos + 3)
              if key lo hi then pure (some (out pos ad_len)) else pure none
            else pure none
          else pure none : Run (Option (Nat × Nat)))
        match hit with
        | some found => pure (some found)
        | none => scanLoop data len ty key out fuel ((pos + ad_len + 1) % 256)
    else pure none

/-- The array `packet` of `test_findManufacturerData` in `test_helpers.cpp`. -/
def manufacturer_test_packet : List Nat :=
  [0x05, 0xFF, 0x4C, 0x00, 0x01, 0x02, 0x03, 0x01, 0x02, 0x03]

/-- The array `packet` of `test_findServiceData` in `test_helpers.cpp`. -/
def service_test_packet : List Nat :=
  [0x05, 0x16, 0xAA, 0xFE, 0x01, 0x03, 0x01, 0x02, 0x03]

/-- A flags record, a zero length byte and then the iBeacon record of the unit test. -/
def flags_zero_ibeacon_packet : List Nat := [0x02, 0x01, 0x06, 0x00] ++ ibeacon_packet

/-- The array `short_data` of `test_iBeacon_invalid_data`. -/
def short_data : List Nat := [0x05, 0xFF, 0x4C, 0x00, 0x02]

/-- A manufacturer record with a single value byte (`02 FF 4C`) followed by a flags record
(`02 01 06`). -/
def short_manufacturer_packet : List Nat := [0x02, 0xFF, 0x4C, 0x02, 0x01, 0x06]

/-! ## Buffers on which the returned views are followed to their end -/

/-- An Apple manufacturer record with length byte 25 (`0x19`): type, company ID and 22 further
bytes (prefix, UUID, major, minor), without a TX-power byte.  The record is the whole buffer. -/
def ibeacon_len25_packet : List Nat :=
  [0x19, 0xFF, 0x4C, 0x00, 0x02, 0x15,
   0x5F, 0x2D, 0xD8, 0x96, 0xB8, 0x86, 0x45, 0x49, 0xAE, 0x01, 0xE4, 0x1A, 0xCD, 0x7A, 0x35, 0x4A,
   0x00, 0x01, 0x00, 0x02]

/-- A Radius Networks manufacturer record with length byte 26 (`0x1A`): type, company ID and
23 further bytes (beacon code, id, RSSI, reserved, major, high byte of minor).  The record is
the whole buffer. -/
def altbeacon_len26_packet : List Nat :=
  [0x1A, 0xFF, 0x18, 0x01, 0xBE, 0xAC,
   0x01, 0x02, 0x03, 0x04, 0x05, 0x06, 0x07, 0x08, 0x09, 0x0A, 0x0B, 0x0C, 0x0D, 0x0E, 0x0F, 0x10,
   0xC5, 0x00, 0x00, 0x01, 0x00]

/-- The Apple record of `ibeacon_len25_packet` followed by a flags record `02 01 06`. -/
def ibeacon_len25_flags_packet : List Nat := ibeacon_len25_packet ++ [0x02, 0x01, 0x06]

/-- The Apple record of `ibeacon_len25_packet` followed by an Eddystone-URL record with TX
power `F0` and scheme byte `00`: 33 bytes. -/
def ibeacon_len25_url_packet : List Nat :=
  ibeacon_len25_packet ++ [0x06, 0x16, 0xAA, 0xFE, 0x10, 0xF0, 0x00]

/-- The array `packet` of `test_findManufacturerData` in
`lib/BLEBeaconParser/test/test_helpers.cpp`. -/
def manufacturer_lib_test_packet : List Nat :=
  [0x05, 0xFF, 0x4C, 0x00, 0x01, 0x03, 0x01, 0x02, 0x03]

/-- An Eddystone-URL record with TX power `F0`, the scheme byte `04` that the scheme table
does not hold, and one URL byte. -/
def url_unknown_scheme_packet : List Nat := [0x07, 0x16, 0xAA, 0xFE, 0x10, 0xF0, 0x04, 0x61]

/-! ## The dispatcher with its decoders in a given order -/

/-- The three decoders that `BLEBeaconParser::parse` calls. -/
inductive DecoderId where
  | ibeacon
  | altbeacon
  | eddystone
  deriving DecidableEq, Repr

/-- The `canParse` function of a decoder. -/
def DecoderId.canParse : DecoderId → List Nat → Nat → Run Bool
  | .ibeacon => iBeaconParser.canParse
  | .altbeacon => AltBeaconParser.canParse
  | .eddystone => EddystoneParser.canParse

/-- The `parse` function of a decoder. -/
def DecoderId.parse : DecoderId → List Nat → Nat → BeaconData → Run (Bool × BeaconData)
  | .ibeacon => iBeaconParser.parse
  | .altbeacon => AltBeaconParser.parse
  | .eddystone => EddystoneParser.parse

/-- The sequence of guarded calls `if (D::canParse(data, len)) { if (D::parse(data, len,
result)) return true; }` of `BLEBeaconParser::parse`, for the decoders `D` of the list in the
order of the list, followed by `return false`. -/
def tryDecoders (data : List Nat) (len : Nat) :
    List DecoderId → BeaconData → Run (Bool × BeaconData)
  | [], result => pure (false, result)
  | d :: ds, result => do
    let c ← d.canParse data len
    let (r, result1) ← (if c then d.parse data len result
                         else pure (false, result) : Run (Bool × BeaconData))
    if r then pure (true, result1)
    else tryDecoders data len ds result1

/-- The body of `BLEBeaconParser::parse` with its three guarded calls taken in the order
`order`; the source has the order iBeacon, AltBeacon, Eddystone. -/
def parseInOrder (order : List DecoderId) (data : Option (List Nat)) (len : Nat)
    (result : BeaconData) : Run (Bool × BeaconData) :=
  let result0 : BeaconData := { result with type := BEACON_TYPE_UNKNOWN, valid := false }
  match data with
  | none => pure (false, result0)
  | some data =>
    if len = 0 then pure (false, result0)
    else tryDecoders data len order result0

/-- The order of the decoders in the source of `BLEBeaconParser::parse`. -/
def sourceOrder : List DecoderId := [.ibeacon, .altbeacon, .eddystone]

/-- The manufacturer scan for Apple returns a view of at least 23 bytes, the length that
`iBeaconParser::parse` asks for. -/
def appleViewOfParseLength (data : List Nat) (len : Nat) : Prop :=
  ∃ sd sl, iBeaconParser.findAppleManufacturerData data len = Except.ok (some (sd, sl)) ∧ 23 ≤ sl

/-- The manufacturer scan for Radius Networks returns a view of at least 24 bytes, the length
that `AltBeaconParser::parse` asks for. -/
def radiusViewOfParseLength (data : List Nat) (len : Nat) : Prop :=
  ∃ sd sl,
    AltBeaconParser.findRadiusManufacturerData data len = Except.ok (some (sd, sl)) ∧ 24 ≤ sl

/-- The service-data scan for Eddystone returns a view of at least 5 bytes: UUID, frame type
and the 2 payload bytes that the shortest frame (Eddystone-URL) asks for. -/
def eddystoneViewOfFrameLength (data : List Nat) (len : Nat) : Prop :=
  ∃ sd sl,
    EddystoneParser.findEddystoneServiceData data len = Except.ok (some (sd, sl)) ∧ 5 ≤ sl

/-- The decoder `d` succeeds on the buffer: its `parse` returns true for some prior state of
the result. -/
def parseSucceeds (d : DecoderId) (data : List Nat) (len : Nat) : Prop :=
  ∃ r res, d.parse data len r = Except.ok (true, res)

/-- The scan of decoder `d` returns a view long enough for the decoder to succeed. -/
def viewOfParseLength (d : DecoderId) (data : List Nat) (len : Nat) : Prop :=
  match d with
  | .ibeacon => appleViewOfParseLength data len
  | .altbeacon => radiusViewOfParseLength data len
  | .eddystone => eddystoneViewOfFrameLength data len

/-- The guarded call of decoder `d` in `BLEBeaconParser::parse`, entered with result `s`,
runs without fault and leaves the flag `b` (true: the dispatcher returns true here) and the
result `s1`. -/
def guardedOutcome (data : List Nat) (len : Nat) (d : DecoderId) (s : BeaconData) (b : Bool)
    (s1 : BeaconData) : Prop :=
  ∃ c, d.canParse data len = Except.ok c ∧
    (if c then d.parse data len s else pure (false, s) : Run (Bool × BeaconData))
      = Except.ok (b, s1)

/-- Every `canParse` of the three decoders, and every `parse` of theirs that is entered with a
result whose `holds_string` is `alive`, runs on the buffer to its return: without a read
outside the array object, and without an assignment to a `String` that is no longer there. -/
def decodersDefined (data : List Nat) (len : Nat) (alive : Bool) : Prop :=
  ∀ d : DecoderId, (∃ c, d.canParse data len = Except.ok c) ∧
    ∀ r : BeaconData, r.holds_string = alive → ∃ p, d.parse data len r = Except.ok p

/-! ## Sample packets of the generic example -/

/-- The array `ibeacon_data` of `examples/generic_example/main.cpp`. -/
def ibeacon_data : List Nat :=
  [0x1A, 0xFF, 0x4C, 0x00, 0x02, 0x15,
   0x5F, 0x2D, 0xD8, 0x96, 0xB8, 0x86, 0x45, 0x49, 0xAE, 0x01, 0xE4, 0x1A, 0xCD, 0x7A, 0x35, 0x4A,
   0x00, 0x01, 0x00, 0x02, 0xC5]

/-- The array `eddystone_uid_data` of `examples/generic_example/main.cpp`. -/
def eddystone_uid_data : List Nat :=
  [0x15, 0x16, 0xAA, 0xFE, 0x00, 0xEE,
   0x00, 0x00, 0x00, 0x00, 0x00, 0x00, 0x00, 0x00, 0x00, 0x00,
   0x00, 0x00, 0x00, 0x00, 0x00, 0x00]

/-- The array `eddystone_url_data` of `examples/generic_example/main.cpp`: 14 bytes, the first
of which is the length byte `0x0F`. -/
def eddystone_url_data : List Nat :=
  [0x0F, 0x16, 0xAA, 0xFE, 0x10, 0xF4, 0x02, 0x67, 0x6F, 0x6F, 0x67, 0x6C, 0x65, 0x07]

/-- The array `altbeacon_data` of `examples/generic_example/main.cpp`: 28 bytes, the first of
which is the length byte `0x1C`. -/
def altbeacon_data : List Nat :=
  [0x1C, 0xFF, 0x18, 0x01, 0xBE, 0xAC,
   0x00, 0x00, 0x00, 0x00, 0x00, 0x00, 0x00, 0x00, 0x00, 0x00, 0x00, 0x00, 0x00, 0x00, 0x00, 0x00,
   0xC5, 0x00, 0x00, 0x01, 0x00, 0x02]

/-! ## The two end-of-buffer tests -/

/-- The test `if (pos + ad_len >= len) break;` of the manufacturer-data scanners (and of
`findServiceData` and `findADType`); the `uint8_t` operands are promoted to `int`, so the sum
is the sum of the integers. -/
def manufacturerEndTest (pos ad_len len : Nat) : Bool := decide (pos + ad_len ≥ len)

/-- The test `if (pos + 1 + ad_len > len) break;` of
`EddystoneParser::findEddystoneServiceData`, on integers as well. -/
def eddystoneEndTest (pos ad_len len : Nat) : Bool := decide (pos + 1 + ad_len > len)

/-! ## Vocabulary for termination, reads and wrap-around -/

/-- The run ends by itself: it returns, or it stops at a read outside the array object or at
an assignment to a `String` that is no longer there; it does not use up the fuel of a loop. -/
def terminates {α : Type} (x : Run α) : Prop := x ≠ Except.error Fault.outOfFuel

/-- The part of `EddystoneParser::parse` that follows the call of
`findEddystoneServiceData`, for the view `service_data`, `service_len` that the call has
returned. -/
def EddystoneParser.parseService (data : List Nat) (service_data service_len : Nat)
    (result : BeaconData) : Run (Bool × BeaconData) :=
  if service_len < 3 then pure (false, { result with valid := false })
  else do
    let frame_type ← readByte data (service_data + 2)
    let frame_data := service_data + 3
    let frame_len := (service_len - 3) % 256
    if frame_type = 0x00 then EddystoneParser.parseUID data frame_data frame_len result
    else if frame_type = 0x10 then EddystoneParser.parseURL data frame_data frame_len result
    else if frame_type = 0x20 then EddystoneParser.parseTLM data frame_data frame_len result
    else pure (false, { result with valid := false })

/-- How one iteration of a scanner loop ends.  `done`: the function returns, or the loop is
left by `break` or by its test `pos < len`; the value is the view when one is returned.
`next`: the iteration executes `pos += ad_len + 1` and the loop goes on; the value is the
`uint8_t` cursor after the update. -/
inductive ScanStep where
  | done (found : Option (Nat × Nat))
  | next (pos : Nat)
  deriving DecidableEq, Repr

/-- One iteration of the loop shared by the five scanners, entered with the cursor at `pos`:
the loop test and the loop body of `scanLoop`. -/
def scanStep (data : List Nat) (len ty : Nat) (key : Nat → Nat → Bool)
    (out : Nat → Nat → Nat × Nat) (pos : Nat) : Run ScanStep :=
  if pos < len then do
    let ad_len ← readByte data pos
    if ad_len = 0 then pure (.done none)
    else if pos + ad_len ≥ len then pure (.done none)
    else do
      let ad_type ← readByte data (pos + 1)
      let hit ←
        (if ad_type = ty then
          if ad_len ≥ 2 then do
            let lo ← readByte data (pos + 2)
            let hi ← readByte data (pos + 3)
            if key lo hi then pure (some (out pos ad_len)) else pure none
          else pure none
        else pure none : Run (Option (Nat × Nat)))
      match hit with
      | some found => pure (.done (some found))
      | none => pure (.next ((pos + ad_len + 1) % 256))
  else pure (.done none)

/-- One iteration of the loop of `BLEBeaconParser::findADType`, entered with the cursor at
`pos`: the loop test and the loop body of `findADTypeLoop`. -/
def BLEBeaconParser.findADTypeStep (data : List Nat) (len ad_type : Nat) (pos : Nat) :
    Run ScanStep :=
  if pos < len then do
    let ad_len ← readByte data pos
    if ad_len = 0 then pure (.done none)
    else if pos + ad_len ≥ len then pure (.done none)
    else do
      let found_type ← readByte data (pos + 1)
      if found_type = ad_type then pure (.done (some (pos + 2, (ad_len - 1) % 256)))
      else pure (.next ((pos + ad_len + 1) % 256))
  else pure (.done none)

/-- What follows an iteration: the result when the iteration is the last, and the rest of the
loop, entered at the new cursor, when it is not. -/
def continueWith (rest : Nat → Run (Option (Nat × Nat))) : ScanStep → Run (Option (Nat × Nat))
  | .done found => pure found
  | .next pos => rest pos

/-- The loop `loop` (fuel, then cursor) runs the iteration `step`, and every iteration that
updates the cursor does so at a record whose length byte `L` satisfies `pos + L < len`: the
new cursor is `pos + L + 1` as an integer, at most `len` and at most 255. -/
def advancesInBounds (data : List Nat) (len : Nat)
    (loop : Nat → Nat → Run (Option (Nat × Nat))) (step : Nat → Run ScanStep) : Prop :=
  (∀ fuel pos, loop (fuel + 1) pos = step pos >>= continueWith (loop fuel)) ∧
  ∀ pos p, step pos = Except.ok (ScanStep.next p) →
    ∃ L, data[pos]? = some L ∧ L ≠ 0 ∧ pos + L < len ∧
      p = pos + L + 1 ∧ p ≤ len ∧ p ≤ 255

theorem run_bind_ok {α β : Type} (a : α) (f : α → Run β) :
    (Except.ok a >>= f) = f a := rfl

theorem run_bind_error {α β : Type} (e : Fault) (f : α → Run β) :
    ((Except.error e : Run α) >>= f) = Except.error e := rfl

theorem run_pure {α : Type} (a : α) : (pure a : Run α) = Except.ok a := rfl

/-- An assignment to the `String` of a result whose union holds it is defined. -/
theorem assignString_live (r : BeaconData) (hs : r.holds_string = true) :
    assignString r = Except.ok () := by
  simp [assignString, hs, run_pure]

/-- An assignment to the `String` of a result whose union has been overwritten is not. -/
theorem assignString_dead (r : BeaconData) (hs : r.holds_string = false) :
    assignString r = Except.error Fault.deadString := by
  simp [assignString, hs]

theorem readByte_eq {data : List Nat} {i b : Nat} (h : data[i]? = some b) :
    readByte data i = Except.ok b := by
  simp [readByte, h]

theorem readByte_ok_iff {data : List Nat} {i b : Nat} :
    readByte data i = Except.ok b ↔ data[i]? = some b := by
  unfold readByte
  cases h : data[i]? <;> simp

theorem readByte_of_lt (data : List Nat) (i : Nat) (h : i < data.length) :
    ∃ b, readByte data i = Except.ok b ∧ data[i]? = some b := by
  refine ⟨data[i], ?_, ?_⟩
  · exact readByte_eq (List.getElem?_eq_getElem h)
  · exact List.getElem?_eq_getElem h

theorem hexDigitUpper_eq (n : Nat) (h : n < 16) :
    hexDigitUpper n = upperHexDigits.getD n '?' := by
  interval_cases n <;> rfl

theorem string_append_mk (s : String) (l : List Char) :
    s ++ String.mk l = String.mk (s.data ++ l) := by
  apply String.ext
  simp

theorem uuidToStringLoop_eq (data : List Nat) (off : Nat) :
    ∀ (bs : List Nat) (i : Nat) (acc : String), (i = 0 ∨ 0 < acc.length) →
      (∀ j, j < bs.length → data[off + i + j]? = bs[j]?) →
      iBeaconParser.uuidToStringLoop data off bs.length i acc
        = Except.ok (String.mk (acc.data ++ uuidChars i bs)) := by
  intro bs
  induction bs with
  | nil =>
    intro i acc _ _
    simp [iBeaconParser.uuidToStringLoop, uuidChars, run_pure]
  | cons b bs ih =>
    intro i acc hacc hrd
    have h0 : data[off + i]? = some b := by
      have := hrd 0 (by simp)
      simpa using this
    simp only [List.length_cons, iBeaconParser.uuidToStringLoop, readByte_eq h0]
    show iBeaconParser.uuidToStringLoop data off bs.length (i + 1) _ = _
    rw [ih]
    · congr 1
      apply String.ext
      rcases hacc with rfl | hpos
      · simp [uuidChars, sprintf02X]
      · by_cases hc : i = 4 ∨ i = 6 ∨ i = 8 ∨ i = 10
        · simp [uuidChars, sprintf02X, hpos, hc]
        · simp [uuidChars, sprintf02X, hpos, hc]
    · right
      simp [sprintf02X, String.length_append]
    · intro j hj
      have := hrd (j + 1) (by simpa using hj)
      simpa [Nat.add_assoc, Nat.add_comm 1 j] using this

theorem list16 (u : List Nat) (h : u.length = 16) :
    ∃ a0 a1 a2 a3 a4 a5 a6 a7 a8 a9 a10 a11 a12 a13 a14 a15,
      u = [a0, a1, a2, a3, a4, a5, a6, a7, a8, a9, a10, a11, a12, a13, a14, a15] := by
  rcases u with _ | ⟨a0, _ | ⟨a1, _ | ⟨a2, _ | ⟨a3, _ | ⟨a4, _ | ⟨a5, _ | ⟨a6, _ | ⟨a7, _ | ⟨a8, _ | ⟨a9, _ | ⟨a10, _ | ⟨a11, _ | ⟨a12, _ | ⟨a13, _ | ⟨a14, _ | ⟨a15, _ | ⟨a16, u⟩⟩⟩⟩⟩⟩⟩⟩⟩⟩⟩⟩⟩⟩⟩⟩⟩ <;> simp at h
  exact ⟨a0, a1, a2, a3, a4, a5, a6, a7, a8, a9, a10, a11, a12, a13, a14, a15, rfl⟩

theorem upperHexDigits_getD_mem (n : Nat) (h : n < 16) :
    upperHexDigits.getD n '?' ∈ upperHexDigits := by
  interval_cases n <;> decide

theorem upperHexDigits_getD_ne_dash (n : Nat) (h : n < 16) :
    upperHexDigits.getD n '?' ≠ '-' := by
  interval_cases n <;> decide

theorem hexDigitUpper_mem (n : Nat) (h : n < 16) : hexDigitUpper n ∈ upperHexDigits := by
  rw [hexDigitUpper_eq n h]
  exact upperHexDigits_getD_mem n h

theorem filter_uuidChars : ∀ (bs : List Nat) (i : Nat), (∀ b ∈ bs, b < 256) →
    (uuidChars i bs).filter (fun c => decide (c ≠ '-')) = bs.flatMap hexPair := by
  intro bs
  induction bs with
  | nil => intro i _; simp [uuidChars]
  | cons b bs ih =>
    intro i hb
    have hb0 : b < 256 := hb b (by simp)
    have h1 : b / 16 < 16 := by omega
    have h2 : b % 16 < 16 := by omega
    have ih1 := ih (i + 1) (fun x hx => hb x (by simp [hx]))
    have e1 := upperHexDigits_getD_ne_dash _ h1
    have e2 := upperHexDigits_getD_ne_dash _ h2
    simp only [uuidChars, hexDigitUpper_eq _ h1, hexDigitUpper_eq _ h2, List.filter_append,
      List.flatMap_cons, ih1, hexPair]
    generalize upperHexDigits.getD (b / 16) '?' = c1 at e1 ⊢
    generalize upperHexDigits.getD (b % 16) '?' = c2 at e2 ⊢
    by_cases hc : i = 4 ∨ i = 6 ∨ i = 8 ∨ i = 10
    · simp [hc, List.filter, e1, e2]
    · simp [hc, List.filter, e1, e2]

theorem uuidChars_eq_dashedHex (u : List Nat) (hlen : u.length = 16) (hb : ∀ b ∈ u, b < 256) :
    String.mk (uuidChars 0 u) = dashedHex u := by
  obtain ⟨a0, a1, a2, a3, a4, a5, a6, a7, a8, a9, a10, a11, a12, a13, a14, a15, rfl⟩ :=
    list16 u hlen
  have hd : ∀ b, b ∈ [a0, a1, a2, a3, a4, a5, a6, a7, a8, a9, a10, a11, a12, a13, a14, a15] →
      hexDigitUpper (b / 16) = upperHexDigits.getD (b / 16) '?' ∧
      hexDigitUpper (b % 16) = upperHexDigits.getD (b % 16) '?' := by
    intro b hmem
    have := hb b hmem
    exact ⟨hexDigitUpper_eq _ (by omega), hexDigitUpper_eq _ (by omega)⟩
  simp only [List.mem_cons, List.mem_singleton, forall_eq_or_imp, forall_eq, List.not_mem_nil,
    false_implies, implies_true, and_true] at hd
  obtain ⟨⟨p0, q0⟩, ⟨p1, q1⟩, ⟨p2, q2⟩, ⟨p3, q3⟩, ⟨p4, q4⟩, ⟨p5, q5⟩, ⟨p6, q6⟩, ⟨p7, q7⟩,
    ⟨p8, q8⟩, ⟨p9, q9⟩, ⟨p10, q10⟩, ⟨p11, q11⟩, ⟨p12, q12⟩, ⟨p13, q13⟩, ⟨p14, q14⟩,
    ⟨p15, q15⟩⟩ := hd
  simp only [uuidChars, p0, q0, p1, q1, p2, q2, p3, q3, p4, q4, p5, q5, p6, q6, p7, q7, p8, q8,
    p9, q9, p10, q10, p11, q11, p12, q12, p13, q13, p14, q14, p15, q15]
  simp [dashedHex, hexPair, List.intercalate, List.intersperse]

/-- The function `uuidToString` applied to a pointer to sixteen bytes `u` of the buffer returns
their dashed rendering. -/
theorem uuidToString_eq (data u : List Nat) (off : Nat) (hlen : u.length = 16)
    (hb : ∀ b ∈ u, b < 256) (hrd : ∀ j, j < 16 → data[off + j]? = u[j]?) :
    iBeaconParser.uuidToString data off = Except.ok (dashedHex u) := by
  have h := uuidToStringLoop_eq data off u 0 "" (Or.inl rfl)
    (by intro j hj; simpa using hrd j (by omega))
  rw [hlen] at h
  rw [iBeaconParser.uuidToString, h, ← uuidChars_eq_dashedHex u hlen hb]
  simp

/-- C2: for every sixteen bytes, `uuidToString` returns a string of exactly 36 characters with
a hyphen at indices 8, 13, 18 and 23 and an upper-case hexadecimal digit everywhere else;
without the hyphens it is the two digits of every byte in order, high nibble first. -/
theorem C2_uuidToString_format (u : List Nat) (hlen : u.length = 16) (hb : ∀ b ∈ u, b < 256) :
    ∃ s : String, iBeaconParser.uuidToString u 0 = Except.ok s ∧ s.length = 36 ∧
      (∀ i, i ∈ [8, 13, 18, 23] → s.data[i]? = some '-') ∧
      (∀ i, i < 36 → i ∉ [8, 13, 18, 23] → ∃ c, c ∈ upperHexDigits ∧ s.data[i]? = some c) ∧
      s.data.filter (fun c => decide (c ≠ '-')) = u.flatMap hexPair := by
  have h := uuidToStringLoop_eq u 0 u 0 "" (Or.inl rfl) (by intro j _; simp)
  rw [hlen] at h
  refine ⟨String.mk (uuidChars 0 u), ?_, ?_, ?_, ?_, ?_⟩
  · rw [iBeaconParser.uuidToString, h]; simp
  · obtain ⟨a0, a1, a2, a3, a4, a5, a6, a7, a8, a9, a10, a11, a12, a13, a14, a15, rfl⟩ :=
      list16 u hlen
    simp [uuidChars, String.length]
  · obtain ⟨a0, a1, a2, a3, a4, a5, a6, a7, a8, a9, a10, a11, a12, a13, a14, a15, rfl⟩ :=
      list16 u hlen
    intro i hi
    simp only [List.mem_cons, List.mem_singleton, List.not_mem_nil, or_false] at hi
    rcases hi with rfl | rfl | rfl | rfl <;> simp [uuidChars]
  · obtain ⟨a0, a1, a2, a3, a4, a5, a6, a7, a8, a9, a10, a11, a12, a13, a14, a15, rfl⟩ :=
      list16 u hlen
    have hm : ∀ b, b ∈ [a0, a1, a2, a3, a4, a5, a6, a7, a8, a9, a10, a11, a12, a13, a14, a15] →
        hexDigitUpper (b / 16) ∈ upperHexDigits ∧ hexDigitUpper (b % 16) ∈ upperHexDigits := by
      intro b hmem
      have := hb b hmem
      exact ⟨hexDigitUpper_mem _ (by omega), hexDigitUpper_mem _ (by omega)⟩
    simp only [List.mem_cons, List.mem_singleton, forall_eq_or_imp, forall_eq, List.not_mem_nil,
      false_implies, implies_true, and_true] at hm
    obtain ⟨⟨p0, q0⟩, ⟨p1, q1⟩, ⟨p2, q2⟩, ⟨p3, q3⟩, ⟨p4, q4⟩, ⟨p5, q5⟩, ⟨p6, q6⟩, ⟨p7, q7⟩,
      ⟨p8, q8⟩, ⟨p9, q9⟩, ⟨p10, q10⟩, ⟨p11, q11⟩, ⟨p12, q12⟩, ⟨p13, q13⟩, ⟨p14, q14⟩,
      ⟨p15, q15⟩⟩ := hm
    intro i hi hni
    simp only [List.mem_cons, List.mem_singleton, List.not_mem_nil, or_false, not_or] at hni
    obtain ⟨n1, n2, n3, n4⟩ := hni
    have hchars : uuidChars 0 [a0, a1, a2, a3, a4, a5, a6, a7, a8, a9, a10, a11, a12, a13, a14, a15]
        = [hexDigitUpper (a0 / 16), hexDigitUpper (a0 % 16), hexDigitUpper (a1 / 16),
           hexDigitUpper (a1 % 16), hexDigitUpper (a2 / 16), hexDigitUpper (a2 % 16),
           hexDigitUpper (a3 / 16), hexDigitUpper (a3 % 16), '-',
           hexDigitUpper (a4 / 16), hexDigitUpper (a4 % 16), hexDigitUpper (a5 / 16),
           hexDigitUpper (a5 % 16), '-',
           hexDigitUpper (a6 / 16), hexDigitUpper (a6 % 16), hexDigitUpper (a7 / 16),
           hexDigitUpper (a7 % 16), '-',
           hexDigitUpper (a8 / 16), hexDigitUpper (a8 % 16), hexDigitUpper (a9 / 16),
           hexDigitUpper (a9 % 16), '-',
           hexDigitUpper (a10 / 16), hexDigitUpper (a10 % 16), hexDigitUpper (a11 / 16),
           hexDigitUpper (a11 % 16), hexDigitUpper (a12 / 16), hexDigitUpper (a12 % 16),
           hexDigitUpper (a13 / 16), hexDigitUpper (a13 % 16), hexDigitUpper (a14 / 16),
           hexDigitUpper (a14 % 16), hexDigitUpper (a15 / 16), hexDigitUpper (a15 % 16)] := by
      simp [uuidChars]
    rw [hchars]
    interval_cases i <;> first
      | omega
      | (refine ⟨_, ?_, rfl⟩; assumption)
  · exact filter_uuidChars u 0 hb

/-! ## Arithmetic of the byte combinations -/

theorem shl8_or (a b : Nat) (hb : b < 256) : (a <<< 8 ||| b) = a * 256 + b := by
  have h := Nat.mul_add_lt_is_or (i := 8) (b := b) (by simpa using hb) a
  rw [Nat.shiftLeft_eq]
  rw [Nat.mul_comm] at h
  simpa using h.symm

theorem be16_split (x : Nat) (hx : x < 65536) :
    ((x / 256) <<< 8 ||| x % 256) % 65536 = x := by
  rw [shl8_or _ _ (Nat.mod_lt _ (by norm_num))]
  omega

theorem toInt8_eq_signedByte (t : Nat) (ht : t < 256) : toInt8 t = signedByte t := by
  unfold toInt8 signedByte
  rw [Nat.mod_eq_of_lt ht]

/-! ## One step of the scanners -/

theorem findApple_end (data : List Nat) (len fuel pos : Nat) (h : ¬ pos < len) :
    iBeaconParser.findAppleManufacturerDataLoop data len fuel pos = Except.ok none := by
  cases fuel <;> simp [iBeaconParser.findAppleManufacturerDataLoop, h, run_pure]

theorem findApple_hit (data : List Nat) (len fuel pos L : Nat)
    (h0 : data[pos]? = some L) (hL : L ≠ 0) (hlt : pos + L < len)
    (h1 : data[pos + 1]? = some 0xFF) (h2 : 2 ≤ L)
    (h3 : data[pos + 2]? = some 0x4C) (h4 : data[pos + 3]? = some 0x00) :
    iBeaconParser.findAppleManufacturerDataLoop data len (fuel + 1) pos
      = Except.ok (some (pos + 4, (L - 2) % 256)) := by
  have hp : pos < len := by omega
  have hn : ¬ (len ≤ pos + L) := by omega
  simp [iBeaconParser.findAppleManufacturerDataLoop, hp, readByte_eq h0, readByte_eq h1,
    readByte_eq h3, readByte_eq h4, hL, hn, h2, run_pure, run_bind_ok]

theorem findApple_skip (data : List Nat) (len fuel pos L ty : Nat)
    (h0 : data[pos]? = some L) (hL : L ≠ 0) (hlt : pos + L < len)
    (h1 : data[pos + 1]? = some ty) (hty : ty ≠ 0xFF) :
    iBeaconParser.findAppleManufacturerDataLoop data len (fuel + 1) pos
      = iBeaconParser.findAppleManufacturerDataLoop data len fuel ((pos + L + 1) % 256) := by
  have hp : pos < len := by omega
  have hn : ¬ (len ≤ pos + L) := by omega
  simp [iBeaconParser.findAppleManufacturerDataLoop, hp, readByte_eq h0, readByte_eq h1,
    hL, hn, hty, run_pure, run_bind_ok]

/-- C1: for every UUID, major, minor and power byte, the dispatcher called on the 27-byte
iBeacon advertisement built from them does one of two things, by the state of the result
object it is given.  While the payload union of the result holds its `String` (a new
`BeaconData`, or one last filled by an iBeacon or Eddystone-URL decode) it returns true with
type iBeacon, valid, the encoded major and minor, the power byte read as a signed byte and the
dashed rendering of the UUID.  On a result whose union an Eddystone-UID, Eddystone-TLM or
AltBeacon decode has overwritten, the assignment to `ibeacon.uuid` has no defined behaviour
and the call returns nothing. -/
theorem C1_ibeacon_round_trip (u : List Nat) (major minor t : Nat) (result : BeaconData)
    (hlen : u.length = 16) (hb : ∀ b ∈ u, b < 256) (hmajor : major < 65536)
    (hminor : minor < 65536) (ht : t < 256) :
    BLEBeaconParser.parse
        (some ([0x1A, 0xFF, 0x4C, 0x00, 0x02, 0x15] ++ u ++
          [major / 256, major % 256, minor / 256, minor % 256, t])) 27 result
      = if result.holds_string then
          Except.ok (true,
            { result with
              type := BEACON_TYPE_IBEACON
              valid := true
              ibeacon :=
                { uuid := dashedHex u, major := major, minor := minor,
                  tx_power := signedByte t } })
        else Except.error Fault.deadString := by
  obtain ⟨a0, a1, a2, a3, a4, a5, a6, a7, a8, a9, a10, a11, a12, a13, a14, a15, rfl⟩ :=
    list16 u hlen
  have hdata : [0x1A, 0xFF, 0x4C, 0x00, 0x02, 0x15] ++
      [a0, a1, a2, a3, a4, a5, a6, a7, a8, a9, a10, a11, a12, a13, a14, a15] ++
      [major / 256, major % 256, minor / 256, minor % 256, t]
      = [0x1A, 0xFF, 0x4C, 0x00, 0x02, 0x15,
         a0, a1, a2, a3, a4, a5, a6, a7, a8, a9, a10, a11, a12, a13, a14, a15,
         major / 256, major % 256, minor / 256, minor % 256, t] := rfl
  rw [hdata]
  generalize hd : [0x1A, 0xFF, 0x4C, 0x00, 0x02, 0x15,
         a0, a1, a2, a3, a4, a5, a6, a7, a8, a9, a10, a11, a12, a13, a14, a15,
         major / 256, major % 256, minor / 256, minor % 256, t] = data
  have r : ∀ (i b : Nat), [0x1A, 0xFF, 0x4C, 0x00, 0x02, 0x15,
         a0, a1, a2, a3, a4, a5, a6, a7, a8, a9, a10, a11, a12, a13, a14, a15,
         major / 256, major % 256, minor / 256, minor % 256, t][i]? = some b →
         data[i]? = some b := by
    intro i b h; rw [← hd]; exact h
  have hu : iBeaconParser.uuidToString data 6 = Except.ok (dashedHex
      [a0, a1, a2, a3, a4, a5, a6, a7, a8, a9, a10, a11, a12, a13, a14, a15]) := by
    apply uuidToString_eq data _ 6 hlen hb
    intro j hj
    rw [← hd]
    interval_cases j <;> rfl
  have hfind : iBeaconParser.findAppleManufacturerData data 27 = Except.ok (some (4, 24)) :=
    findApple_hit data 27 26 0 0x1A (r _ _ rfl) (by decide) (by decide) (r _ _ rfl) (by decide)
      (r _ _ rfl) (r _ _ rfl)
  simp only [BLEBeaconParser.parse, iBeaconParser.canParse, iBeaconParser.parse, hfind,
    run_bind_ok, run_pure]
  have r4 := readByte_eq (r 4 _ rfl)
  have r5 := readByte_eq (r 5 _ rfl)
  have r22 := readByte_eq (r 22 _ rfl)
  have r23 := readByte_eq (r 23 _ rfl)
  have r24 := readByte_eq (r 24 _ rfl)
  have r25 := readByte_eq (r 25 _ rfl)
  have r26 := readByte_eq (r 26 _ rfl)
  cases hs : result.holds_string
  · simp [r4, r5, hu, run_bind_ok, run_pure, assignString, resetResult, hs, run_bind_error]
  · simp [r4, r5, r22, r23, r24, r25, r26, hu, run_bind_ok, run_pure, be16_split _ hmajor,
      be16_split _ hminor, toInt8_eq_signedByte t ht, assignString, resetResult, hs]

theorem findApple_skip_company (data : List Nat) (len fuel pos L lo hi : Nat)
    (h0 : data[pos]? = some L) (hL : L ≠ 0) (hlt : pos + L < len)
    (h1 : data[pos + 1]? = some 0xFF)
    (h3 : data[pos + 2]? = some lo) (h4 : data[pos + 3]? = some hi)
    (hne : ¬ (lo = 0x4C ∧ hi = 0x00)) :
    iBeaconParser.findAppleManufacturerDataLoop data len (fuel + 1) pos
      = iBeaconParser.findAppleManufacturerDataLoop data len fuel ((pos + L + 1) % 256) := by
  have hp : pos < len := by omega
  have hn : ¬ (len ≤ pos + L) := by omega
  by_cases h2 : 2 ≤ L
  · simp [iBeaconParser.findAppleManufacturerDataLoop, hp, readByte_eq h0, readByte_eq h1,
      readByte_eq h3, readByte_eq h4, hL, hn, h2, hne, run_pure, run_bind_ok]
  · simp [iBeaconParser.findAppleManufacturerDataLoop, hp, readByte_eq h0, readByte_eq h1,
      hL, hn, h2, run_pure, run_bind_ok]

theorem findRadius_end (data : List Nat) (len fuel pos : Nat) (h : ¬ pos < len) :
    AltBeaconParser.findRadiusManufacturerDataLoop data len fuel pos = Except.ok none := by
  cases fuel <;> simp [AltBeaconParser.findRadiusManufacturerDataLoop, h, run_pure]

theorem findRadius_hit (data : List Nat) (len fuel pos L : Nat)
    (h0 : data[pos]? = some L) (hL : L ≠ 0) (hlt : pos + L < len)
    (h1 : data[pos + 1]? = some 0xFF) (h2 : 2 ≤ L)
    (h3 : data[pos + 2]? = some 0x18) (h4 : data[pos + 3]? = some 0x01) :
    AltBeaconParser.findRadiusManufacturerDataLoop data len (fuel + 1) pos
      = Except.ok (some (pos + 4, (L - 2) % 256)) := by
  have hp : pos < len := by omega
  have hn : ¬ (len ≤ pos + L) := by omega
  simp [AltBeaconParser.findRadiusManufacturerDataLoop, hp, readByte_eq h0, readByte_eq h1,
    readByte_eq h3, readByte_eq h4, hL, hn, h2, run_pure, run_bind_ok]

theorem findRadius_skip (data : List Nat) (len fuel pos L ty : Nat)
    (h0 : data[pos]? = some L) (hL : L ≠ 0) (hlt : pos + L < len)
    (h1 : data[pos + 1]? = some ty) (hty : ty ≠ 0xFF) :
    AltBeaconParser.findRadiusManufacturerDataLoop data len (fuel + 1) pos
      = AltBeaconParser.findRadiusManufacturerDataLoop data len fuel ((pos + L + 1) % 256) := by
  have hp : pos < len := by omega
  have hn : ¬ (len ≤ pos + L) := by omega
  simp [AltBeaconParser.findRadiusManufacturerDataLoop, hp, readByte_eq h0, readByte_eq h1,
    hL, hn, hty, run_pure, run_bind_ok]

theorem findEddystone_end (data : List Nat) (len fuel pos : Nat) (h : ¬ pos < len) :
    EddystoneParser.findEddystoneServiceDataLoop data len fuel pos = Except.ok none := by
  cases fuel <;> simp [EddystoneParser.findEddystoneServiceDataLoop, h, run_pure]

theorem findEddystone_hit (data : List Nat) (len fuel pos L : Nat)
    (h0 : data[pos]? = some L) (hL : L ≠ 0) (hle : pos + 1 + L ≤ len)
    (h1 : data[pos + 1]? = some 0x16) (h2 : 2 ≤ L)
    (h3 : data[pos + 2]? = some 0xAA) (h4 : data[pos + 3]? = some 0xFE) :
    EddystoneParser.findEddystoneServiceDataLoop data len (fuel + 1) pos
      = Except.ok (some (pos + 2, (L - 1) % 256)) := by
  have hp : pos < len := by omega
  have hn : ¬ (len < pos + 1 + L) := by omega
  simp [EddystoneParser.findEddystoneServiceDataLoop, hp, readByte_eq h0, readByte_eq h1,
    readByte_eq h3, readByte_eq h4, hL, hn, h2, run_pure, run_bind_ok]

/-- A buffer that consists of one record whose type is not manufacturer data holds no Apple
record. -/
theorem findApple_single_other (data : List Nat) (len L ty : Nat)
    (h0 : data[0]? = some L) (hL : L ≠ 0) (hlen : L + 1 = len) (h256 : len < 256)
    (h1 : data[1]? = some ty) (hty : ty ≠ 0xFF) :
    iBeaconParser.findAppleManufacturerData data len = Except.ok none := by
  unfold iBeaconParser.findAppleManufacturerData
  obtain ⟨f, rfl⟩ : ∃ f, len = f + 1 := ⟨L, hlen.symm⟩
  rw [findApple_skip data (f + 1) f 0 L ty h0 hL (by omega) (by simpa using h1) hty]
  apply findApple_end
  have : (0 + L + 1) % 256 ≤ 0 + L + 1 := Nat.mod_le _ _
  omega

/-- A buffer that consists of one record whose type is not manufacturer data holds no Radius
Networks record. -/
theorem findRadius_single_other (data : List Nat) (len L ty : Nat)
    (h0 : data[0]? = some L) (hL : L ≠ 0) (hlen : L + 1 = len) (h256 : len < 256)
    (h1 : data[1]? = some ty) (hty : ty ≠ 0xFF) :
    AltBeaconParser.findRadiusManufacturerData data len = Except.ok none := by
  unfold AltBeaconParser.findRadiusManufacturerData
  obtain ⟨f, rfl⟩ : ∃ f, len = f + 1 := ⟨L, hlen.symm⟩
  rw [findRadius_skip data (f + 1) f 0 L ty h0 hL (by omega) (by simpa using h1) hty]
  apply findRadius_end
  have : (0 + L + 1) % 256 ≤ 0 + L + 1 := Nat.mod_le _ _
  omega

theorem iBeacon_canParse_single_other (data : List Nat) (len L ty : Nat)
    (h0 : data[0]? = some L) (hL : L ≠ 0) (hlen : L + 1 = len) (h256 : len < 256)
    (h1 : data[1]? = some ty) (hty : ty ≠ 0xFF) :
    iBeaconParser.canParse data len = Except.ok false := by
  simp [iBeaconParser.canParse, findApple_single_other data len L ty h0 hL hlen h256 h1 hty,
    run_bind_ok, run_pure]

theorem AltBeacon_canParse_single_other (data : List Nat) (len L ty : Nat)
    (h0 : data[0]? = some L) (hL : L ≠ 0) (hlen : L + 1 = len) (h256 : len < 256)
    (h1 : data[1]? = some ty) (hty : ty ≠ 0xFF) :
    AltBeaconParser.canParse data len = Except.ok false := by
  simp [AltBeaconParser.canParse, findRadius_single_other data len L ty h0 hL hlen h256 h1 hty,
    run_bind_ok, run_pure]

/-- A buffer that is one Eddystone service-data record of length byte `L`: the dispatcher
reaches `EddystoneParser::parse` with the result reset, and the record is located at offset 2
with `L - 1` bytes. -/
theorem parse_single_eddystone (data : List Nat) (len L : Nat) (result : BeaconData)
    (h0 : data[0]? = some L) (hlen : L + 1 = len) (hL : 2 ≤ L) (h256 : len < 256)
    (h1 : data[1]? = some 0x16) (h2 : data[2]? = some 0xAA) (h3 : data[3]? = some 0xFE) :
    EddystoneParser.findEddystoneServiceData data len = Except.ok (some (2, L - 1)) ∧
    BLEBeaconParser.parse (some data) len result
      = (do
          let (r3, result3) ← EddystoneParser.parse data len
            { result with type := BEACON_TYPE_UNKNOWN, valid := false }
          if r3 then pure (true, result3) else pure (false, result3)) := by
  have hf : EddystoneParser.findEddystoneServiceData data len = Except.ok (some (2, L - 1)) := by
    unfold EddystoneParser.findEddystoneServiceData
    obtain ⟨f, rfl⟩ : ∃ f, len = f + 1 := ⟨L, hlen.symm⟩
    rw [findEddystone_hit data (f + 1) f 0 L h0 (by omega) (by omega) (by simpa using h1) hL
      (by simpa using h2) (by simpa using h3)]
    have : (L - 1) % 256 = L - 1 := Nat.mod_eq_of_lt (by omega)
    simp [this]
  refine ⟨hf, ?_⟩
  have hne : len ≠ 0 := by omega
  simp [BLEBeaconParser.parse, hne,
    iBeacon_canParse_single_other data len L 0x16 h0 (by omega) hlen h256 h1 (by decide),
    AltBeacon_canParse_single_other data len L 0x16 h0 (by omega) hlen h256 h1 (by decide),
    EddystoneParser.canParse, hf, run_bind_ok, run_pure]

/-- The dispatcher, given the Eddystone-UID test packet and a new `BeaconData`, leaves
`uid_decoded_result`. -/
theorem uid_decoded_result_eq :
    BLEBeaconParser.parse (some eddystone_uid_packet) 22 BeaconData.new
      = Except.ok (true, uid_decoded_result) := by
  decide

/-- C1, at the packet of the unit test `test_iBeacon_parse`: with a new `BeaconData` the
dispatcher returns the reading of the test; with the result object left by a decode of the
Eddystone-UID test packet the assignment to `ibeacon.uuid` has no defined behaviour. -/
theorem C1_ibeacon_round_trip_witness :
    BLEBeaconParser.parse (some eddystone_uid_packet) 22 BeaconData.new
      = Except.ok (true, uid_decoded_result) ∧
    BLEBeaconParser.parse (some ibeacon_packet) 27 uid_decoded_result
      = Except.error Fault.deadString ∧
    BLEBeaconParser.parse (some ibeacon_packet) 27 BeaconData.new
      = Except.ok (true,
          { BeaconData.new with
            type := BEACON_TYPE_IBEACON
            valid := true
            ibeacon :=
              { uuid := "5F2DD896-B886-4549-AE01-E41ACD7A354A", major := 1, minor := 2,
                tx_power := -59 } }) :=
  ⟨uid_decoded_result_eq,
   C1_ibeacon_round_trip
    [0x5F, 0x2D, 0xD8, 0x96, 0xB8, 0x86, 0x45, 0x49, 0xAE, 0x01, 0xE4, 0x1A, 0xCD, 0x7A, 0x35, 0x4A]
    1 2 0xC5 uid_decoded_result rfl (by decide) (by decide) (by decide) (by decide),
   C1_ibeacon_round_trip
    [0x5F, 0x2D, 0xD8, 0x96, 0xB8, 0x86, 0x45, 0x49, 0xAE, 0x01, 0xE4, 0x1A, 0xCD, 0x7A, 0x35, 0x4A]
    1 2 0xC5 BeaconData.new rfl (by decide) (by decide) (by decide) (by decide)⟩

/-- C3: for every 16-byte id, reference RSSI, reserved byte, major and minor, the dispatcher
decodes the 28-byte AltBeacon advertisement built from them: it returns true with type
AltBeacon, valid, the id bytes, the RSSI byte read as a signed byte, the reserved byte and the
encoded major and minor; the payload union then holds these plain bytes. -/
theorem C3_altbeacon_round_trip (id : List Nat) (r m major minor : Nat) (result : BeaconData)
    (hlen : id.length = 16) (hr : r < 256) (hmajor : major < 65536) (hminor : minor < 65536) :
    BLEBeaconParser.parse
        (some ([0x1B, 0xFF, 0x18, 0x01, 0xBE, 0xAC] ++ id ++
          [r, m, major / 256, major % 256, minor / 256, minor % 256])) 28 result
      = Except.ok (true,
          { result with
            type := BEACON_TYPE_ALTBEACON
            valid := true
            altbeacon :=
              { id := id, tx_power := signedByte r, mfg_reserved := m, major := major,
                minor := minor }
            holds_string := false }) := by
  obtain ⟨a0, a1, a2, a3, a4, a5, a6, a7, a8, a9, a10, a11, a12, a13, a14, a15, rfl⟩ :=
    list16 id hlen
  have hdata : [0x1B, 0xFF, 0x18, 0x01, 0xBE, 0xAC] ++
      [a0, a1, a2, a3, a4, a5, a6, a7, a8, a9, a10, a11, a12, a13, a14, a15] ++
      [r, m, major / 256, major % 256, minor / 256, minor % 256]
      = [0x1B, 0xFF, 0x18, 0x01, 0xBE, 0xAC,
         a0, a1, a2, a3, a4, a5, a6, a7, a8, a9, a10, a11, a12, a13, a14, a15,
         r, m, major / 256, major % 256, minor / 256, minor % 256] := rfl
  rw [hdata]
  generalize hd : [0x1B, 0xFF, 0x18, 0x01, 0xBE, 0xAC,
         a0, a1, a2, a3, a4, a5, a6, a7, a8, a9, a10, a11, a12, a13, a14, a15,
         r, m, major / 256, major % 256, minor / 256, minor % 256] = data
  have rd : ∀ (i b : Nat), [0x1B, 0xFF, 0x18, 0x01, 0xBE, 0xAC,
         a0, a1, a2, a3, a4, a5, a6, a7, a8, a9, a10, a11, a12, a13, a14, a15,
         r, m, major / 256, major % 256, minor / 256, minor % 256][i]? = some b →
         data[i]? = some b := by
    intro i b h; rw [← hd]; exact h
  have happle : iBeaconParser.findAppleManufacturerData data 28 = Except.ok none := by
    unfold iBeaconParser.findAppleManufacturerData
    rw [findApple_skip_company data 28 27 0 0x1B 0x18 0x01 (rd _ _ rfl) (by decide) (by decide)
      (rd _ _ rfl) (rd _ _ rfl) (rd _ _ rfl) (by decide)]
    exact findApple_end _ _ _ _ (by decide)
  have hfind : AltBeaconParser.findRadiusManufacturerData data 28 = Except.ok (some (4, 25)) :=
    findRadius_hit data 28 27 0 0x1B (rd _ _ rfl) (by decide) (by decide) (rd _ _ rfl)
      (by decide) (rd _ _ rfl) (rd _ _ rfl)
  have hid : readBytes data 6 16
      = Except.ok [a0, a1, a2, a3, a4, a5, a6, a7, a8, a9, a10, a11, a12, a13, a14, a15] := by
    simp [readBytes, readByte_eq (rd 6 _ rfl), readByte_eq (rd 7 _ rfl),
      readByte_eq (rd 8 _ rfl), readByte_eq (rd 9 _ rfl), readByte_eq (rd 10 _ rfl),
      readByte_eq (rd 11 _ rfl), readByte_eq (rd 12 _ rfl), readByte_eq (rd 13 _ rfl),
      readByte_eq (rd 14 _ rfl), readByte_eq (rd 15 _ rfl), readByte_eq (rd 16 _ rfl),
      readByte_eq (rd 17 _ rfl), readByte_eq (rd 18 _ rfl), readByte_eq (rd 19 _ rfl),
      readByte_eq (rd 20 _ rfl), readByte_eq (rd 21 _ rfl), run_bind_ok, run_pure]
  have r4 := readByte_eq (rd 4 _ rfl)
  have r5 := readByte_eq (rd 5 _ rfl)
  have r22 := readByte_eq (rd 22 _ rfl)
  have r23 := readByte_eq (rd 23 _ rfl)
  have r24 := readByte_eq (rd 24 _ rfl)
  have r25 := readByte_eq (rd 25 _ rfl)
  have r26 := readByte_eq (rd 26 _ rfl)
  have r27 := readByte_eq (rd 27 _ rfl)
  simp only [BLEBeaconParser.parse, iBeaconParser.canParse, AltBeaconParser.canParse,
    AltBeaconParser.parse, happle, hfind, run_bind_ok, run_pure]
  simp [r4, r5, r22, r23, r24, r25, r26, r27, hid, run_bind_ok, run_pure, be16_split _ hmajor,
    be16_split _ hminor, toInt8_eq_signedByte r hr]

/-- C3, at the packet of the unit test `test_altbeacon_parse`. -/
theorem C3_altbeacon_round_trip_witness :
    BLEBeaconParser.parse (some altbeacon_packet) 28 BeaconData.new
      = Except.ok (true,
          { BeaconData.new with
            type := BEACON_TYPE_ALTBEACON
            valid := true
            altbeacon :=
              { id := [0x00, 0x11, 0x22, 0x33, 0x44, 0x55, 0x66, 0x77, 0x88, 0x99, 0xAA, 0xBB,
                       0xCC, 0xDD, 0xEE, 0xFF],
                tx_power := -59, mfg_reserved := 0, major := 1, minor := 2 }
            holds_string := false }) :=
  C3_altbeacon_round_trip
    [0x00, 0x11, 0x22, 0x33, 0x44, 0x55, 0x66, 0x77, 0x88, 0x99, 0xAA, 0xBB, 0xCC, 0xDD, 0xEE, 0xFF]
    0xC5 0x00 1 2 BeaconData.new rfl (by decide) (by decide) (by decide)

/-! ## Reads of consecutive bytes -/

theorem readBytes_eq (data : List Nat) : ∀ (bs : List Nat) (off : Nat),
    (∀ j, j < bs.length → data[off + j]? = bs[j]?) →
    readBytes data off bs.length = Except.ok bs := by
  intro bs
  induction bs with
  | nil => intro off _; rfl
  | cons b bs ih =>
    intro off h
    have h0 : data[off]? = some b := by simpa using h 0 (by simp)
    have hrest := ih (off + 1) (by
      intro j hj
      have := h (j + 1) (by simpa using hj)
      simpa [Nat.add_assoc, Nat.add_comm 1 j] using this)
    simp [readBytes, readByte_eq h0, hrest, run_bind_ok, run_pure]

theorem getElem?_mid (pre mid post : List Nat) (j : Nat) (hj : j < mid.length) :
    (pre ++ mid ++ post)[pre.length + j]? = mid[j]? := by
  rw [List.append_assoc, List.getElem?_append_right (by omega)]
  simp [List.getElem?_append_left hj]

theorem getElem?_post (pre mid post : List Nat) (j : Nat) :
    (pre ++ mid ++ post)[pre.length + mid.length + j]? = post[j]? := by
  rw [List.getElem?_append_right (by simp)]
  simp

theorem getElem?_pre (pre rest : List Nat) (j : Nat) (hj : j < pre.length) :
    (pre ++ rest)[j]? = pre[j]? :=
  List.getElem?_append_left hj

theorem be32_eq (a b c d : Nat) (ha : a < 256) (hb : b < 256) (hc : c < 256) (hd : d < 256) :
    (((a <<< 24) % 4294967296) ||| ((b <<< 16) % 4294967296) |||
      ((c <<< 8) % 4294967296) ||| (d % 4294967296)) % 4294967296 = bigEndian32 a b c d := by
  have e1 : (a <<< 24) % 4294967296 = 2 ^ 24 * a := by
    rw [Nat.shiftLeft_eq, Nat.mod_eq_of_lt (by omega)]; ring
  have e2 : (b <<< 16) % 4294967296 = 2 ^ 16 * b := by
    rw [Nat.shiftLeft_eq, Nat.mod_eq_of_lt (by omega)]; ring
  have e3 : (c <<< 8) % 4294967296 = 2 ^ 8 * c := by
    rw [Nat.shiftLeft_eq, Nat.mod_eq_of_lt (by omega)]; ring
  have e4 : d % 4294967296 = d := Nat.mod_eq_of_lt (by omega)
  rw [e1, e2, e3, e4, Nat.or_assoc, Nat.or_assoc]
  rw [← Nat.mul_add_lt_is_or (by omega) c, ← Nat.mul_add_lt_is_or (by omega) b,
    ← Nat.mul_add_lt_is_or (by omega) a]
  unfold bigEndian32
  omega

/-- C4: for every power byte, 10-byte namespace and 6-byte instance, the dispatcher decodes the
22-byte Eddystone-UID advertisement built from them: it returns true with type Eddystone-UID,
valid, the power byte read as a signed byte, and the namespace and instance bytes; the payload
union then holds these plain bytes. -/
theorem C4_eddystone_uid_round_trip (t : Nat) (n i : List Nat) (result : BeaconData)
    (ht : t < 256) (hn : n.length = 10) (hi : i.length = 6) :
    BLEBeaconParser.parse (some ([0x15, 0x16, 0xAA, 0xFE, 0x00, t] ++ n ++ i)) 22 result
      = Except.ok (true,
          { result with
            type := BEACON_TYPE_EDDYSTONE_UID
            valid := true
            eddystone_uid :=
              { tx_power := signedByte t, namespace_id := n, instance_id := i }
            holds_string := false }) := by
  generalize hd : [0x15, 0x16, 0xAA, 0xFE, 0x00, t] ++ n ++ i = data
  have rd : ∀ (j b : Nat), [0x15, 0x16, 0xAA, 0xFE, 0x00, t][j]? = some b →
      data[j]? = some b := by
    intro j b h
    have hj : j < [0x15, 0x16, 0xAA, 0xFE, 0x00, t].length := by
      by_contra hc
      rw [List.getElem?_eq_none (by omega)] at h
      exact Option.noConfusion h
    rw [← hd, List.append_assoc, getElem?_pre _ _ _ hj]
    exact h
  have hns : readBytes data 6 10 = Except.ok n := by
    rw [← hn]
    apply readBytes_eq
    intro j hj
    rw [← hd]
    exact getElem?_mid [0x15, 0x16, 0xAA, 0xFE, 0x00, t] n i j hj
  have hins : readBytes data 16 6 = Except.ok i := by
    rw [← hi]
    apply readBytes_eq
    intro j _
    rw [← hd]
    have := getElem?_post [0x15, 0x16, 0xAA, 0xFE, 0x00, t] n i j
    rw [hn] at this
    exact this
  obtain ⟨hf, hp⟩ := parse_single_eddystone data 22 0x15 result (rd _ _ rfl) rfl (by decide)
    (by decide) (rd _ _ rfl) (rd _ _ rfl) (rd _ _ rfl)
  rw [hp]
  have r4 := readByte_eq (rd 4 _ rfl)
  have r5 := readByte_eq (rd 5 _ rfl)
  simp [EddystoneParser.parse, EddystoneParser.parseUID, hf, r4, r5, hns, hins, run_bind_ok,
    run_pure, toInt8_eq_signedByte t ht]

/-- C4, at the packet of the unit test `test_eddystone_uid_parse`. -/
theorem C4_eddystone_uid_round_trip_witness :
    BLEBeaconParser.parse (some eddystone_uid_packet) 22 BeaconData.new
      = Except.ok (true,
          { BeaconData.new with
            type := BEACON_TYPE_EDDYSTONE_UID
            valid := true
            eddystone_uid :=
              { tx_power := -16
                namespace_id := [0x00, 0x11, 0x22, 0x33, 0x44, 0x55, 0x66, 0x77, 0x88, 0x99]
                instance_id := [0xAA, 0xBB, 0xCC, 0xDD, 0xEE, 0xFF] }
            holds_string := false }) :=
  C4_eddystone_uid_round_trip 0xF0 [0x00, 0x11, 0x22, 0x33, 0x44, 0x55, 0x66, 0x77, 0x88, 0x99]
    [0xAA, 0xBB, 0xCC, 0xDD, 0xEE, 0xFF] BeaconData.new (by decide) rfl rfl

theorem toInt16_be (b3 b4 : Nat) (h3 : b3 < 256) (h4 : b4 < 256) :
    toInt16 (b3 <<< 8 ||| b4) = signed16 (256 * b3 + b4) := by
  rw [shl8_or _ _ h4]
  unfold toInt16 signed16
  have e : (b3 * 256 + b4) % 65536 = 256 * b3 + b4 := by omega
  rw [e]

theorem be16_eq (a b : Nat) (ha : a < 256) (hb : b < 256) :
    (a <<< 8 ||| b) % 65536 = 256 * a + b := by
  rw [shl8_or _ _ hb]
  omega

/-- The function `parseTLM` on a frame of at least 13 bytes that are all readable and start
with a zero version byte. -/
theorem parseTLM_ok (data : List Nat) (frame_data frame_len : Nat) (result : BeaconData)
    (f1 f2 f3 f4 f5 f6 f7 f8 f9 f10 f11 f12 : Nat) (hlen : 13 ≤ frame_len)
    (r0 : data[frame_data]? = some 0)
    (r1 : data[frame_data + 1]? = some f1) (r2 : data[frame_data + 2]? = some f2)
    (r3 : data[frame_data + 3]? = some f3) (r4 : data[frame_data + 4]? = some f4)
    (r5 : data[frame_data + 5]? = some f5) (r6 : data[frame_data + 6]? = some f6)
    (r7 : data[frame_data + 7]? = some f7) (r8 : data[frame_data + 8]? = some f8)
    (r9 : data[frame_data + 9]? = some f9) (r10 : data[frame_data + 10]? = some f10)
    (r11 : data[frame_data + 11]? = some f11) (r12 : data[frame_data + 12]? = some f12) :
    EddystoneParser.parseTLM data frame_data frame_len result
      = Except.ok (true,
          { result with
            eddystone_tlm :=
              { battery_voltage := ((f1 <<< 8) ||| f2) % 65536
                temperature := (toInt16 ((f3 <<< 8) ||| f4) : ℚ) / 256
                adv_count :=
                  (((f5 <<< 24) % 4294967296) ||| ((f6 <<< 16) % 4294967296) |||
                    ((f7 <<< 8) % 4294967296) ||| (f8 % 4294967296)) % 4294967296
                uptime :=
                  ((((f9 <<< 24) % 4294967296) ||| ((f10 <<< 16) % 4294967296) |||
                    ((f11 <<< 8) % 4294967296) ||| (f12 % 4294967296)) % 4294967296) / 10 }
            holds_string := false
            type := BEACON_TYPE_EDDYSTONE_TLM
            valid := true }) := by
  have hn : ¬ frame_len < 13 := by omega
  unfold EddystoneParser.parseTLM
  rw [if_neg hn]
  simp only [readByte_eq r0, readByte_eq r1, readByte_eq r2, readByte_eq r3, readByte_eq r4,
    readByte_eq r5, readByte_eq r6, readByte_eq r7, readByte_eq r8, readByte_eq r9,
    readByte_eq r10, readByte_eq r11, readByte_eq r12, bind, Except.bind, pure, Except.pure,
    ne_eq, not_true_eq_false, if_false]

/-- The function `EddystoneParser::parse` on a located record with frame type `0x20`. -/
theorem Eddystone_parse_tlm (data : List Nat) (len sd sl : Nat) (result : BeaconData)
    (hf : EddystoneParser.findEddystoneServiceData data len = Except.ok (some (sd, sl)))
    (hsl : 3 ≤ sl) (hft : data[sd + 2]? = some 0x20) :
    EddystoneParser.parse data len result
      = EddystoneParser.parseTLM data (sd + 3) ((sl - 3) % 256) result := by
  have hn : ¬ sl < 3 := by omega
  simp only [EddystoneParser.parse, hf, run_bind_ok, readByte_eq hft, if_neg hn]
  simp only [if_true, if_false, Nat.reduceEqDiff]

/-- The function `EddystoneParser::parse` on a located record with frame type `0x10`. -/
theorem Eddystone_parse_url (data : List Nat) (len sd sl : Nat) (result : BeaconData)
    (hf : EddystoneParser.findEddystoneServiceData data len = Except.ok (some (sd, sl)))
    (hsl : 3 ≤ sl) (hft : data[sd + 2]? = some 0x10) :
    EddystoneParser.parse data len result
      = EddystoneParser.parseURL data (sd + 3) ((sl - 3) % 256) result := by
  have hn : ¬ sl < 3 := by omega
  simp only [EddystoneParser.parse, hf, run_bind_ok, readByte_eq hft, if_neg hn]
  simp only [if_true, if_false, Nat.reduceEqDiff]

/-- The function `EddystoneParser::parse` on a located record with frame type `0x00`. -/
theorem Eddystone_parse_uid (data : List Nat) (len sd sl : Nat) (result : BeaconData)
    (hf : EddystoneParser.findEddystoneServiceData data len = Except.ok (some (sd, sl)))
    (hsl : 3 ≤ sl) (hft : data[sd + 2]? = some 0x00) :
    EddystoneParser.parse data len result
      = EddystoneParser.parseUID data (sd + 3) ((sl - 3) % 256) result := by
  have hn : ¬ sl < 3 := by omega
  simp only [EddystoneParser.parse, hf, run_bind_ok, readByte_eq hft, if_neg hn]
  simp only [if_true, if_false, Nat.reduceEqDiff]

/-- C5: for every twelve payload bytes after a zero version byte, the dispatcher decodes the
18-byte Eddystone-TLM advertisement: it returns true with type Eddystone-TLM, the battery
voltage `256 * b1 + b2`, the advertisement count equal to the big-endian value of `b5..b8` and
the uptime equal to the big-endian value of `b9..b12` divided by ten, rounded down; the payload
union then holds these plain bytes. -/
theorem C5_eddystone_tlm_fields (b1 b2 b3 b4 b5 b6 b7 b8 b9 b10 b11 b12 : Nat)
    (result : BeaconData)
    (h1 : b1 < 256) (h2 : b2 < 256) (h3 : b3 < 256) (h4 : b4 < 256) (h5 : b5 < 256)
    (h6 : b6 < 256) (h7 : b7 < 256) (h8 : b8 < 256) (h9 : b9 < 256) (h10 : b10 < 256)
    (h11 : b11 < 256) (h12 : b12 < 256) :
    BLEBeaconParser.parse
        (some [0x11, 0x16, 0xAA, 0xFE, 0x20, 0x00,
               b1, b2, b3, b4, b5, b6, b7, b8, b9, b10, b11, b12]) 18 result
      = Except.ok (true,
          { result with
            type := BEACON_TYPE_EDDYSTONE_TLM
            valid := true
            eddystone_tlm :=
              { battery_voltage := 256 * b1 + b2
                temperature := (signed16 (256 * b3 + b4) : ℚ) / 256
                adv_count := bigEndian32 b5 b6 b7 b8
                uptime := bigEndian32 b9 b10 b11 b12 / 10 }
            holds_string := false }) := by
  generalize hd : [0x11, 0x16, 0xAA, 0xFE, 0x20, 0x00,
      b1, b2, b3, b4, b5, b6, b7, b8, b9, b10, b11, b12] = data
  have rd : ∀ (j b : Nat), [0x11, 0x16, 0xAA, 0xFE, 0x20, 0x00,
      b1, b2, b3, b4, b5, b6, b7, b8, b9, b10, b11, b12][j]? = some b → data[j]? = some b := by
    intro j b h; rw [← hd]; exact h
  obtain ⟨hf, hp⟩ := parse_single_eddystone data 18 0x11 result (rd _ _ rfl) rfl (by decide)
    (by decide) (rd _ _ rfl) (rd _ _ rfl) (rd _ _ rfl)
  have hparse := Eddystone_parse_tlm data 18 2 (0x11 - 1)
    { result with type := BEACON_TYPE_UNKNOWN, valid := false } hf (by decide) (rd 4 _ rfl)
  have htlm := parseTLM_ok data (2 + 3) ((0x11 - 1 - 3) % 256)
    { result with type := BEACON_TYPE_UNKNOWN, valid := false }
    b1 b2 b3 b4 b5 b6 b7 b8 b9 b10 b11 b12 (by decide) (rd 5 _ rfl) (rd 6 _ rfl) (rd 7 _ rfl)
    (rd 8 _ rfl) (rd 9 _ rfl) (rd 10 _ rfl) (rd 11 _ rfl) (rd 12 _ rfl) (rd 13 _ rfl)
    (rd 14 _ rfl) (rd 15 _ rfl) (rd 16 _ rfl) (rd 17 _ rfl)
  rw [be16_eq _ _ h1 h2, toInt16_be _ _ h3 h4, be32_eq _ _ _ _ h5 h6 h7 h8,
    be32_eq _ _ _ _ h9 h10 h11 h12] at htlm
  rw [hp, hparse, htlm]
  simp only [run_bind_ok, run_pure, if_true]

/-- C5, at the packet of the unit test `test_eddystone_tlm_parse`: battery 3000, temperature
25, count 100 and uptime 1000 / 10 = 100. -/
theorem C5_eddystone_tlm_fields_witness :
    BLEBeaconParser.parse (some eddystone_tlm_packet) 18 BeaconData.new
      = Except.ok (true,
          { BeaconData.new with
            type := BEACON_TYPE_EDDYSTONE_TLM
            valid := true
            eddystone_tlm :=
              { battery_voltage := 3000, temperature := 25, adv_count := 100,
                uptime := 100 }
            holds_string := false }) := by
  have h := C5_eddystone_tlm_fields 0x0B 0xB8 0x19 0x00 0x00 0x00 0x00 0x64 0x00 0x00 0x03 0xE8
    BeaconData.new (by decide) (by decide) (by decide) (by decide) (by decide) (by decide)
    (by decide) (by decide) (by decide) (by decide) (by decide) (by decide)
  have e1 : ((signed16 (256 * 0x19 + 0x00) : Int) : ℚ) / 256 = 25 := by
    norm_num [signed16]
  rw [e1] at h
  exact h

theorem run_bind_eq_ok {α β : Type} (x : Run α) (f : α → Run β) (b : β) :
    (x >>= f) = Except.ok b ↔ ∃ a, x = Except.ok a ∧ f a = Except.ok b := by
  cases x <;> simp [bind, Except.bind]

theorem signed16_range (x : Nat) (hx : x < 65536) :
    -32768 ≤ signed16 x ∧ signed16 x ≤ 32767 := by
  unfold signed16
  split <;> constructor <;> omega

/-- C6: for every TLM frame that `parseTLM` accepts, with `b3` and `b4` the payload bytes at
offsets 3 and 4, the temperature is exactly `s / 256`, where `s` is the 16-bit big-endian value
`256 * b3 + b4` read as a two's-complement signed integer; so `temperature * 256 = s` and `s`
lies in `-32768..32767`. -/
theorem C6_tlm_temperature (data : List Nat) (frame_data frame_len : Nat)
    (result res : BeaconData) (b3 b4 : Nat)
    (h : EddystoneParser.parseTLM data frame_data frame_len result = Except.ok (true, res))
    (h3 : data[frame_data + 3]? = some b3) (h4 : data[frame_data + 4]? = some b4)
    (hb3 : b3 < 256) (hb4 : b4 < 256) :
    res.eddystone_tlm.temperature = (signed16 (256 * b3 + b4) : ℚ) / 256 ∧
    res.eddystone_tlm.temperature * 256 = (signed16 (256 * b3 + b4) : ℚ) ∧
    -32768 ≤ signed16 (256 * b3 + b4) ∧ signed16 (256 * b3 + b4) ≤ 32767 := by
  have htemp : res.eddystone_tlm.temperature = (signed16 (256 * b3 + b4) : ℚ) / 256 := by
    unfold EddystoneParser.parseTLM at h
    by_cases hl : frame_len < 13
    · rw [if_pos hl] at h
      simp [run_pure] at h
    · rw [if_neg hl] at h
      simp only [run_bind_eq_ok, readByte_eq h3, readByte_eq h4, Except.ok.injEq,
        exists_eq_left'] at h
      obtain ⟨version, -, h⟩ := h
      split at h
      · simp [run_pure] at h
      · simp only [run_bind_eq_ok, readByte_eq h3, readByte_eq h4, Except.ok.injEq,
          exists_eq_left'] at h
        obtain ⟨f1, -, f2, -, f5, -, f6, -, f7, -, f8, -, f9, -, f10, -, f11, -, f12, -, h⟩ := h
        simp only [run_pure, Except.ok.injEq, Prod.mk.injEq, true_and] at h
        rw [← h, toInt16_be _ _ hb3 hb4]
  refine ⟨htemp, ?_, signed16_range _ (by omega)⟩
  rw [htemp]
  norm_num

/-- C6, at the TLM payload `00 0B B8 FF 00 00 00 00 64 00 00 03 E8`: the frame is accepted and
its temperature bytes `FF 00` give the temperature -1. -/
theorem C6_tlm_temperature_witness :
    ∃ res : BeaconData,
      EddystoneParser.parseTLM
        [0x00, 0x0B, 0xB8, 0xFF, 0x00, 0x00, 0x00, 0x00, 0x64, 0x00, 0x00, 0x03, 0xE8] 0 13
        BeaconData.new = Except.ok (true, res) ∧
      res.eddystone_tlm.temperature = -1 ∧ res.eddystone_tlm.temperature * 256 = -256 := by
  have hp := parseTLM_ok
    [0x00, 0x0B, 0xB8, 0xFF, 0x00, 0x00, 0x00, 0x00, 0x64, 0x00, 0x00, 0x03, 0xE8] 0 13
    BeaconData.new 0x0B 0xB8 0xFF 0x00 0x00 0x00 0x00 0x64 0x00 0x00 0x03 0xE8 (by decide)
    rfl rfl rfl rfl rfl rfl rfl rfl rfl rfl rfl rfl rfl
  have h := C6_tlm_temperature
    [0x00, 0x0B, 0xB8, 0xFF, 0x00, 0x00, 0x00, 0x00, 0x64, 0x00, 0x00, 0x03, 0xE8] 0 13
    BeaconData.new _ 0xFF 0x00 hp rfl rfl (by decide) (by decide)
  refine ⟨_, hp, ?_, ?_⟩
  · rw [h.1]; norm_num [signed16]
  · rw [h.2.1]; norm_num [signed16]

/-! ## The Eddystone-URL codec -/

theorem decodeURLSuffix_of_ge (b : Nat) (h : 14 ≤ b) : EddystoneParser.decodeURLSuffix b = "" := by
  unfold EddystoneParser.decodeURLSuffix
  split <;> first | omega | rfl

theorem string_push_eq (s : String) (c : Char) : s.push c = s ++ String.singleton c := by
  apply String.ext
  simp [String.singleton]

theorem decodeURLSuffix_expand (url : String) (b : Nat) :
    (if (EddystoneParser.decodeURLSuffix b).length > 0 then
        url ++ EddystoneParser.decodeURLSuffix b
      else url.push (Char.ofNat b)) = url ++ expandURLByte b := by
  by_cases h : b < 14
  · interval_cases b <;> rfl
  · have hge : 14 ≤ b := by omega
    rw [decodeURLSuffix_of_ge b hge]
    have e : expandURLByte b = String.singleton (Char.ofNat b) := by
      unfold expandURLByte
      exact List.getD_eq_default _ _ (by simpa [suffixTable] using hge)
    rw [e, string_push_eq]
    rfl

theorem parseURLLoop_eq (data : List Nat) (frame_data : Nat) :
    ∀ (rest : List Nat) (i : Nat) (url : String),
      (∀ j, j < rest.length → data[frame_data + i + j]? = rest[j]?) →
      EddystoneParser.parseURLLoop data frame_data rest.length i url
        = Except.ok (rest.foldl (fun acc b => acc ++ expandURLByte b) url) := by
  intro rest
  induction rest with
  | nil => intro i url _; rfl
  | cons b rest ih =>
    intro i url h
    have h0 : data[frame_data + i]? = some b := by simpa using h 0 (by simp)
    simp only [List.length_cons, EddystoneParser.parseURLLoop, readByte_eq h0, run_bind_ok,
      List.foldl_cons]
    rw [decodeURLSuffix_expand]
    apply ih
    intro j hj
    have := h (j + 1) (by simpa using hj)
    simpa [Nat.add_assoc, Nat.add_comm 1 j] using this

theorem decodeURLScheme_eq (c : Nat) (hc : c < 4) :
    EddystoneParser.decodeURLScheme c = schemeTable.getD c "" ∧
    (EddystoneParser.decodeURLScheme c).length ≠ 0 := by
  interval_cases c <;> exact ⟨rfl, by decide⟩

/-- C7: for every power byte, scheme code 0..3 and encoded bytes `r` (at most 248), the
dispatcher called on the Eddystone-URL advertisement `[6+k, 16, AA, FE, 10, t, c, r...]` of
length `7+k` does one of two things, by the state of the result object it is given.  While
the payload union of the result holds its `String` (a new `BeaconData`, or one last filled by
an iBeacon or Eddystone-URL decode) it returns true with type Eddystone-URL, the power byte
read as a signed byte and the URL `scheme(c) ++ e(r[0]) ++ ... ++ e(r[k-1])`.  On a result
whose union an Eddystone-UID, Eddystone-TLM or AltBeacon decode has overwritten, the
assignment to `eddystone_url.url` has no defined behaviour and the call returns nothing. -/
theorem C7_eddystone_url_decoding (t c : Nat) (r : List Nat) (result : BeaconData)
    (ht : t < 256) (hc : c < 4) (hk : r.length ≤ 248) :
    BLEBeaconParser.parse
        (some ([6 + r.length, 0x16, 0xAA, 0xFE, 0x10, t, c] ++ r)) (7 + r.length) result
      = if result.holds_string then
          Except.ok (true,
            { result with
              type := BEACON_TYPE_EDDYSTONE_URL
              valid := true
              eddystone_url := { url := expectedURL c r, tx_power := signedByte t } })
        else Except.error Fault.deadString := by
  generalize hd : [6 + r.length, 0x16, 0xAA, 0xFE, 0x10, t, c] ++ r = data
  have rd : ∀ (j b : Nat), [6 + r.length, 0x16, 0xAA, 0xFE, 0x10, t, c][j]? = some b →
      data[j]? = some b := by
    intro j b h
    have hj : j < [6 + r.length, 0x16, 0xAA, 0xFE, 0x10, t, c].length := by
      by_contra hcon
      rw [List.getElem?_eq_none (by omega)] at h
      exact Option.noConfusion h
    rw [← hd, getElem?_pre _ _ _ hj]
    exact h
  have rr : ∀ j, j < r.length → data[5 + 2 + j]? = r[j]? := by
    intro j _
    rw [← hd, List.getElem?_append_right (by simp)]
    simp
  obtain ⟨hf, hp⟩ := parse_single_eddystone data (7 + r.length) (6 + r.length) result
    (rd _ _ rfl) (by omega) (by omega) (by omega) (rd _ _ rfl) (rd _ _ rfl) (rd _ _ rfl)
  have hparse := Eddystone_parse_url data (7 + r.length) 2 (6 + r.length - 1)
    { result with type := BEACON_TYPE_UNKNOWN, valid := false } hf (by omega) (rd 4 _ rfl)
  have hfl : (6 + r.length - 1 - 3) % 256 = 2 + r.length := by omega
  have hloop := parseURLLoop_eq data 5 r 2 (EddystoneParser.decodeURLScheme c) rr
  obtain ⟨hs1, hs2⟩ := decodeURLScheme_eq c hc
  rw [hs1] at hs2 hloop
  rw [hp, hparse, hfl]
  have e5 : (2 : Nat) + 3 = 5 := rfl
  rw [e5]
  have hn : ¬ (2 + r.length < 2) := by omega
  cases hs : result.holds_string
  · simp only [EddystoneParser.parseURL, if_neg hn, readByte_eq (rd 5 t rfl),
      readByte_eq (rd 6 c rfl), run_bind_ok, if_neg hs2, Nat.add_sub_cancel_left, hloop,
      run_pure, hs1, assignString, hs, run_bind_error, Bool.false_eq_true, if_false]
  · simp only [EddystoneParser.parseURL, if_neg hn, readByte_eq (rd 5 t rfl),
      readByte_eq (rd 6 c rfl), run_bind_ok, if_neg hs2, Nat.add_sub_cancel_left, hloop,
      run_pure, if_true, toInt8_eq_signedByte t ht, hs1, expectedURL, assignString, hs]

/-- C7, at the two documented packets: scheme `02`, "google", `07` gives "http://google.com",
and the unit-test packet (scheme `00`, "example", `00`) gives "http://www.example.com/"; with
the result object left by a decode of the Eddystone-UID test packet the assignment to
`eddystone_url.url` has no defined behaviour. -/
theorem C7_eddystone_url_decoding_witness :
    BLEBeaconParser.parse (some eddystone_url_packet) 15 uid_decoded_result
      = Except.error Fault.deadString ∧
    BLEBeaconParser.parse
        (some [0x0D, 0x16, 0xAA, 0xFE, 0x10, 0xF4, 0x02, 0x67, 0x6F, 0x6F, 0x67, 0x6C, 0x65, 0x07])
        14 BeaconData.new
      = Except.ok (true,
          { BeaconData.new with
            type := BEACON_TYPE_EDDYSTONE_URL
            valid := true
            eddystone_url := { url := "http://google.com", tx_power := -12 } }) ∧
    BLEBeaconParser.parse (some eddystone_url_packet) 15 BeaconData.new
      = Except.ok (true,
          { BeaconData.new with
            type := BEACON_TYPE_EDDYSTONE_URL
            valid := true
            eddystone_url := { url := "http://www.example.com/", tx_power := -16 } }) :=
  ⟨C7_eddystone_url_decoding 0xF0 0x00 [0x65, 0x78, 0x61, 0x6D, 0x70, 0x6C, 0x65, 0x00]
      uid_decoded_result (by decide) (by decide) (by decide),
   C7_eddystone_url_decoding 0xF4 0x02 [0x67, 0x6F, 0x6F, 0x67, 0x6C, 0x65, 0x07] BeaconData.new
      (by decide) (by decide) (by decide),
   C7_eddystone_url_decoding 0xF0 0x00 [0x65, 0x78, 0x61, 0x6D, 0x70, 0x6C, 0x65, 0x00]
      BeaconData.new (by decide) (by decide) (by decide)⟩

/-! ## What the decoders leave in the result -/

/-- The function `iBeaconParser::parse` either succeeds with an iBeacon reading, or fails and
changes nothing but the validity flag. -/
theorem iBeacon_parse_post (data : List Nat) (len : Nat) (r r1 : BeaconData) (b : Bool)
    (h : iBeaconParser.parse data len r = Except.ok (b, r1)) :
    (b = true ∧ r1.valid = true ∧ r1.type = BEACON_TYPE_IBEACON) ∨
    (b = false ∧ r1 = { r with valid := false }) := by
  unfold iBeaconParser.parse at h
  simp only [run_bind_eq_ok] at h
  obtain ⟨found, -, h⟩ := h
  rcases found with _ | ⟨m, ml⟩
  · simp only [run_pure, Except.ok.injEq, Prod.mk.injEq] at h
    exact Or.inr ⟨h.1.symm, h.2.symm⟩
  · simp only [] at h
    split at h
    · simp only [run_pure, Except.ok.injEq, Prod.mk.injEq] at h
      exact Or.inr ⟨h.1.symm, h.2.symm⟩
    · simp only [run_bind_eq_ok] at h
      obtain ⟨b0, -, h⟩ := h
      split at h
      · simp only [run_pure, Except.ok.injEq, Prod.mk.injEq] at h
        exact Or.inr ⟨h.1.symm, h.2.symm⟩
      · simp only [run_bind_eq_ok] at h
        obtain ⟨b1, -, h⟩ := h
        split at h
        · simp only [run_pure, Except.ok.injEq, Prod.mk.injEq] at h
          exact Or.inr ⟨h.1.symm, h.2.symm⟩
        · simp only [run_bind_eq_ok] at h
          obtain ⟨uuid, -, u, -, m18, -, m19, -, m20, -, m21, -, m22, -, h⟩ := h
          simp only [run_pure, Except.ok.injEq, Prod.mk.injEq] at h
          refine Or.inl ⟨h.1.symm, ?_, ?_⟩ <;> rw [← h.2]

/-- C2, at the UUID of the unit test `test_iBeacon_parse`. -/
theorem C2_uuidToString_format_witness :
    ∃ s : String,
      iBeaconParser.uuidToString
        [0x5F, 0x2D, 0xD8, 0x96, 0xB8, 0x86, 0x45, 0x49, 0xAE, 0x01, 0xE4, 0x1A, 0xCD, 0x7A,
         0x35, 0x4A] 0 = Except.ok s ∧ s.length = 36 ∧
      (∀ i, i ∈ [8, 13, 18, 23] → s.data[i]? = some '-') ∧
      (∀ i, i < 36 → i ∉ [8, 13, 18, 23] → ∃ c, c ∈ upperHexDigits ∧ s.data[i]? = some c) ∧
      s.data.filter (fun c => decide (c ≠ '-')) = "5F2DD896B8864549AE01E41ACD7A354A".data :=
  C2_uuidToString_format
    [0x5F, 0x2D, 0xD8, 0x96, 0xB8, 0x86, 0x45, 0x49, 0xAE, 0x01, 0xE4, 0x1A, 0xCD, 0x7A, 0x35, 0x4A]
    rfl (by decide)

/-- The function `AltBeaconParser::parse` either succeeds with an AltBeacon reading, or fails
and changes nothing but the validity flag. -/
theorem AltBeacon_parse_post (data : List Nat) (len : Nat) (r r1 : BeaconData) (b : Bool)
    (h : AltBeaconParser.parse data len r = Except.ok (b, r1)) :
    (b = true ∧ r1.valid = true ∧ r1.type = BEACON_TYPE_ALTBEACON) ∨
    (b = false ∧ r1 = { r with valid := false }) := by
  unfold AltBeaconParser.parse at h
  simp only [run_bind_eq_ok] at h
  obtain ⟨found, -, h⟩ := h
  rcases found with _ | ⟨m, ml⟩
  · simp only [run_pure, Except.ok.injEq, Prod.mk.injEq] at h
    exact Or.inr ⟨h.1.symm, h.2.symm⟩
  · simp only [] at h
    split at h
    · simp only [run_pure, Except.ok.injEq, Prod.mk.injEq] at h
      exact Or.inr ⟨h.1.symm, h.2.symm⟩
    · simp only [run_bind_eq_ok] at h
      obtain ⟨b0, -, h⟩ := h
      split at h
      · simp only [run_pure, Except.ok.injEq, Prod.mk.injEq] at h
        exact Or.inr ⟨h.1.symm, h.2.symm⟩
      · simp only [run_bind_eq_ok] at h
        obtain ⟨b1, -, h⟩ := h
        split at h
        · simp only [run_pure, Except.ok.injEq, Prod.mk.injEq] at h
          exact Or.inr ⟨h.1.symm, h.2.symm⟩
        · simp only [run_bind_eq_ok] at h
          obtain ⟨id, -, m18, -, m19, -, m20, -, m21, -, m22, -, m23, -, h⟩ := h
          simp only [run_pure, Except.ok.injEq, Prod.mk.injEq] at h
          refine Or.inl ⟨h.1.symm, ?_, ?_⟩ <;> rw [← h.2]

theorem parseUID_post (data : List Nat) (fd fl : Nat) (r r1 : BeaconData) (b : Bool)
    (h : EddystoneParser.parseUID data fd fl r = Except.ok (b, r1)) :
    (b = true ∧ r1.valid = true ∧ r1.type = BEACON_TYPE_EDDYSTONE_UID) ∨
    (b = false ∧ r1.valid = false ∧ r1.type = r.type) := by
  unfold EddystoneParser.parseUID at h
  split at h
  · simp only [run_pure, Except.ok.injEq, Prod.mk.injEq] at h
    refine Or.inr ⟨h.1.symm, ?_, ?_⟩ <;> rw [← h.2]
  · simp only [run_bind_eq_ok] at h
    obtain ⟨f0, -, ns, -, ins, -, h⟩ := h
    simp only [run_pure, Except.ok.injEq, Prod.mk.injEq] at h
    refine Or.inl ⟨h.1.symm, ?_, ?_⟩ <;> rw [← h.2]

theorem parseURL_post (data : List Nat) (fd fl : Nat) (r r1 : BeaconData) (b : Bool)
    (h : EddystoneParser.parseURL data fd fl r = Except.ok (b, r1)) :
    (b = true ∧ r1.valid = true ∧ r1.type = BEACON_TYPE_EDDYSTONE_URL) ∨
    (b = false ∧ r1.valid = false ∧ r1.type = r.type) := by
  unfold EddystoneParser.parseURL at h
  split at h
  · simp only [run_pure, Except.ok.injEq, Prod.mk.injEq] at h
    refine Or.inr ⟨h.1.symm, ?_, ?_⟩ <;> rw [← h.2]
  · simp only [run_bind_eq_ok] at h
    obtain ⟨f0, -, f1, -, h⟩ := h
    split at h
    · simp only [run_pure, Except.ok.injEq, Prod.mk.injEq] at h
      refine Or.inr ⟨h.1.symm, ?_, ?_⟩ <;> rw [← h.2]
    · simp only [run_bind_eq_ok] at h
      obtain ⟨url1, -, u, -, h⟩ := h
      simp only [run_pure, Except.ok.injEq, Prod.mk.injEq] at h
      refine Or.inl ⟨h.1.symm, ?_, ?_⟩ <;> rw [← h.2]

theorem parseTLM_post (data : List Nat) (fd fl : Nat) (r r1 : BeaconData) (b : Bool)
    (h : EddystoneParser.parseTLM data fd fl r = Except.ok (b, r1)) :
    (b = true ∧ r1.valid = true ∧ r1.type = BEACON_TYPE_EDDYSTONE_TLM) ∨
    (b = false ∧ r1.valid = false ∧ r1.type = r.type) := by
  unfold EddystoneParser.parseTLM at h
  split at h
  · simp only [run_pure, Except.ok.injEq, Prod.mk.injEq] at h
    refine Or.inr ⟨h.1.symm, ?_, ?_⟩ <;> rw [← h.2]
  · simp only [run_bind_eq_ok] at h
    obtain ⟨version, -, h⟩ := h
    split at h
    · simp only [run_pure, Except.ok.injEq, Prod.mk.injEq] at h
      refine Or.inr ⟨h.1.symm, ?_, ?_⟩ <;> rw [← h.2]
    · simp only [run_bind_eq_ok] at h
      obtain ⟨f1, -, f2, -, f3, -, f4, -, f5, -, f6, -, f7, -, f8, -, f9, -, f10, -, f11, -,
        f12, -, h⟩ := h
      simp only [run_pure, Except.ok.injEq, Prod.mk.injEq] at h
      refine Or.inl ⟨h.1.symm, ?_, ?_⟩ <;> rw [← h.2]

/-- The function `EddystoneParser::parse` either succeeds with one of the three Eddystone
readings, or fails, leaving the result invalid and its type as it was. -/
theorem Eddystone_parse_post (data : List Nat) (len : Nat) (r r1 : BeaconData) (b : Bool)
    (h : EddystoneParser.parse data len r = Except.ok (b, r1)) :
    (b = true ∧ r1.valid = true ∧
      (r1.type = BEACON_TYPE_EDDYSTONE_UID ∨ r1.type = BEACON_TYPE_EDDYSTONE_URL ∨
        r1.type = BEACON_TYPE_EDDYSTONE_TLM)) ∨
    (b = false ∧ r1.valid = false ∧ r1.type = r.type) := by
  unfold EddystoneParser.parse at h
  simp only [run_bind_eq_ok] at h
  obtain ⟨found, -, h⟩ := h
  rcases found with _ | ⟨sd, sl⟩
  · simp only [run_pure, Except.ok.injEq, Prod.mk.injEq] at h
    refine Or.inr ⟨h.1.symm, ?_, ?_⟩ <;> rw [← h.2]
  · simp only [] at h
    split at h
    · simp only [run_pure, Except.ok.injEq, Prod.mk.injEq] at h
      refine Or.inr ⟨h.1.symm, ?_, ?_⟩ <;> rw [← h.2]
    · simp only [run_bind_eq_ok] at h
      obtain ⟨ft, -, h⟩ := h
      split at h
      · rcases parseUID_post _ _ _ _ _ _ h with ⟨h1, h2, h3⟩ | h1
        · exact Or.inl ⟨h1, h2, Or.inl h3⟩
        · exact Or.inr h1
      · split at h
        · rcases parseURL_post _ _ _ _ _ _ h with ⟨h1, h2, h3⟩ | h1
          · exact Or.inl ⟨h1, h2, Or.inr (Or.inl h3)⟩
          · exact Or.inr h1
        · split at h
          · rcases parseTLM_post _ _ _ _ _ _ h with ⟨h1, h2, h3⟩ | h1
            · exact Or.inl ⟨h1, h2, Or.inr (Or.inr h3)⟩
            · exact Or.inr h1
          · simp only [run_pure, Except.ok.injEq, Prod.mk.injEq] at h
            refine Or.inr ⟨h.1.symm, ?_, ?_⟩ <;> rw [← h.2]

/-! ## A failing decoder leaves the `String` of the union as it was -/

theorem iBeacon_parse_fail_string (data : List Nat) (len : Nat) (r r1 : BeaconData)
    (h : iBeaconParser.parse data len r = Except.ok (false, r1)) :
    r1.holds_string = r.holds_string := by
  rcases iBeacon_parse_post data len r r1 false h with ⟨h1, -⟩ | ⟨-, h2⟩
  · exact absurd h1 (by decide)
  · rw [h2]

theorem AltBeacon_parse_fail_string (data : List Nat) (len : Nat) (r r1 : BeaconData)
    (h : AltBeaconParser.parse data len r = Except.ok (false, r1)) :
    r1.holds_string = r.holds_string := by
  rcases AltBeacon_parse_post data len r r1 false h with ⟨h1, -⟩ | ⟨-, h2⟩
  · exact absurd h1 (by decide)
  · rw [h2]

theorem parseUID_fail_string (data : List Nat) (fd fl : Nat) (r r1 : BeaconData)
    (h : EddystoneParser.parseUID data fd fl r = Except.ok (false, r1)) :
    r1.holds_string = r.holds_string := by
  unfold EddystoneParser.parseUID at h
  split at h
  · simp only [run_pure, Except.ok.injEq, Prod.mk.injEq] at h
    rw [← h.2]
  · simp only [run_bind_eq_ok] at h
    obtain ⟨f0, -, ns, -, ins, -, h⟩ := h
    simp [run_pure] at h

theorem parseURL_fail_string (data : List Nat) (fd fl : Nat) (r r1 : BeaconData)
    (h : EddystoneParser.parseURL data fd fl r = Except.ok (false, r1)) :
    r1.holds_string = r.holds_string := by
  unfold EddystoneParser.parseURL at h
  split at h
  · simp only [run_pure, Except.ok.injEq, Prod.mk.injEq] at h
    rw [← h.2]
  · simp only [run_bind_eq_ok] at h
    obtain ⟨f0, -, f1, -, h⟩ := h
    split at h
    · simp only [run_pure, Except.ok.injEq, Prod.mk.injEq] at h
      rw [← h.2]
    · simp only [run_bind_eq_ok] at h
      obtain ⟨url1, -, u, -, h⟩ := h
      simp [run_pure] at h

theorem parseTLM_fail_string (data : List Nat) (fd fl : Nat) (r r1 : BeaconData)
    (h : EddystoneParser.parseTLM data fd fl r = Except.ok (false, r1)) :
    r1.holds_string = r.holds_string := by
  unfold EddystoneParser.parseTLM at h
  split at h
  · simp only [run_pure, Except.ok.injEq, Prod.mk.injEq] at h
    rw [← h.2]
  · simp only [run_bind_eq_ok] at h
    obtain ⟨version, -, h⟩ := h
    split at h
    · simp only [run_pure, Except.ok.injEq, Prod.mk.injEq] at h
      rw [← h.2]
    · simp only [run_bind_eq_ok] at h
      obtain ⟨f1, -, f2, -, f3, -, f4, -, f5, -, f6, -, f7, -, f8, -, f9, -, f10, -, f11, -,
        f12, -, h⟩ := h
      simp only [run_pure, Except.ok.injEq, Prod.mk.injEq] at h
      exact absurd h.1 (by decide)

theorem Eddystone_parse_fail_string (data : List Nat) (len : Nat) (r r1 : BeaconData)
    (h : EddystoneParser.parse data len r = Except.ok (false, r1)) :
    r1.holds_string = r.holds_string := by
  unfold EddystoneParser.parse at h
  simp only [run_bind_eq_ok] at h
  obtain ⟨found, -, h⟩ := h
  rcases found with _ | ⟨sd, sl⟩
  · simp only [run_pure, Except.ok.injEq, Prod.mk.injEq] at h
    rw [← h.2]
  · simp only [] at h
    split at h
    · simp only [run_pure, Except.ok.injEq, Prod.mk.injEq] at h
      rw [← h.2]
    · simp only [run_bind_eq_ok] at h
      obtain ⟨ft, -, h⟩ := h
      split at h
      · exact parseUID_fail_string _ _ _ _ _ h
      · split at h
        · exact parseURL_fail_string _ _ _ _ _ h
        · split at h
          · exact parseTLM_fail_string _ _ _ _ _ h
          · simp only [run_pure, Except.ok.injEq, Prod.mk.injEq] at h
            rw [← h.2]

/-! ## The dispatcher -/

/-- C8: with a null data pointer, and with `len = 0`, `BLEBeaconParser::parse` returns false
and leaves the result with type unknown and invalid, whatever the result held before. -/
theorem C8_null_or_empty_input (data : Option (List Nat)) (n : Nat) (result : BeaconData) :
    BLEBeaconParser.parse none n result
      = Except.ok (false, { result with type := BEACON_TYPE_UNKNOWN, valid := false }) ∧
    BLEBeaconParser.parse data 0 result
      = Except.ok (false, { result with type := BEACON_TYPE_UNKNOWN, valid := false }) := by
  constructor
  · rfl
  · cases data <;> rfl

/-- One guarded decoder call of the dispatcher, `if (canParse) { if (parse) return true; }`,
started on a result that is unknown and invalid: either the decoder succeeded with one of the
types in `ts`, or the result is still unknown and invalid. -/
theorem guarded_call_post (c : Bool) (p : Run (Bool × BeaconData)) (r0 r1 : BeaconData)
    (b : Bool) (ok : BeaconType → Prop) (hr0 : r0.valid = false ∧ r0.type = BEACON_TYPE_UNKNOWN)
    (hp : ∀ b1 r2, p = Except.ok (b1, r2) →
      (b1 = true ∧ r2.valid = true ∧ ok r2.type) ∨
      (b1 = false ∧ r2.valid = false ∧ r2.type = r0.type))
    (h : (if c then p else pure (false, r0) : Run (Bool × BeaconData)) = Except.ok (b, r1)) :
    (b = true ∧ r1.valid = true ∧ ok r1.type) ∨
    (b = false ∧ r1.valid = false ∧ r1.type = BEACON_TYPE_UNKNOWN) := by
  cases c with
  | true =>
    simp only [if_true] at h
    rcases hp b r1 h with h1 | ⟨h1, h2, h3⟩
    · exact Or.inl h1
    · exact Or.inr ⟨h1, h2, h3.trans hr0.2⟩
  | false =>
    simp only [Bool.false_eq_true, if_false, run_pure, Except.ok.injEq, Prod.mk.injEq] at h
    refine Or.inr ⟨h.1.symm, ?_, ?_⟩
    · rw [← h.2]; exact hr0.1
    · rw [← h.2]; exact hr0.2

/-- Every defined outcome of `BLEBeaconParser::parse` is either success with a valid reading
of one of the five beacon types, or failure with an invalid result of type unknown. -/
theorem parse_post (data : Option (List Nat)) (len : Nat) (result res : BeaconData) (out : Bool)
    (h : BLEBeaconParser.parse data len result = Except.ok (out, res)) :
    (out = true ∧ res.valid = true ∧
      (res.type = BEACON_TYPE_IBEACON ∨ res.type = BEACON_TYPE_ALTBEACON ∨
        res.type = BEACON_TYPE_EDDYSTONE_UID ∨ res.type = BEACON_TYPE_EDDYSTONE_URL ∨
        res.type = BEACON_TYPE_EDDYSTONE_TLM)) ∨
    (out = false ∧ res.valid = false ∧ res.type = BEACON_TYPE_UNKNOWN) := by
  cases data with
  | none =>
    simp only [BLEBeaconParser.parse, run_pure, Except.ok.injEq, Prod.mk.injEq] at h
    refine Or.inr ⟨h.1.symm, ?_, ?_⟩ <;> rw [← h.2]
  | some d =>
    by_cases hl : len = 0
    · simp only [BLEBeaconParser.parse, hl, if_true, run_pure, Except.ok.injEq,
        Prod.mk.injEq] at h
      refine Or.inr ⟨h.1.symm, ?_, ?_⟩ <;> rw [← h.2]
    · simp only [BLEBeaconParser.parse, hl, if_false, run_bind_eq_ok] at h
      obtain ⟨c1, -, ⟨r1, res1⟩, h1, h⟩ := h
      have s1 := guarded_call_post c1 _ _ res1 r1 (fun t => t = BEACON_TYPE_IBEACON)
        ⟨rfl, rfl⟩ (by
          intro b1 r2 hb
          rcases iBeacon_parse_post _ _ _ _ _ hb with h' | ⟨h1', h2'⟩
          · exact Or.inl h'
          · exact Or.inr ⟨h1', by rw [h2'], by rw [h2']⟩) h1
      simp only [] at h
      rcases s1 with ⟨e1, v1, t1⟩ | ⟨e1, v1, t1⟩
      · subst e1
        simp only [if_true, run_pure, Except.ok.injEq, Prod.mk.injEq] at h
        refine Or.inl ⟨h.1.symm, ?_, Or.inl ?_⟩ <;> rw [← h.2] <;> assumption
      · subst e1
        simp only [Bool.false_eq_true, if_false, run_bind_eq_ok] at h
        obtain ⟨c2, -, ⟨r2, res2⟩, h2, h⟩ := h
        have s2 := guarded_call_post c2 _ _ res2 r2 (fun t => t = BEACON_TYPE_ALTBEACON)
          ⟨v1, t1⟩ (by
            intro b1 r3 hb
            rcases AltBeacon_parse_post _ _ _ _ _ hb with h' | ⟨h1', h2'⟩
            · exact Or.inl h'
            · exact Or.inr ⟨h1', by rw [h2'], by rw [h2']⟩) h2
        simp only [] at h
        rcases s2 with ⟨e2, v2, t2⟩ | ⟨e2, v2, t2⟩
        · subst e2
          simp only [if_true, run_pure, Except.ok.injEq, Prod.mk.injEq] at h
          refine Or.inl ⟨h.1.symm, ?_, Or.inr (Or.inl ?_)⟩ <;> rw [← h.2] <;> assumption
        · subst e2
          simp only [Bool.false_eq_true, if_false, run_bind_eq_ok] at h
          obtain ⟨c3, -, ⟨r3, res3⟩, h3, h⟩ := h
          have s3 := guarded_call_post c3 _ _ res3 r3
            (fun t => t = BEACON_TYPE_EDDYSTONE_UID ∨ t = BEACON_TYPE_EDDYSTONE_URL ∨
              t = BEACON_TYPE_EDDYSTONE_TLM)
            ⟨v2, t2⟩ (fun b1 r4 hb => Eddystone_parse_post _ _ _ _ _ hb) h3
          simp only [] at h
          rcases s3 with ⟨e3, v3, t3⟩ | ⟨e3, v3, t3⟩
          · subst e3
            simp only [if_true, run_pure, Except.ok.injEq, Prod.mk.injEq] at h
            refine Or.inl ⟨h.1.symm, ?_, Or.inr (Or.inr ?_)⟩ <;> rw [← h.2] <;> assumption
          · subst e3
            simp only [Bool.false_eq_true, if_false, run_pure, Except.ok.injEq,
              Prod.mk.injEq] at h
            refine Or.inr ⟨h.1.symm, ?_, ?_⟩ <;> rw [← h.2] <;> assumption

/-! ## The scanners always stop, and read at most one byte past `len` -/

theorem findApple_skip_key (data : List Nat) (len fuel pos L lo hi : Nat)
    (h0 : data[pos]? = some L) (hL : L ≠ 0) (hlt : pos + L < len)
    (h1 : data[pos + 1]? = some 0xFF) (h2 : 2 ≤ L)
    (h3 : data[pos + 2]? = some lo) (h4 : data[pos + 3]? = some hi)
    (hne : ¬ (lo = 0x4C ∧ hi = 0x00)) :
    iBeaconParser.findAppleManufacturerDataLoop data len (fuel + 1) pos
      = iBeaconParser.findAppleManufacturerDataLoop data len fuel ((pos + L + 1) % 256) := by
  have hp : pos < len := by omega
  have hn : ¬ (len ≤ pos + L) := by omega
  simp [iBeaconParser.findAppleManufacturerDataLoop, hp, readByte_eq h0, readByte_eq h1,
    readByte_eq h3, readByte_eq h4, hL, hn, h2, hne, run_pure, run_bind_ok]

theorem findApple_skip_short (data : List Nat) (len fuel pos L ty : Nat)
    (h0 : data[pos]? = some L) (hL : L ≠ 0) (hlt : pos + L < len)
    (h1 : data[pos + 1]? = some ty) (h2 : L < 2) :
    iBeaconParser.findAppleManufacturerDataLoop data len (fuel + 1) pos
      = iBeaconParser.findAppleManufacturerDataLoop data len fuel ((pos + L + 1) % 256) := by
  have hp : pos < len := by omega
  have hn : ¬ (len ≤ pos + L) := by omega
  have h2n : ¬ (2 ≤ L) := by omega
  by_cases hty : ty = 0xFF
  · simp [iBeaconParser.findAppleManufacturerDataLoop, hp, readByte_eq h0, readByte_eq h1,
      hL, hn, hty, h2n, run_pure, run_bind_ok]
  · simp [iBeaconParser.findAppleManufacturerDataLoop, hp, readByte_eq h0, readByte_eq h1,
      hL, hn, hty, run_pure, run_bind_ok]

theorem findApple_zero (data : List Nat) (len fuel pos : Nat)
    (h0 : data[pos]? = some 0) :
    iBeaconParser.findAppleManufacturerDataLoop data len (fuel + 1) pos = Except.ok none := by
  by_cases hp : pos < len
  · simp [iBeaconParser.findAppleManufacturerDataLoop, hp, readByte_eq h0, run_pure, run_bind_ok]
  · exact findApple_end data len (fuel + 1) pos hp

theorem findApple_trunc (data : List Nat) (len fuel pos L : Nat)
    (h0 : data[pos]? = some L) (hbrk : len ≤ pos + L) :
    iBeaconParser.findAppleManufacturerDataLoop data len (fuel + 1) pos = Except.ok none := by
  by_cases hp : pos < len
  · by_cases hL : L = 0
    · subst hL
      exact findApple_zero data len fuel pos h0
    · simp [iBeaconParser.findAppleManufacturerDataLoop, hp, readByte_eq h0, hL, hbrk, run_pure, run_bind_ok]
  · exact findApple_end data len (fuel + 1) pos hp

/-- With `len` an 8-bit value and the array object at least one byte longer than `len`, the
scanner returns within `len - pos` iterations, and a located view satisfies
`m + ml ≤ len + 1`. -/
theorem findApple_total (data : List Nat) (len : Nat) (hdata : len < data.length)
    (h256 : len < 256) : ∀ (fuel pos : Nat), len - pos ≤ fuel →
    ∃ r, iBeaconParser.findAppleManufacturerDataLoop data len fuel pos = Except.ok r ∧
      ∀ m ml, r = some (m, ml) → m + ml ≤ len + 1 := by
  intro fuel
  induction fuel with
  | zero =>
    intro pos hf
    exact ⟨none, findApple_end data len 0 pos (by omega), by intro m ml h; cases h⟩
  | succ f ih =>
    intro pos hf
    by_cases hp : pos < len
    · obtain ⟨L, -, h0⟩ := readByte_of_lt data (pos) (by omega)
      by_cases hbrk : len ≤ pos + L
      · exact ⟨none, findApple_trunc data len f pos L h0 hbrk, by intro m ml h; cases h⟩
      · by_cases hL : L = 0
        · subst hL
          exact ⟨none, findApple_zero data len f pos h0, by intro m ml h; cases h⟩
        · have hcont : pos + L < len := by omega
          have hmod : (pos + L + 1) % 256 = pos + L + 1 := Nat.mod_eq_of_lt (by omega)
          have hnext : len - (pos + L + 1) ≤ f := by omega
          obtain ⟨ty, -, h1⟩ := readByte_of_lt data (pos + 1) (by omega)
          by_cases h2 : L < 2
          · rw [findApple_skip_short data len f pos L ty h0 hL hcont h1 h2, hmod]
            exact ih _ hnext
          · by_cases hty : ty = 0xFF
            · subst hty
              obtain ⟨lo, -, h3⟩ := readByte_of_lt data (pos + 2) (by omega)
              obtain ⟨hi, -, h4⟩ := readByte_of_lt data (pos + 3) (by omega)
              by_cases hm : lo = 0x4C ∧ hi = 0x00
              · obtain ⟨rfl, rfl⟩ := hm
                refine ⟨_, findApple_hit data len f pos L h0 hL hcont h1 (by omega) h3 h4, ?_⟩
                intro m ml h
                simp only [Option.some.injEq, Prod.mk.injEq] at h
                have hmod2 := Nat.mod_le (L - 2) 256
                omega
              · rw [findApple_skip_key data len f pos L lo hi h0 hL hcont h1 (by omega) h3 h4 hm,
                  hmod]
                exact ih _ hnext
            · rw [findApple_skip data len f pos L ty h0 hL hcont h1 hty, hmod]
              exact ih _ hnext
    · exact ⟨none, findApple_end data len (f + 1) pos hp, by intro m ml h; cases h⟩

theorem findRadius_skip_key (data : List Nat) (len fuel pos L lo hi : Nat)
    (h0 : data[pos]? = some L) (hL : L ≠ 0) (hlt : pos + L < len)
    (h1 : data[pos + 1]? = some 0xFF) (h2 : 2 ≤ L)
    (h3 : data[pos + 2]? = some lo) (h4 : data[pos + 3]? = some hi)
    (hne : ¬ (lo = 0x18 ∧ hi = 0x01)) :
    AltBeaconParser.findRadiusManufacturerDataLoop data len (fuel + 1) pos
      = AltBeaconParser.findRadiusManufacturerDataLoop data len fuel ((pos + L + 1) % 256) := by
  have hp : pos < len := by omega
  have hn : ¬ (len ≤ pos + L) := by omega
  simp [AltBeaconParser.findRadiusManufacturerDataLoop, hp, readByte_eq h0, readByte_eq h1,
    readByte_eq h3, readByte_eq h4, hL, hn, h2, hne, run_pure, run_bind_ok]

theorem findRadius_skip_short (data : List Nat) (len fuel pos L ty : Nat)
    (h0 : data[pos]? = some L) (hL : L ≠ 0) (hlt : pos + L < len)
    (h1 : data[pos + 1]? = some ty) (h2 : L < 2) :
    AltBeaconParser.findRadiusManufacturerDataLoop data len (fuel + 1) pos
      = AltBeaconParser.findRadiusManufacturerDataLoop data len fuel ((pos + L + 1) % 256) := by
  have hp : pos < len := by omega
  have hn : ¬ (len ≤ pos + L) := by omega
  have h2n : ¬ (2 ≤ L) := by omega
  by_cases hty : ty = 0xFF
  · simp [AltBeaconParser.findRadiusManufacturerDataLoop, hp, readByte_eq h0, readByte_eq h1,
      hL, hn, hty, h2n, run_pure, run_bind_ok]
  · simp [AltBeaconParser.findRadiusManufacturerDataLoop, hp, readByte_eq h0, readByte_eq h1,
      hL, hn, hty, run_pure, run_bind_ok]

theorem findRadius_zero (data : List Nat) (len fuel pos : Nat)
    (h0 : data[pos]? = some 0) :
    AltBeaconParser.findRadiusManufacturerDataLoop data len (fuel + 1) pos = Except.ok none := by
  by_cases hp : pos < len
  · simp [AltBeaconParser.findRadiusManufacturerDataLoop, hp, readByte_eq h0, run_pure, run_bind_ok]
  · exact findRadius_end data len (fuel + 1) pos hp

theorem findRadius_trunc (data : List Nat) (len fuel pos L : Nat)
    (h0 : data[pos]? = some L) (hbrk : len ≤ pos + L) :
    AltBeaconParser.findRadiusManufacturerDataLoop data len (fuel + 1) pos = Except.ok none := by
  by_cases hp : pos < len
  · by_cases hL : L = 0
    · subst hL
      exact findRadius_zero data len fuel pos h0
    · simp [AltBeaconParser.findRadiusManufacturerDataLoop, hp, readByte_eq h0, hL, hbrk, run_pure, run_bind_ok]
  · exact findRadius_end data len (fuel + 1) pos hp

/-- With `len` an 8-bit value and the array object at least one byte longer than `len`, the
scanner returns within `len - pos` iterations, and a located view satisfies
`m + ml ≤ len + 1`. -/
theorem findRadius_total (data : List Nat) (len : Nat) (hdata : len < data.length)
    (h256 : len < 256) : ∀ (fuel pos : Nat), len - pos ≤ fuel →
    ∃ r, AltBeaconParser.findRadiusManufacturerDataLoop data len fuel pos = Except.ok r ∧
      ∀ m ml, r = some (m, ml) → m + ml ≤ len + 1 := by
  intro fuel
  induction fuel with
  | zero =>
    intro pos hf
    exact ⟨none, findRadius_end data len 0 pos (by omega), by intro m ml h; cases h⟩
  | succ f ih =>
    intro pos hf
    by_cases hp : pos < len
    · obtain ⟨L, -, h0⟩ := readByte_of_lt data (pos) (by omega)
      by_cases hbrk : len ≤ pos + L
      · exact ⟨none, findRadius_trunc data len f pos L h0 hbrk, by intro m ml h; cases h⟩
      · by_cases hL : L = 0
        · subst hL
          exact ⟨none, findRadius_zero data len f pos h0, by intro m ml h; cases h⟩
        · have hcont : pos + L < len := by omega
          have hmod : (pos + L + 1) % 256 = pos + L + 1 := Nat.mod_eq_of_lt (by omega)
          have hnext : len - (pos + L + 1) ≤ f := by omega
          obtain ⟨ty, -, h1⟩ := readByte_of_lt data (pos + 1) (by omega)
          by_cases h2 : L < 2
          · rw [findRadius_skip_short data len f pos L ty h0 hL hcont h1 h2, hmod]
            exact ih _ hnext
          · by_cases hty : ty = 0xFF
            · subst hty
              obtain ⟨lo, -, h3⟩ := readByte_of_lt data (pos + 2) (by omega)
              obtain ⟨hi, -, h4⟩ := readByte_of_lt data (pos + 3) (by omega)
              by_cases hm : lo = 0x18 ∧ hi = 0x01
              · obtain ⟨rfl, rfl⟩ := hm
                refine ⟨_, findRadius_hit data len f pos L h0 hL hcont h1 (by omega) h3 h4, ?_⟩
                intro m ml h
                simp only [Option.some.injEq, Prod.mk.injEq] at h
                have hmod2 := Nat.mod_le (L - 2) 256
                omega
              · rw [findRadius_skip_key data len f pos L lo hi h0 hL hcont h1 (by omega) h3 h4 hm,
                  hmod]
                exact ih _ hnext
            · rw [findRadius_skip data len f pos L ty h0 hL hcont h1 hty, hmod]
              exact ih _ hnext
    · exact ⟨none, findRadius_end data len (f + 1) pos hp, by intro m ml h; cases h⟩

theorem findEddystone_skip (data : List Nat) (len fuel pos L ty : Nat)
    (h0 : data[pos]? = some L) (hL : L ≠ 0) (hlt : pos + 1 + L ≤ len)
    (h1 : data[pos + 1]? = some ty) (hty : ty ≠ 0x16) :
    EddystoneParser.findEddystoneServiceDataLoop data len (fuel + 1) pos
      = EddystoneParser.findEddystoneServiceDataLoop data len fuel ((pos + L + 1) % 256) := by
  have hp : pos < len := by omega
  have hn : ¬ (len < pos + 1 + L) := by omega
  simp [EddystoneParser.findEddystoneServiceDataLoop, hp, readByte_eq h0, readByte_eq h1,
    hL, hn, hty, run_pure, run_bind_ok]

theorem findEddystone_skip_key (data : List Nat) (len fuel pos L lo hi : Nat)
    (h0 : data[pos]? = some L) (hL : L ≠ 0) (hlt : pos + 1 + L ≤ len)
    (h1 : data[pos + 1]? = some 0x16) (h2 : 2 ≤ L)
    (h3 : data[pos + 2]? = some lo) (h4 : data[pos + 3]? = some hi)
    (hne : ¬ (lo = 0xAA ∧ hi = 0xFE)) :
    EddystoneParser.findEddystoneServiceDataLoop data len (fuel + 1) pos
      = EddystoneParser.findEddystoneServiceDataLoop data len fuel ((pos + L + 1) % 256) := by
  have hp : pos < len := by omega
  have hn : ¬ (len < pos + 1 + L) := by omega
  simp [EddystoneParser.findEddystoneServiceDataLoop, hp, readByte_eq h0, readByte_eq h1,
    readByte_eq h3, readByte_eq h4, hL, hn, h2, hne, run_pure, run_bind_ok]

theorem findEddystone_skip_short (data : List Nat) (len fuel pos L ty : Nat)
    (h0 : data[pos]? = some L) (hL : L ≠ 0) (hlt : pos + 1 + L ≤ len)
    (h1 : data[pos + 1]? = some ty) (h2 : L < 2) :
    EddystoneParser.findEddystoneServiceDataLoop data len (fuel + 1) pos
      = EddystoneParser.findEddystoneServiceDataLoop data len fuel ((pos + L + 1) % 256) := by
  have hp : pos < len := by omega
  have hn : ¬ (len < pos + 1 + L) := by omega
  have h2n : ¬ (2 ≤ L) := by omega
  by_cases hty : ty = 0x16
  · simp [EddystoneParser.findEddystoneServiceDataLoop, hp, readByte_eq h0, readByte_eq h1,
      hL, hn, hty, h2n, run_pure, run_bind_ok]
  · simp [EddystoneParser.findEddystoneServiceDataLoop, hp, readByte_eq h0, readByte_eq h1,
      hL, hn, hty, run_pure, run_bind_ok]

theorem findEddystone_zero (data : List Nat) (len fuel pos : Nat)
    (h0 : data[pos]? = some 0) :
    EddystoneParser.findEddystoneServiceDataLoop data len (fuel + 1) pos = Except.ok none := by
  by_cases hp : pos < len
  · simp [EddystoneParser.findEddystoneServiceDataLoop, hp, readByte_eq h0, run_pure, run_bind_ok]
  · exact findEddystone_end data len (fuel + 1) pos hp

theorem findEddystone_trunc (data : List Nat) (len fuel pos L : Nat)
    (h0 : data[pos]? = some L) (hbrk : len < pos + 1 + L) :
    EddystoneParser.findEddystoneServiceDataLoop data len (fuel + 1) pos = Except.ok none := by
  by_cases hp : pos < len
  · by_cases hL : L = 0
    · subst hL
      exact findEddystone_zero data len fuel pos h0
    · simp [EddystoneParser.findEddystoneServiceDataLoop, hp, readByte_eq h0, hL, hbrk, run_pure, run_bind_ok]
  · exact findEddystone_end data len (fuel + 1) pos hp

/-- With `len` an 8-bit value and the array object at least one byte longer than `len`, the
scanner returns within `len - pos` iterations, and a located view satisfies
`m + ml ≤ len`. -/
theorem findEddystone_total (data : List Nat) (len : Nat) (hdata : len < data.length)
    (h256 : len < 256) : ∀ (fuel pos : Nat), len - pos ≤ fuel →
    ∃ r, EddystoneParser.findEddystoneServiceDataLoop data len fuel pos = Except.ok r ∧
      ∀ m ml, r = some (m, ml) → m + ml ≤ len := by
  intro fuel
  induction fuel with
  | zero =>
    intro pos hf
    exact ⟨none, findEddystone_end data len 0 pos (by omega), by intro m ml h; cases h⟩
  | succ f ih =>
    intro pos hf
    by_cases hp : pos < len
    · obtain ⟨L, -, h0⟩ := readByte_of_lt data (pos) (by omega)
      by_cases hbrk : len < pos + 1 + L
      · exact ⟨none, findEddystone_trunc data len f pos L h0 hbrk, by intro m ml h; cases h⟩
      · by_cases hL : L = 0
        · subst hL
          exact ⟨none, findEddystone_zero data len f pos h0, by intro m ml h; cases h⟩
        · have hcont : pos + 1 + L ≤ len := by omega
          have hmod : (pos + L + 1) % 256 = pos + L + 1 := Nat.mod_eq_of_lt (by omega)
          have hnext : len - (pos + L + 1) ≤ f := by omega
          obtain ⟨ty, -, h1⟩ := readByte_of_lt data (pos + 1) (by omega)
          by_cases h2 : L < 2
          · rw [findEddystone_skip_short data len f pos L ty h0 hL hcont h1 h2, hmod]
            exact ih _ hnext
          · by_cases hty : ty = 0x16
            · subst hty
              obtain ⟨lo, -, h3⟩ := readByte_of_lt data (pos + 2) (by omega)
              obtain ⟨hi, -, h4⟩ := readByte_of_lt data (pos + 3) (by omega)
              by_cases hm : lo = 0xAA ∧ hi = 0xFE
              · obtain ⟨rfl, rfl⟩ := hm
                refine ⟨_, findEddystone_hit data len f pos L h0 hL hcont h1 (by omega) h3 h4, ?_⟩
                intro m ml h
                simp only [Option.some.injEq, Prod.mk.injEq] at h
                have hmod2 := Nat.mod_le (L - 1) 256
                omega
              · rw [findEddystone_skip_key data len f pos L lo hi h0 hL hcont h1 (by omega) h3 h4 hm,
                  hmod]
                exact ih _ hnext
            · rw [findEddystone_skip data len f pos L ty h0 hL hcont h1 hty, hmod]
              exact ih _ hnext
    · exact ⟨none, findEddystone_end data len (f + 1) pos hp, by intro m ml h; cases h⟩

/-! ## The decoders are defined whenever the array object extends one byte past `len` and the
union of the result holds its `String` -/

theorem uuidToStringLoop_total (data : List Nat) (off : Nat) : ∀ (n i : Nat) (acc : String),
    off + i + n ≤ data.length → ∃ s, iBeaconParser.uuidToStringLoop data off n i acc = Except.ok s := by
  intro n
  induction n with
  | zero => intro i acc _; exact ⟨acc, rfl⟩
  | succ n ih =>
    intro i acc h
    obtain ⟨b, eb, -⟩ := readByte_of_lt data (off + i) (by omega)
    simp only [iBeaconParser.uuidToStringLoop, eb, run_bind_ok]
    exact ih _ _ (by omega)

theorem readBytes_total (data : List Nat) : ∀ (n off : Nat),
    off + n ≤ data.length → ∃ l, readBytes data off n = Except.ok l := by
  intro n
  induction n with
  | zero => intro off _; exact ⟨[], rfl⟩
  | succ n ih =>
    intro off h
    obtain ⟨b, eb, -⟩ := readByte_of_lt data (off) (by omega)
    obtain ⟨l, el⟩ := ih (off + 1) (by omega)
    exact ⟨b :: l, by simp only [readBytes, eb, el, run_bind_ok, run_pure]⟩

theorem parseURLLoop_total (data : List Nat) (fd : Nat) : ∀ (n i : Nat) (url : String),
    fd + i + n ≤ data.length → ∃ s, EddystoneParser.parseURLLoop data fd n i url = Except.ok s := by
  intro n
  induction n with
  | zero => intro i url _; exact ⟨url, rfl⟩
  | succ n ih =>
    intro i url h
    obtain ⟨b, eb, -⟩ := readByte_of_lt data (fd + i) (by omega)
    simp only [EddystoneParser.parseURLLoop, eb, run_bind_ok]
    exact ih _ _ (by omega)

theorem iBeacon_canParse_total (data : List Nat) (len : Nat) (hdata : len < data.length)
    (h256 : len < 256) : ∃ c, iBeaconParser.canParse data len = Except.ok c := by
  obtain ⟨fr, hfind, hb⟩ := findApple_total data len hdata h256 len 0 (by omega)
  have hfind1 : iBeaconParser.findAppleManufacturerData data len = Except.ok fr := hfind
  simp only [iBeaconParser.canParse, hfind1, run_bind_ok]
  rcases fr with _ | ⟨m, ml⟩
  · exact ⟨false, rfl⟩
  · have hm := hb m ml rfl
    simp only []
    by_cases h2 : ml < 2
    · rw [if_pos h2]; exact ⟨false, rfl⟩
    · rw [if_neg h2]
      obtain ⟨b0, e0, -⟩ := readByte_of_lt data (m) (by omega)
      obtain ⟨b1, e1, -⟩ := readByte_of_lt data (m + 1) (by omega)
      simp only [e0, e1, run_bind_ok]
      split <;> exact ⟨_, rfl⟩

theorem AltBeacon_canParse_total (data : List Nat) (len : Nat) (hdata : len < data.length)
    (h256 : len < 256) : ∃ c, AltBeaconParser.canParse data len = Except.ok c := by
  obtain ⟨fr, hfind, hb⟩ := findRadius_total data len hdata h256 len 0 (by omega)
  have hfind1 : AltBeaconParser.findRadiusManufacturerData data len = Except.ok fr := hfind
  simp only [AltBeaconParser.canParse, hfind1, run_bind_ok]
  rcases fr with _ | ⟨m, ml⟩
  · exact ⟨false, rfl⟩
  · have hm := hb m ml rfl
    simp only []
    by_cases h2 : ml < 2
    · rw [if_pos h2]; exact ⟨false, rfl⟩
    · rw [if_neg h2]
      obtain ⟨b0, e0, -⟩ := readByte_of_lt data (m) (by omega)
      obtain ⟨b1, e1, -⟩ := readByte_of_lt data (m + 1) (by omega)
      simp only [e0, e1, run_bind_ok]
      split <;> exact ⟨_, rfl⟩

theorem Eddystone_canParse_total (data : List Nat) (len : Nat) (hdata : len < data.length)
    (h256 : len < 256) : ∃ c, EddystoneParser.canParse data len = Except.ok c := by
  obtain ⟨fr, hfind, -⟩ := findEddystone_total data len hdata h256 len 0 (by omega)
  have hfind1 : EddystoneParser.findEddystoneServiceData data len = Except.ok fr := hfind
  simp only [EddystoneParser.canParse, hfind1, run_bind_ok]
  rcases fr with _ | ⟨m, ml⟩ <;> exact ⟨_, rfl⟩

theorem iBeacon_parse_total (data : List Nat) (len : Nat) (r : BeaconData)
    (hdata : len < data.length) (h256 : len < 256) (hs : r.holds_string = true) :
    ∃ p, iBeaconParser.parse data len r = Except.ok p := by
  obtain ⟨fr, hfind, hb⟩ := findApple_total data len hdata h256 len 0 (by omega)
  have hfind1 : iBeaconParser.findAppleManufacturerData data len = Except.ok fr := hfind
  simp only [iBeaconParser.parse, hfind1, run_bind_ok]
  rcases fr with _ | ⟨m, ml⟩
  · exact ⟨_, rfl⟩
  · have hm := hb m ml rfl
    simp only []
    by_cases h2 : ml < 23
    · rw [if_pos h2]; exact ⟨_, rfl⟩
    · rw [if_neg h2]
      obtain ⟨b0, e0, -⟩ := readByte_of_lt data (m) (by omega)
      obtain ⟨b1, e1, -⟩ := readByte_of_lt data (m + 1) (by omega)
      obtain ⟨u, eu⟩ := uuidToStringLoop_total data (m + 2) 16 0 "" (by omega)
      have eu1 : iBeaconParser.uuidToString data (m + 2) = Except.ok u := eu
      obtain ⟨b18, e18, -⟩ := readByte_of_lt data (m + 18) (by omega)
      obtain ⟨b19, e19, -⟩ := readByte_of_lt data (m + 19) (by omega)
      obtain ⟨b20, e20, -⟩ := readByte_of_lt data (m + 20) (by omega)
      obtain ⟨b21, e21, -⟩ := readByte_of_lt data (m + 21) (by omega)
      obtain ⟨b22, e22, -⟩ := readByte_of_lt data (m + 22) (by omega)
      simp only [e0, e1, eu1, e18, e19, e20, e21, e22, run_bind_ok, assignString_live r hs]
      split
      · exact ⟨_, rfl⟩
      · split <;> exact ⟨_, rfl⟩

theorem AltBeacon_parse_total (data : List Nat) (len : Nat) (r : BeaconData)
    (hdata : len < data.length) (h256 : len < 256) :
    ∃ p, AltBeaconParser.parse data len r = Except.ok p := by
  obtain ⟨fr, hfind, hb⟩ := findRadius_total data len hdata h256 len 0 (by omega)
  have hfind1 : AltBeaconParser.findRadiusManufacturerData data len = Except.ok fr := hfind
  simp only [AltBeaconParser.parse, hfind1, run_bind_ok]
  rcases fr with _ | ⟨m, ml⟩
  · exact ⟨_, rfl⟩
  · have hm := hb m ml rfl
    simp only []
    by_cases h2 : ml < 24
    · rw [if_pos h2]; exact ⟨_, rfl⟩
    · rw [if_neg h2]
      obtain ⟨b0, e0, -⟩ := readByte_of_lt data (m) (by omega)
      obtain ⟨b1, e1, -⟩ := readByte_of_lt data (m + 1) (by omega)
      obtain ⟨u, eu⟩ := readBytes_total data 16 (m + 2) (by omega)
      obtain ⟨b18, e18, -⟩ := readByte_of_lt data (m + 18) (by omega)
      obtain ⟨b19, e19, -⟩ := readByte_of_lt data (m + 19) (by omega)
      obtain ⟨b20, e20, -⟩ := readByte_of_lt data (m + 20) (by omega)
      obtain ⟨b21, e21, -⟩ := readByte_of_lt data (m + 21) (by omega)
      obtain ⟨b22, e22, -⟩ := readByte_of_lt data (m + 22) (by omega)
      obtain ⟨b23, e23, -⟩ := readByte_of_lt data (m + 23) (by omega)
      simp only [e0, e1, eu, e18, e19, e20, e21, e22, e23, run_bind_ok]
      split
      · exact ⟨_, rfl⟩
      · split <;> exact ⟨_, rfl⟩

theorem parseUID_total (data : List Nat) (fd fl : Nat) (r : BeaconData)
    (h : fd + fl ≤ data.length) : ∃ p, EddystoneParser.parseUID data fd fl r = Except.ok p := by
  unfold EddystoneParser.parseUID
  by_cases hl : fl < 17
  · rw [if_pos hl]; exact ⟨_, rfl⟩
  · rw [if_neg hl]
    obtain ⟨f0, e0, -⟩ := readByte_of_lt data (fd) (by omega)
    obtain ⟨ns, ens⟩ := readBytes_total data 10 (fd + 1) (by omega)
    obtain ⟨ins, eins⟩ := readBytes_total data 6 (fd + 11) (by omega)
    simp only [e0, ens, eins, run_bind_ok]
    exact ⟨_, rfl⟩

theorem parseURL_total (data : List Nat) (fd fl : Nat) (r : BeaconData)
    (h : fd + fl ≤ data.length) (hs : r.holds_string = true) :
    ∃ p, EddystoneParser.parseURL data fd fl r = Except.ok p := by
  unfold EddystoneParser.parseURL
  by_cases hl : fl < 2
  · rw [if_pos hl]; exact ⟨_, rfl⟩
  · rw [if_neg hl]
    obtain ⟨f0, e0, -⟩ := readByte_of_lt data (fd) (by omega)
    obtain ⟨f1, e1, -⟩ := readByte_of_lt data (fd + 1) (by omega)
    obtain ⟨u, eu⟩ := parseURLLoop_total data fd (fl - 2) 2 (EddystoneParser.decodeURLScheme f1)
      (by omega)
    simp only [e0, e1, eu, run_bind_ok, assignString, hs, if_true, run_pure]
    split <;> exact ⟨_, rfl⟩

theorem parseTLM_total (data : List Nat) (fd fl : Nat) (r : BeaconData)
    (h : fd + fl ≤ data.length) : ∃ p, EddystoneParser.parseTLM data fd fl r = Except.ok p := by
  unfold EddystoneParser.parseTLM
  by_cases hl : fl < 13
  · rw [if_pos hl]; exact ⟨_, rfl⟩
  · rw [if_neg hl]
    obtain ⟨f0, ef0, -⟩ := readByte_of_lt data (fd) (by omega)
    obtain ⟨f1, ef1, -⟩ := readByte_of_lt data (fd + 1) (by omega)
    obtain ⟨f2, ef2, -⟩ := readByte_of_lt data (fd + 2) (by omega)
    obtain ⟨f3, ef3, -⟩ := readByte_of_lt data (fd + 3) (by omega)
    obtain ⟨f4, ef4, -⟩ := readByte_of_lt data (fd + 4) (by omega)
    obtain ⟨f5, ef5, -⟩ := readByte_of_lt data (fd + 5) (by omega)
    obtain ⟨f6, ef6, -⟩ := readByte_of_lt data (fd + 6) (by omega)
    obtain ⟨f7, ef7, -⟩ := readByte_of_lt data (fd + 7) (by omega)
    obtain ⟨f8, ef8, -⟩ := readByte_of_lt data (fd + 8) (by omega)
    obtain ⟨f9, ef9, -⟩ := readByte_of_lt data (fd + 9) (by omega)
    obtain ⟨f10, ef10, -⟩ := readByte_of_lt data (fd + 10) (by omega)
    obtain ⟨f11, ef11, -⟩ := readByte_of_lt data (fd + 11) (by omega)
    obtain ⟨f12, ef12, -⟩ := readByte_of_lt data (fd + 12) (by omega)
    simp only [ef0, ef1, ef2, ef3, ef4, ef5, ef6, ef7, ef8, ef9, ef10, ef11, ef12, run_bind_ok]
    split <;> exact ⟨_, rfl⟩

theorem Eddystone_parse_total (data : List Nat) (len : Nat) (r : BeaconData)
    (hdata : len < data.length) (h256 : len < 256) (hs : r.holds_string = true) :
    ∃ p, EddystoneParser.parse data len r = Except.ok p := by
  obtain ⟨fr, hfind, hb⟩ := findEddystone_total data len hdata h256 len 0 (by omega)
  have hfind1 : EddystoneParser.findEddystoneServiceData data len = Except.ok fr := hfind
  simp only [EddystoneParser.parse, hfind1, run_bind_ok]
  rcases fr with _ | ⟨sd, sl⟩
  · exact ⟨_, rfl⟩
  · have hm := hb sd sl rfl
    simp only []
    by_cases h2 : sl < 3
    · rw [if_pos h2]; exact ⟨_, rfl⟩
    · rw [if_neg h2]
      obtain ⟨ft, eft, -⟩ := readByte_of_lt data (sd + 2) (by omega)
      have hfl : sd + 3 + (sl - 3) % 256 ≤ data.length := by
        have := Nat.mod_le (sl - 3) 256
        omega
      simp only [eft, run_bind_ok]
      split
      · exact parseUID_total _ _ _ _ hfl
      · split
        · exact parseURL_total _ _ _ _ hfl hs
        · split
          · exact parseTLM_total _ _ _ _ hfl
          · exact ⟨_, rfl⟩

/-- The dispatcher is defined on every call with an 8-bit `len` whose array object extends at
least one byte past `len` and whose result holds the `String` of its payload union. -/
theorem parse_total (data : List Nat) (len : Nat) (r : BeaconData)
    (hdata : len < data.length) (h256 : len < 256) (hs : r.holds_string = true) :
    ∃ p, BLEBeaconParser.parse (some data) len r = Except.ok p := by
  by_cases hl : len = 0
  · subst hl; exact ⟨_, rfl⟩
  · obtain ⟨c1, hc1⟩ := iBeacon_canParse_total data len hdata h256
    obtain ⟨c2, hc2⟩ := AltBeacon_canParse_total data len hdata h256
    obtain ⟨c3, hc3⟩ := Eddystone_canParse_total data len hdata h256
    simp only [BLEBeaconParser.parse, hl, if_false, hc1, hc2, hc3, run_bind_ok]
    have s1 : ∀ r0 : BeaconData, r0.holds_string = true → ∃ b r1,
        (if c1 = true then iBeaconParser.parse data len r0 else pure (false, r0)
          : Run (Bool × BeaconData)) = Except.ok (b, r1) ∧
        (b = false → r1.holds_string = true) := by
      intro r0 h0; split
      · obtain ⟨⟨b, r1⟩, e⟩ := iBeacon_parse_total data len r0 hdata h256 h0
        refine ⟨b, r1, e, fun hb => ?_⟩
        subst hb
        rw [iBeacon_parse_fail_string _ _ _ _ e, h0]
      · exact ⟨_, _, rfl, fun _ => h0⟩
    have s2 : ∀ r0 : BeaconData, r0.holds_string = true → ∃ b r1,
        (if c2 = true then AltBeaconParser.parse data len r0 else pure (false, r0)
          : Run (Bool × BeaconData)) = Except.ok (b, r1) ∧
        (b = false → r1.holds_string = true) := by
      intro r0 h0; split
      · obtain ⟨⟨b, r1⟩, e⟩ := AltBeacon_parse_total data len r0 hdata h256
        refine ⟨b, r1, e, fun hb => ?_⟩
        subst hb
        rw [AltBeacon_parse_fail_string _ _ _ _ e, h0]
      · exact ⟨_, _, rfl, fun _ => h0⟩
    have s3 : ∀ r0 : BeaconData, r0.holds_string = true → ∃ p,
        (if c3 = true then EddystoneParser.parse data len r0 else pure (false, r0)
          : Run (Bool × BeaconData)) = Except.ok p := by
      intro r0 h0; split
      · exact Eddystone_parse_total data len r0 hdata h256 h0
      · exact ⟨_, rfl⟩
    obtain ⟨b1, r1, e1, k1⟩ := s1 { r with type := BEACON_TYPE_UNKNOWN, valid := false } hs
    simp only [e1, run_bind_ok]
    cases b1 with
    | true => exact ⟨_, rfl⟩
    | false =>
      obtain ⟨b2, r2, e2, k2⟩ := s2 r1 (k1 rfl)
      simp only [e2, run_bind_ok, Bool.false_eq_true, if_false]
      cases b2 with
      | true => exact ⟨_, rfl⟩
      | false =>
        obtain ⟨⟨b3, r3⟩, e3⟩ := s3 r2 (k2 rfl)
        simp only [e3, run_bind_ok, Bool.false_eq_true, if_false]
        cases b3 <;> exact ⟨_, rfl⟩

/-- C9: after `BLEBeaconParser::parse` returns, "the return value is true", "the result is
valid" and "the type is not unknown" are equivalent; a failing call leaves type unknown and
invalid, a successful call one of the five beacon types.  The call returns for a null pointer,
for `len = 0`, and whenever `len` is an 8-bit value, the array object extends at least one
byte past `len` and the payload union of the result holds its `String`. -/
theorem C9_return_valid_type_agree (data : Option (List Nat)) (len : Nat) (result : BeaconData) :
    (∀ out res, BLEBeaconParser.parse data len result = Except.ok (out, res) →
      (out = true ↔ res.valid = true) ∧
      (res.valid = true ↔ res.type ≠ BEACON_TYPE_UNKNOWN) ∧
      (out = false → res.type = BEACON_TYPE_UNKNOWN ∧ res.valid = false) ∧
      (out = true → res.type ∈ [BEACON_TYPE_IBEACON, BEACON_TYPE_EDDYSTONE_UID,
        BEACON_TYPE_EDDYSTONE_URL, BEACON_TYPE_EDDYSTONE_TLM, BEACON_TYPE_ALTBEACON])) ∧
    ((data = none ∨ len = 0 ∨
        ∃ buf, data = some buf ∧ len < 256 ∧ len < buf.length ∧ result.holds_string = true) →
      ∃ out res, BLEBeaconParser.parse data len result = Except.ok (out, res)) := by
  constructor
  · intro out res h
    rcases parse_post data len result res out h with ⟨h1, h2, h3⟩ | ⟨h1, h2, h3⟩
    · subst h1
      refine ⟨by simp [h2], ?_, by simp, ?_⟩
      · rcases h3 with h | h | h | h | h <;> simp [h2, h]
      · intro _
        rcases h3 with h | h | h | h | h <;> simp [h]
    · subst h1
      refine ⟨by simp [h2], by simp [h2, h3], fun _ => ⟨h3, h2⟩, by simp⟩
  · rintro (h | h | ⟨buf, h, h256, hlen, hs⟩)
    · subst h
      exact ⟨_, _, rfl⟩
    · subst h
      cases data <;> exact ⟨_, _, rfl⟩
    · subst h
      obtain ⟨⟨out, res⟩, hp⟩ := parse_total buf len result hlen h256 hs
      exact ⟨out, res, hp⟩

/-- C9, at the packet of the unit test `test_unknown_beacon`: the call returns false, and the
result is invalid with type unknown. -/
theorem C9_return_valid_type_agree_witness :
    BLEBeaconParser.parse (some [0x05, 0x01, 0x02, 0x03, 0x04, 0x05]) 6 BeaconData.new
      = Except.ok (false, BeaconData.new) ∧
    ((false = true ↔ BeaconData.new.valid = true) ∧
      (BeaconData.new.valid = true ↔ BeaconData.new.type ≠ BEACON_TYPE_UNKNOWN) ∧
      (false = false → BeaconData.new.type = BEACON_TYPE_UNKNOWN ∧ BeaconData.new.valid = false) ∧
      (false = true → BeaconData.new.type ∈ [BEACON_TYPE_IBEACON, BEACON_TYPE_EDDYSTONE_UID,
        BEACON_TYPE_EDDYSTONE_URL, BEACON_TYPE_EDDYSTONE_TLM, BEACON_TYPE_ALTBEACON])) ∧
    (∃ out res, BLEBeaconParser.parse (some [0x05, 0x01, 0x02, 0x03, 0x04, 0x05, 0x00]) 6
      BeaconData.new = Except.ok (out, res)) :=
  ⟨rfl,
   (C9_return_valid_type_agree (some [0x05, 0x01, 0x02, 0x03, 0x04, 0x05]) 6 BeaconData.new).1
     false BeaconData.new rfl,
   (C9_return_valid_type_agree (some [0x05, 0x01, 0x02, 0x03, 0x04, 0x05, 0x00]) 6
     BeaconData.new).2
     (Or.inr (Or.inr ⟨_, rfl, by decide, by decide, rfl⟩))⟩

theorem iBeacon_canParse_of_parse (data : List Nat) (len : Nat) (r res : BeaconData)
    (h : iBeaconParser.parse data len r = Except.ok (true, res)) :
    iBeaconParser.canParse data len = Except.ok true := by
  unfold iBeaconParser.parse at h
  simp only [run_bind_eq_ok] at h
  obtain ⟨found, hfind, h⟩ := h
  rcases found with _ | ⟨m, ml⟩
  · simp [run_pure] at h
  · simp only [] at h
    split at h
    · simp [run_pure] at h
    · rename_i hml
      simp only [run_bind_eq_ok] at h
      obtain ⟨b0, e0, h⟩ := h
      split at h
      · simp [run_pure] at h
      · rename_i hb0
        simp only [run_bind_eq_ok] at h
        obtain ⟨b1, e1, h⟩ := h
        split at h
        · simp [run_pure] at h
        · rename_i hb1
          have h2 : ¬ ml < 2 := by omega
          have e0' : b0 = 2 := by simpa using hb0
          have e1' : b1 = 21 := by simpa using hb1
          subst e0' e1'
          simp [iBeaconParser.canParse, hfind, run_bind_ok, h2, e0, e1, run_pure]

/-- The guarded call of a decoder that declines leaves the reset result as it is. -/
theorem guarded_call_declined (canParse : Run Bool)
    (parse : BeaconData → Run (Bool × BeaconData)) (result : BeaconData)
    (hpost : ∀ r b r1, parse r = Except.ok (b, r1) → b = false → r1 = { r with valid := false })
    (hd : decoderDeclines canParse parse result) :
    (do
      let c ← canParse
      (if c then parse (resetResult result) else pure (false, resetResult result)
        : Run (Bool × BeaconData))) = Except.ok (false, resetResult result) := by
  rcases hd with hc | ⟨hc, r, hp⟩
  · simp [hc, run_bind_ok, run_pure]
  · have hr : r = resetResult result := hpost _ _ _ hp rfl
    rw [hr] at hp
    simp only [hc, run_bind_ok, if_true, hp]

theorem guarded_call_accepted (canParse : Run Bool)
    (parse : BeaconData → Run (Bool × BeaconData)) (result res : BeaconData)
    (ha : decoderAccepts canParse parse result res) :
    (do
      let c ← canParse
      (if c then parse (resetResult result) else pure (false, resetResult result)
        : Run (Bool × BeaconData))) = Except.ok (true, res) := by
  obtain ⟨hc, hp⟩ := ha
  simp only [hc, run_bind_ok, if_true, hp]

theorem run_bind_assoc {α β γ : Type} (x : Run α) (f : α → Run β) (g : β → Run γ) :
    (x >>= f >>= g) = (x >>= fun a => f a >>= g) := by
  cases x <;> rfl

/-- The dispatcher on a non-null buffer with `len ≥ 1`, written as three guarded calls. -/
theorem parse_eq_guarded (data : List Nat) (len : Nat) (result : BeaconData) (hlen : 0 < len) :
    BLEBeaconParser.parse (some data) len result
      = (do
          let (r1, result1) ← (do
            let c ← iBeaconParser.canParse data len
            (if c then iBeaconParser.parse data len (resetResult result)
              else pure (false, resetResult result) : Run (Bool × BeaconData)))
          if r1 then pure (true, result1)
          else do
            let (r2, result2) ← (do
              let c ← AltBeaconParser.canParse data len
              (if c then AltBeaconParser.parse data len result1
                else pure (false, result1) : Run (Bool × BeaconData)))
            if r2 then pure (true, result2)
            else do
              let (r3, result3) ← (do
                let c ← EddystoneParser.canParse data len
                (if c then EddystoneParser.parse data len result2
                  else pure (false, result2) : Run (Bool × BeaconData)))
              if r3 then pure (true, result3) else pure (false, result3)) := by
  have hl : len ≠ 0 := by omega
  simp only [BLEBeaconParser.parse, hl, if_false, resetResult, run_bind_assoc]

/-- C10: on a non-null buffer with `len ≥ 1` the dispatcher returns the reading of the first
decoder, in the order iBeacon, AltBeacon, Eddystone, whose `canParse` returns true and whose
`parse` then succeeds, and returns false when every decoder declines; in particular a buffer
on which `iBeaconParser::parse` succeeds is reported as an iBeacon with that reading, whatever
else the buffer holds. -/
theorem C10_first_accepting_decoder (data : List Nat) (len : Nat) (result : BeaconData)
    (hlen : 0 < len) :
    (∀ res, decoderAccepts (iBeaconParser.canParse data len) (iBeaconParser.parse data len)
        result res →
      BLEBeaconParser.parse (some data) len result = Except.ok (true, res)) ∧
    (decoderDeclines (iBeaconParser.canParse data len) (iBeaconParser.parse data len) result →
      ∀ res, decoderAccepts (AltBeaconParser.canParse data len) (AltBeaconParser.parse data len)
        result res →
      BLEBeaconParser.parse (some data) len result = Except.ok (true, res)) ∧
    (decoderDeclines (iBeaconParser.canParse data len) (iBeaconParser.parse data len) result →
      decoderDeclines (AltBeaconParser.canParse data len) (AltBeaconParser.parse data len)
        result →
      ∀ res, decoderAccepts (EddystoneParser.canParse data len) (EddystoneParser.parse data len)
        result res →
      BLEBeaconParser.parse (some data) len result = Except.ok (true, res)) ∧
    (decoderDeclines (iBeaconParser.canParse data len) (iBeaconParser.parse data len) result →
      decoderDeclines (AltBeaconParser.canParse data len) (AltBeaconParser.parse data len)
        result →
      decoderDeclines (EddystoneParser.canParse data len) (EddystoneParser.parse data len)
        result →
      ∃ res, BLEBeaconParser.parse (some data) len result = Except.ok (false, res)) ∧
    (∀ res, iBeaconParser.parse data len (resetResult result) = Except.ok (true, res) →
      BLEBeaconParser.parse (some data) len result = Except.ok (true, res) ∧
      res.type = BEACON_TYPE_IBEACON) := by
  have post1 : ∀ r b r1, iBeaconParser.parse data len r = Except.ok (b, r1) → b = false →
      r1 = { r with valid := false } := by
    intro r b r1 h hb
    rcases iBeacon_parse_post _ _ _ _ _ h with ⟨h1, -⟩ | ⟨-, h2⟩
    · rw [hb] at h1; cases h1
    · exact h2
  have post2 : ∀ r b r1, AltBeaconParser.parse data len r = Except.ok (b, r1) → b = false →
      r1 = { r with valid := false } := by
    intro r b r1 h hb
    rcases AltBeacon_parse_post _ _ _ _ _ h with ⟨h1, -⟩ | ⟨-, h2⟩
    · rw [hb] at h1; cases h1
    · exact h2
  have acc1 : ∀ res, decoderAccepts (iBeaconParser.canParse data len)
      (iBeaconParser.parse data len) result res →
      BLEBeaconParser.parse (some data) len result = Except.ok (true, res) := by
    intro res ha
    rw [parse_eq_guarded data len result hlen, guarded_call_accepted _ _ _ _ ha]
    rfl
  refine ⟨acc1, ?_, ?_, ?_, ?_⟩
  · intro hd1 res ha
    rw [parse_eq_guarded data len result hlen, guarded_call_declined _ _ _ post1 hd1]
    simp only [run_bind_ok, Bool.false_eq_true, if_false]
    rw [guarded_call_accepted _ _ _ _ ha]
    rfl
  · intro hd1 hd2 res ha
    rw [parse_eq_guarded data len result hlen, guarded_call_declined _ _ _ post1 hd1]
    simp only [run_bind_ok, Bool.false_eq_true, if_false]
    rw [guarded_call_declined _ _ _ post2 hd2]
    simp only [run_bind_ok, Bool.false_eq_true, if_false]
    rw [guarded_call_accepted _ _ _ _ ha]
    rfl
  · intro hd1 hd2 hd3
    rw [parse_eq_guarded data len result hlen, guarded_call_declined _ _ _ post1 hd1]
    simp only [run_bind_ok, Bool.false_eq_true, if_false]
    rw [guarded_call_declined _ _ _ post2 hd2]
    simp only [run_bind_ok, Bool.false_eq_true, if_false]
    rcases hd3 with hc | ⟨hc, r, hp⟩
    · simp only [hc, run_bind_ok, Bool.false_eq_true, if_false, run_pure]
      exact ⟨_, rfl⟩
    · simp only [hc, run_bind_ok, if_true, hp, Bool.false_eq_true, if_false, run_pure]
      exact ⟨_, rfl⟩
  · intro res h
    refine ⟨acc1 res ⟨iBeacon_canParse_of_parse _ _ _ _ h, h⟩, ?_⟩
    rcases iBeacon_parse_post _ _ _ _ _ h with ⟨-, -, h3⟩ | ⟨h1, -⟩
    · exact h3
    · cases h1

/-- C10, at a buffer that holds an Eddystone-UID record followed by an iBeacon record:
`EddystoneParser::parse` and `iBeaconParser::parse` both succeed on it, and the dispatcher
returns the iBeacon reading. -/
theorem C10_first_accepting_decoder_witness :
    EddystoneParser.canParse uid_then_ibeacon_packet 49 = Except.ok true ∧
    (Prod.fst <$> EddystoneParser.parse uid_then_ibeacon_packet 49 (resetResult BeaconData.new))
      = Except.ok true ∧
    BLEBeaconParser.parse (some uid_then_ibeacon_packet) 49 BeaconData.new
      = Except.ok (true,
          { BeaconData.new with
            type := BEACON_TYPE_IBEACON
            valid := true
            ibeacon :=
              { uuid := "5F2DD896-B886-4549-AE01-E41ACD7A354A", major := 1, minor := 2,
                tx_power := -59 } }) :=
  ⟨rfl, rfl,
   ((C10_first_accepting_decoder uid_then_ibeacon_packet 49 BeaconData.new (by decide)).2.2.2.2
      _ rfl).1⟩

/-! ## The five scanners are instances of one loop -/

theorem findAppleLoop_eq_scan (data : List Nat) (len : Nat) : ∀ (fuel pos : Nat),
    iBeaconParser.findAppleManufacturerDataLoop data len fuel pos
      = scanLoop data len 0xFF (fun lo hi => decide (lo = 0x4C ∧ hi = 0x00))
          (fun p L => (p + 4, (L - 2) % 256)) fuel pos := by
  intro fuel
  induction fuel with
  | zero => intro pos; rfl
  | succ f ih =>
    intro pos
    simp only [iBeaconParser.findAppleManufacturerDataLoop, scanLoop, ih, decide_eq_true_eq]

theorem findRadiusLoop_eq_scan (data : List Nat) (len : Nat) : ∀ (fuel pos : Nat),
    AltBeaconParser.findRadiusManufacturerDataLoop data len fuel pos
      = scanLoop data len 0xFF (fun lo hi => decide (lo = 0x18 ∧ hi = 0x01))
          (fun p L => (p + 4, (L - 2) % 256)) fuel pos := by
  intro fuel
  induction fuel with
  | zero => intro pos; rfl
  | succ f ih =>
    intro pos
    simp only [AltBeaconParser.findRadiusManufacturerDataLoop, scanLoop, ih, decide_eq_true_eq]

theorem findEddystoneLoop_eq_scan (data : List Nat) (len : Nat) : ∀ (fuel pos : Nat),
    EddystoneParser.findEddystoneServiceDataLoop data len fuel pos
      = scanLoop data len 0x16 (fun lo hi => decide (lo = 0xAA ∧ hi = 0xFE))
          (fun p L => (p + 2, (L - 1) % 256)) fuel pos := by
  intro fuel
  induction fuel with
  | zero => intro pos; rfl
  | succ f ih =>
    intro pos
    have hc : ∀ L, (pos + 1 + L > len) = (pos + L ≥ len) := by
      intro L; apply propext; omega
    simp only [EddystoneParser.findEddystoneServiceDataLoop, scanLoop, ih, decide_eq_true_eq, hc]

theorem findManufacturerLoop_eq_scan (data : List Nat) (len company_id : Nat) :
    ∀ (fuel pos : Nat),
    BLEBeaconParser.findManufacturerDataLoop data len company_id fuel pos
      = scanLoop data len 0xFF
          (fun lo hi => decide (((hi <<< 8) ||| lo) % 65536 = company_id))
          (fun p L => (p + 4, (L - 2) % 256)) fuel pos := by
  intro fuel
  induction fuel with
  | zero => intro pos; rfl
  | succ f ih =>
    intro pos
    simp only [BLEBeaconParser.findManufacturerDataLoop, scanLoop, ih, decide_eq_true_eq]

theorem findServiceLoop_eq_scan (data : List Nat) (len service_uuid : Nat) :
    ∀ (fuel pos : Nat),
    BLEBeaconParser.findServiceDataLoop data len service_uuid fuel pos
      = scanLoop data len 0x16
          (fun lo hi => decide (((hi <<< 8) ||| lo) % 65536 = service_uuid))
          (fun p L => (p + 2, L)) fuel pos := by
  intro fuel
  induction fuel with
  | zero => intro pos; rfl
  | succ f ih =>
    intro pos
    simp only [BLEBeaconParser.findServiceDataLoop, scanLoop, ih, decide_eq_true_eq]

/-! ## One step of the common loop -/

theorem scan_end (data : List Nat) (len ty : Nat) (key : Nat → Nat → Bool)
    (out : Nat → Nat → Nat × Nat) (fuel pos : Nat) (h : ¬ pos < len) :
    scanLoop data len ty key out fuel pos = Except.ok none := by
  cases fuel <;> simp [scanLoop, h, run_pure]

theorem scan_zero (data : List Nat) (len ty : Nat) (key : Nat → Nat → Bool)
    (out : Nat → Nat → Nat × Nat) (fuel pos : Nat) (h0 : data[pos]? = some 0) :
    scanLoop data len ty key out (fuel + 1) pos = Except.ok none := by
  by_cases hp : pos < len
  · simp [scanLoop, hp, readByte_eq h0, run_pure, run_bind_ok]
  · exact scan_end data len ty key out (fuel + 1) pos hp

theorem scan_trunc (data : List Nat) (len ty : Nat) (key : Nat → Nat → Bool)
    (out : Nat → Nat → Nat × Nat) (fuel pos L : Nat) (h0 : data[pos]? = some L)
    (hbrk : len ≤ pos + L) :
    scanLoop data len ty key out (fuel + 1) pos = Except.ok none := by
  by_cases hp : pos < len
  · by_cases hL : L = 0
    · subst hL
      exact scan_zero data len ty key out fuel pos h0
    · simp [scanLoop, hp, readByte_eq h0, hL, hbrk, run_pure, run_bind_ok]
  · exact scan_end data len ty key out (fuel + 1) pos hp

theorem scan_hit (data : List Nat) (len ty : Nat) (key : Nat → Nat → Bool)
    (out : Nat → Nat → Nat × Nat) (fuel pos L lo hi : Nat)
    (h0 : data[pos]? = some L) (hL : L ≠ 0) (hlt : pos + L < len)
    (h1 : data[pos + 1]? = some ty) (h2 : 2 ≤ L)
    (h3 : data[pos + 2]? = some lo) (h4 : data[pos + 3]? = some hi) (hk : key lo hi = true) :
    scanLoop data len ty key out (fuel + 1) pos = Except.ok (some (out pos L)) := by
  have hp : pos < len := by omega
  have hn : ¬ (len ≤ pos + L) := by omega
  simp [scanLoop, hp, readByte_eq h0, readByte_eq h1, readByte_eq h3, readByte_eq h4, hL, hn,
    h2, hk, run_pure, run_bind_ok]

theorem scan_skip (data : List Nat) (len ty : Nat) (key : Nat → Nat → Bool)
    (out : Nat → Nat → Nat × Nat) (fuel pos L t : Nat)
    (h0 : data[pos]? = some L) (hL : L ≠ 0) (hlt : pos + L < len)
    (h1 : data[pos + 1]? = some t)
    (hno : t = ty → 2 ≤ L →
      ∃ lo hi, data[pos + 2]? = some lo ∧ data[pos + 3]? = some hi ∧ key lo hi = false) :
    scanLoop data len ty key out (fuel + 1) pos
      = scanLoop data len ty key out fuel ((pos + L + 1) % 256) := by
  have hp : pos < len := by omega
  have hn : ¬ (len ≤ pos + L) := by omega
  by_cases hty : t = ty
  · by_cases h2 : 2 ≤ L
    · obtain ⟨lo, hi, h3, h4, hk⟩ := hno hty h2
      simp [scanLoop, hp, readByte_eq h0, readByte_eq h1, readByte_eq h3, readByte_eq h4, hL,
        hn, h2, hk, hty, run_pure, run_bind_ok]
    · simp [scanLoop, hp, readByte_eq h0, readByte_eq h1, hL, hn, h2, hty, run_pure,
        run_bind_ok]
  · simp [scanLoop, hp, readByte_eq h0, readByte_eq h1, hL, hn, hty, run_pure, run_bind_ok]

/-- Whatever the common loop finds is the view of a record of the chain from `pos` that has
the scanner's type and a sub-key the scanner accepts, and no earlier record of the chain is
such a record. -/
theorem scan_sound (data : List Nat) (len ty : Nat) (key : Nat → Nat → Bool)
    (out : Nat → Nat → Nat × Nat) (h256 : len < 256) : ∀ (fuel pos : Nat) (v : Nat × Nat),
    scanLoop data len ty key out fuel pos = Except.ok (some v) →
    ∃ recs p L lo hi, isChain data len pos recs p ∧
      (∀ r ∈ recs, ∀ lo1 hi1, recordHasKey data ty lo1 hi1 r → key lo1 hi1 = false) ∧
      data[p]? = some L ∧ L ≠ 0 ∧ p + 1 + L ≤ len ∧
      recordHasKey data ty lo hi (p, L) ∧ key lo hi = true ∧ v = out p L := by
  intro fuel
  induction fuel with
  | zero =>
    intro pos v h
    simp only [scanLoop] at h
    split at h <;> simp [run_pure] at h
  | succ f ih =>
    intro pos v h
    simp only [scanLoop] at h
    split at h
    · rename_i hp
      simp only [run_bind_eq_ok] at h
      obtain ⟨L, h0, h⟩ := h
      rw [readByte_ok_iff] at h0
      split at h
      · simp [run_pure] at h
      · rename_i hL
        split at h
        · simp [run_pure] at h
        · rename_i hb
          have hlt : pos + L < len := by omega
          simp only [run_bind_eq_ok] at h
          obtain ⟨t, h1, hit, hhit, h⟩ := h
          rw [readByte_ok_iff] at h1
          cases hit with
          | some found =>
            simp only [run_pure, Except.ok.injEq, Option.some.injEq] at h
            subst h
            split at hhit
            · rename_i hty
              split at hhit
              · rename_i h2
                simp only [run_bind_eq_ok] at hhit
                obtain ⟨lo, h3, hi, h4, hhit⟩ := hhit
                rw [readByte_ok_iff] at h3 h4
                split at hhit
                · rename_i hk
                  simp only [run_pure, Except.ok.injEq, Option.some.injEq] at hhit
                  refine ⟨[], pos, L, lo, hi, rfl, by simp, h0, hL, by omega,
                    ⟨by rw [h1, hty], h2, h3, h4⟩, hk, hhit.symm⟩
                · simp [run_pure] at hhit
              · simp [run_pure] at hhit
            · simp [run_pure] at hhit
          | none =>
            simp only [] at h
            have hmod : (pos + L + 1) % 256 = pos + L + 1 := Nat.mod_eq_of_lt (by omega)
            rw [hmod] at h
            obtain ⟨recs, p, L1, lo, hi, hc, hnone, hrest⟩ := ih _ _ h
            refine ⟨(pos, L) :: recs, p, L1, lo, hi, ⟨rfl, h0, hL, by omega, hc⟩, ?_, hrest⟩
            intro r hr lo1 hi1 hkey
            rcases List.mem_cons.1 hr with rfl | hr
            · obtain ⟨k1, k2, k3, k4⟩ := hkey
              simp only at k1 k2 k3 k4
              have hty : t = ty := by
                rw [h1] at k1
                exact Option.some.inj k1
              rw [if_pos hty, if_pos k2] at hhit
              simp only [run_bind_eq_ok, readByte_eq k3, readByte_eq k4, Except.ok.injEq,
                exists_eq_left'] at hhit
              cases hk : key lo1 hi1 with
              | false => rfl
              | true => simp [hk, run_pure] at hhit
            · exact hnone r hr lo1 hi1 hkey
    · simp [run_pure] at h

/-! ## The common loop along the record chain -/

theorem isChain_le (data : List Nat) (len : Nat) : ∀ (recs : List (Nat × Nat)) (p e : Nat),
    isChain data len p recs e → p ≤ e := by
  intro recs
  induction recs with
  | nil => intro p e h; simp only [isChain] at h; omega
  | cons r rs ih =>
    intro p e h
    obtain ⟨q, L⟩ := r
    obtain ⟨-, -, -, -, hc⟩ := h
    have := ih _ _ hc
    omega

/-- Records of the chain that the scanner does not accept are passed over: the loop started at
the head of such a chain continues at its end, with enough fuel left. -/
theorem scan_chain_skip (data : List Nat) (len ty : Nat) (key : Nat → Nat → Bool)
    (out : Nat → Nat → Nat × Nat) (h256 : len < 256) :
    ∀ (recs : List (Nat × Nat)) (pos e fuel : Nat), isChain data len pos recs e →
    (∀ r ∈ recs, ∀ lo hi, recordHasKey data ty lo hi r → key lo hi = false) →
    e < data.length → len - pos ≤ fuel →
    ∃ fuel1, len - e ≤ fuel1 ∧
      scanLoop data len ty key out fuel pos = scanLoop data len ty key out fuel1 e := by
  intro recs
  induction recs with
  | nil =>
    intro pos e fuel hc _ _ hf
    simp only [isChain] at hc
    subst hc
    exact ⟨fuel, hf, rfl⟩
  | cons r rs ih =>
    intro pos e fuel hc hno he hf
    obtain ⟨q, L⟩ := r
    obtain ⟨rfl, h0, hL, hin, hrest⟩ := hc
    have hle := isChain_le data len rs _ e hrest
    obtain ⟨f, rfl⟩ : ∃ f, fuel = f + 1 := ⟨fuel - 1, by omega⟩
    obtain ⟨t, -, h1⟩ := readByte_of_lt data (q + 1) (by omega)
    have hskip := scan_skip data len ty key out f q L t h0 hL (by omega) h1 (by
      intro hty h2
      obtain ⟨lo, -, h3⟩ := readByte_of_lt data (q + 2) (by omega)
      obtain ⟨hi, -, h4⟩ := readByte_of_lt data (q + 3) (by omega)
      exact ⟨lo, hi, h3, h4, hno (q, L) (by simp) lo hi ⟨by rw [h1, hty], h2, h3, h4⟩⟩)
    have hmod : (q + L + 1) % 256 = q + L + 1 := Nat.mod_eq_of_lt (by omega)
    rw [hmod] at hskip
    obtain ⟨fuel1, hf1, hs⟩ := ih (q + L + 1) e f hrest
      (fun r hr => hno r (by simp [hr])) he (by omega)
    exact ⟨fuel1, hf1, hskip.trans hs⟩

/-- A chain of records the scanner does not accept that ends at a zero length byte, or at a
record that does not fit into the first `len` bytes: the scan returns not found. -/
theorem scan_chain_stop (data : List Nat) (len ty : Nat) (key : Nat → Nat → Bool)
    (out : Nat → Nat → Nat × Nat) (h256 : len < 256) (recs : List (Nat × Nat))
    (pos e fuel L : Nat) (hc : isChain data len pos recs e)
    (hno : ∀ r ∈ recs, ∀ lo hi, recordHasKey data ty lo hi r → key lo hi = false)
    (h0 : data[e]? = some L) (hstop : L = 0 ∨ e + 1 + L > len) (hf : len - pos ≤ fuel) :
    scanLoop data len ty key out fuel pos = Except.ok none := by
  have he : e < data.length := by
    by_contra hcon
    rw [List.getElem?_eq_none (by omega)] at h0
    exact Option.noConfusion h0
  obtain ⟨fuel1, hf1, hs⟩ := scan_chain_skip data len ty key out h256 recs pos e fuel hc hno he hf
  rw [hs]
  by_cases hp : e < len
  · obtain ⟨f, rfl⟩ : ∃ f, fuel1 = f + 1 := ⟨fuel1 - 1, by omega⟩
    rcases hstop with rfl | htr
    · exact scan_zero data len ty key out f e h0
    · exact scan_trunc data len ty key out f e L h0 (by omega)
  · exact scan_end data len ty key out fuel1 e hp

/-- A chain that leads to a record the scanner accepts: the scan returns found; when no
earlier record of the chain is accepted, it returns the view of that record. -/
theorem scan_chain_found (data : List Nat) (len ty : Nat) (key : Nat → Nat → Bool)
    (out : Nat → Nat → Nat × Nat) (h256 : len < 256) (p L lo hi : Nat)
    (h0 : data[p]? = some L) (hin : p + 1 + L ≤ len)
    (hkey : recordHasKey data ty lo hi (p, L)) (hk : key lo hi = true) :
    ∀ (recs : List (Nat × Nat)) (pos fuel : Nat), isChain data len pos recs p →
    len - pos ≤ fuel →
    (∃ v, scanLoop data len ty key out fuel pos = Except.ok (some v)) ∧
    ((∀ r ∈ recs, ∀ lo1 hi1, recordHasKey data ty lo1 hi1 r → key lo1 hi1 = false) →
      scanLoop data len ty key out fuel pos = Except.ok (some (out p L))) := by
  obtain ⟨k1, k2, k3, k4⟩ := hkey
  simp only at k1 k2 k3 k4
  have hp : p < data.length := by
    by_contra hcon
    rw [List.getElem?_eq_none (by omega)] at h0
    exact Option.noConfusion h0
  intro recs
  induction recs with
  | nil =>
    intro pos fuel hc hf
    simp only [isChain] at hc
    subst hc
    obtain ⟨f, rfl⟩ : ∃ f, fuel = f + 1 := ⟨fuel - 1, by omega⟩
    have := scan_hit data len ty key out f pos L lo hi h0 (by omega) (by omega) k1 k2 k3 k4 hk
    exact ⟨⟨_, this⟩, fun _ => this⟩
  | cons r rs ih =>
    intro pos fuel hc hf
    obtain ⟨q, L1⟩ := r
    obtain ⟨rfl, g0, gL, gin, hrest⟩ := hc
    have hle := isChain_le data len rs _ p hrest
    obtain ⟨f, rfl⟩ : ∃ f, fuel = f + 1 := ⟨fuel - 1, by omega⟩
    obtain ⟨t, -, g1⟩ := readByte_of_lt data (q + 1) (by omega)
    have hmod : (q + L1 + 1) % 256 = q + L1 + 1 := Nat.mod_eq_of_lt (by omega)
    obtain ⟨ih1, ih2⟩ := ih (q + L1 + 1) f hrest (by omega)
    by_cases hacc : t = ty ∧ 2 ≤ L1
    · obtain ⟨hty, g2⟩ := hacc
      obtain ⟨lo1, -, g3⟩ := readByte_of_lt data (q + 2) (by omega)
      obtain ⟨hi1, -, g4⟩ := readByte_of_lt data (q + 3) (by omega)
      cases hk1 : key lo1 hi1 with
      | true =>
        have := scan_hit data len ty key out f q L1 lo1 hi1 g0 gL (by omega)
          (by rw [g1, hty]) g2 g3 g4 hk1
        refine ⟨⟨_, this⟩, ?_⟩
        intro hno
        have := hno (q, L1) (by simp) lo1 hi1 ⟨by rw [g1, hty], g2, g3, g4⟩
        rw [hk1] at this
        cases this
      | false =>
        have hskip := scan_skip data len ty key out f q L1 t g0 gL (by omega) g1
          (fun _ _ => ⟨lo1, hi1, g3, g4, hk1⟩)
        rw [hmod] at hskip
        rw [hskip]
        exact ⟨ih1, fun hno => ih2 (fun r hr => hno r (by simp [hr]))⟩
    · have hskip := scan_skip data len ty key out f q L1 t g0 gL (by omega) g1
        (fun h1 h2 => absurd ⟨h1, h2⟩ hacc)
      rw [hmod] at hskip
      rw [hskip]
      exact ⟨ih1, fun hno => ih2 (fun r hr => hno r (by simp [hr]))⟩

/-! ## The scanners of the source, along the record chain -/

theorem key16_iff (lo hi cid : Nat) (hlo : lo < 256) (hhi : hi < 256) :
    ((hi <<< 8 ||| lo) % 65536 = cid) ↔ (lo = cid % 256 ∧ hi = cid / 256) := by
  rw [shl8_or _ _ hlo]
  constructor
  · intro h; omega
  · intro h; omega

theorem noKey_private (data : List Nat) (ty a b : Nat) (recs : List (Nat × Nat))
    (h : ∀ r ∈ recs, ¬ recordHasKey data ty a b r) :
    ∀ r ∈ recs, ∀ lo hi, recordHasKey data ty lo hi r → decide (lo = a ∧ hi = b) = false := by
  intro r hr lo hi hkey
  rw [decide_eq_false_iff_not]
  rintro ⟨rfl, rfl⟩
  exact h r hr hkey

theorem noKey_public (data : List Nat) (ty cid : Nat) (recs : List (Nat × Nat))
    (hbytes : ∀ b ∈ data, b < 256)
    (h : ∀ r ∈ recs, ¬ recordHasKey data ty (cid % 256) (cid / 256) r) :
    ∀ r ∈ recs, ∀ lo hi, recordHasKey data ty lo hi r →
      decide ((hi <<< 8 ||| lo) % 65536 = cid) = false := by
  intro r hr lo hi hkey
  rw [decide_eq_false_iff_not]
  intro hk
  have hlo : lo < 256 := hbytes lo (List.getElem?_mem hkey.2.2.1)
  have hhi : hi < 256 := hbytes hi (List.getElem?_mem hkey.2.2.2)
  obtain ⟨rfl, rfl⟩ := (key16_iff lo hi cid hlo hhi).1 hk
  exact h r hr hkey

/-- When the chain from offset 0 passes only records without the scanner's key and then meets
a zero length byte or a record that does not fit, each of the five scanners returns not
found. -/
theorem scanners_not_found (data : List Nat) (len company_id service_uuid e L : Nat)
    (recs : List (Nat × Nat)) (h256 : len < 256) (hbytes : ∀ b ∈ data, b < 256)
    (hc : isChain data len 0 recs e) (h0 : data[e]? = some L)
    (hstop : L = 0 ∨ e + 1 + L > len) :
    ((∀ r ∈ recs, ¬ recordHasKey data 0xFF (company_id % 256) (company_id / 256) r) →
      BLEBeaconParser.findManufacturerData data len company_id = Except.ok none) ∧
    ((∀ r ∈ recs, ¬ recordHasKey data 0x16 (service_uuid % 256) (service_uuid / 256) r) →
      BLEBeaconParser.findServiceData data len service_uuid = Except.ok none) ∧
    ((∀ r ∈ recs, ¬ recordHasKey data 0xFF 0x4C 0x00 r) →
      iBeaconParser.findAppleManufacturerData data len = Except.ok none) ∧
    ((∀ r ∈ recs, ¬ recordHasKey data 0xFF 0x18 0x01 r) →
      AltBeaconParser.findRadiusManufacturerData data len = Except.ok none) ∧
    ((∀ r ∈ recs, ¬ recordHasKey data 0x16 0xAA 0xFE r) →
      EddystoneParser.findEddystoneServiceData data len = Except.ok none) := by
  refine ⟨?_, ?_, ?_, ?_, ?_⟩
  · intro h
    rw [BLEBeaconParser.findManufacturerData, findManufacturerLoop_eq_scan]
    exact scan_chain_stop data len _ _ _ h256 recs 0 e len L hc
      (noKey_public data _ _ recs hbytes h) h0 hstop (by omega)
  · intro h
    rw [BLEBeaconParser.findServiceData, findServiceLoop_eq_scan]
    exact scan_chain_stop data len _ _ _ h256 recs 0 e len L hc
      (noKey_public data _ _ recs hbytes h) h0 hstop (by omega)
  · intro h
    rw [iBeaconParser.findAppleManufacturerData, findAppleLoop_eq_scan]
    exact scan_chain_stop data len _ _ _ h256 recs 0 e len L hc
      (noKey_private data _ _ _ recs h) h0 hstop (by omega)
  · intro h
    rw [AltBeaconParser.findRadiusManufacturerData, findRadiusLoop_eq_scan]
    exact scan_chain_stop data len _ _ _ h256 recs 0 e len L hc
      (noKey_private data _ _ _ recs h) h0 hstop (by omega)
  · intro h
    rw [EddystoneParser.findEddystoneServiceData, findEddystoneLoop_eq_scan]
    exact scan_chain_stop data len _ _ _ h256 recs 0 e len L hc
      (noKey_private data _ _ _ recs h) h0 hstop (by omega)

theorem iBeacon_canParse_of_none (data : List Nat) (len : Nat)
    (h : iBeaconParser.findAppleManufacturerData data len = Except.ok none) :
    iBeaconParser.canParse data len = Except.ok false := by
  simp only [iBeaconParser.canParse, h, run_bind_ok, run_pure]

theorem AltBeacon_canParse_of_none (data : List Nat) (len : Nat)
    (h : AltBeaconParser.findRadiusManufacturerData data len = Except.ok none) :
    AltBeaconParser.canParse data len = Except.ok false := by
  simp only [AltBeaconParser.canParse, h, run_bind_ok, run_pure]

theorem Eddystone_canParse_of_none (data : List Nat) (len : Nat)
    (h : EddystoneParser.findEddystoneServiceData data len = Except.ok none) :
    EddystoneParser.canParse data len = Except.ok false := by
  simp only [EddystoneParser.canParse, h, run_bind_ok, run_pure]

/-- When none of the three decoders' scanners finds its record, the dispatcher returns false
and leaves the result reset: type unknown and invalid. -/
theorem parse_of_not_found (data : List Nat) (len : Nat) (result : BeaconData)
    (h1 : iBeaconParser.findAppleManufacturerData data len = Except.ok none)
    (h2 : AltBeaconParser.findRadiusManufacturerData data len = Except.ok none)
    (h3 : EddystoneParser.findEddystoneServiceData data len = Except.ok none) :
    BLEBeaconParser.parse (some data) len result = Except.ok (false, resetResult result) := by
  by_cases hl : len = 0
  · subst hl; rfl
  · simp only [BLEBeaconParser.parse, hl, if_false, iBeacon_canParse_of_none data len h1,
      AltBeacon_canParse_of_none data len h2, Eddystone_canParse_of_none data len h3,
      run_bind_ok, run_pure, Bool.false_eq_true, resetResult]

/-- C17: when the scan cursor reaches a zero length byte at offset `e` after passing only
records `recs` that do not carry the scanner's key, `findManufacturerData` and
`findServiceData` return not found and the `canParse` of the three decoders returns false,
whatever follows the zero byte; with `recs = []` this is every buffer whose first byte is 0. -/
theorem C17_zero_length_byte_ends_scan (data : List Nat) (len company_id service_uuid e : Nat)
    (recs : List (Nat × Nat)) (h256 : len < 256) (hbytes : ∀ b ∈ data, b < 256)
    (hchain : isChain data len 0 recs e) (hzero : data[e]? = some 0) :
    ((∀ r ∈ recs, ¬ recordHasKey data 0xFF (company_id % 256) (company_id / 256) r) →
      BLEBeaconParser.findManufacturerData data len company_id = Except.ok none) ∧
    ((∀ r ∈ recs, ¬ recordHasKey data 0x16 (service_uuid % 256) (service_uuid / 256) r) →
      BLEBeaconParser.findServiceData data len service_uuid = Except.ok none) ∧
    ((∀ r ∈ recs, ¬ recordHasKey data 0xFF 0x4C 0x00 r) →
      iBeaconParser.canParse data len = Except.ok false) ∧
    ((∀ r ∈ recs, ¬ recordHasKey data 0xFF 0x18 0x01 r) →
      AltBeaconParser.canParse data len = Except.ok false) ∧
    ((∀ r ∈ recs, ¬ recordHasKey data 0x16 0xAA 0xFE r) →
      EddystoneParser.canParse data len = Except.ok false) := by
  obtain ⟨s1, s2, s3, s4, s5⟩ := scanners_not_found data len company_id service_uuid e 0 recs
    h256 hbytes hchain hzero (Or.inl rfl)
  exact ⟨s1, s2, fun h => iBeacon_canParse_of_none data len (s3 h),
    fun h => AltBeacon_canParse_of_none data len (s4 h),
    fun h => Eddystone_canParse_of_none data len (s5 h)⟩

/-- C18: when the scan cursor reaches, after passing only records `recs` without the
scanner's key, a record at offset `e` whose length byte `L` has `e + 1 + L > len`, every
scanner returns not found; when this holds for the keys of all three decoders the dispatcher
returns false with type unknown. -/
theorem C18_truncated_record_ends_scan (data : List Nat)
    (len company_id service_uuid e L : Nat) (recs : List (Nat × Nat)) (result : BeaconData)
    (h256 : len < 256) (hbytes : ∀ b ∈ data, b < 256)
    (hchain : isChain data len 0 recs e) (hrec : data[e]? = some L)
    (htrunc : e + 1 + L > len) :
    ((∀ r ∈ recs, ¬ recordHasKey data 0xFF (company_id % 256) (company_id / 256) r) →
      BLEBeaconParser.findManufacturerData data len company_id = Except.ok none) ∧
    ((∀ r ∈ recs, ¬ recordHasKey data 0x16 (service_uuid % 256) (service_uuid / 256) r) →
      BLEBeaconParser.findServiceData data len service_uuid = Except.ok none) ∧
    ((∀ r ∈ recs, ¬ recordHasKey data 0xFF 0x4C 0x00 r) →
      iBeaconParser.findAppleManufacturerData data len = Except.ok none) ∧
    ((∀ r ∈ recs, ¬ recordHasKey data 0xFF 0x18 0x01 r) →
      AltBeaconParser.findRadiusManufacturerData data len = Except.ok none) ∧
    ((∀ r ∈ recs, ¬ recordHasKey data 0x16 0xAA 0xFE r) →
      EddystoneParser.findEddystoneServiceData data len = Except.ok none) ∧
    ((∀ r ∈ recs, ¬ recordHasKey data 0xFF 0x4C 0x00 r ∧ ¬ recordHasKey data 0xFF 0x18 0x01 r ∧
        ¬ recordHasKey data 0x16 0xAA 0xFE r) →
      BLEBeaconParser.parse (some data) len result
        = Except.ok (false, { result with type := BEACON_TYPE_UNKNOWN, valid := false })) := by
  obtain ⟨s1, s2, s3, s4, s5⟩ := scanners_not_found data len company_id service_uuid e L recs
    h256 hbytes hchain hrec (Or.inr htrunc)
  refine ⟨s1, s2, s3, s4, s5, ?_⟩
  intro h
  exact parse_of_not_found data len result (s3 fun r hr => (h r hr).1)
    (s4 fun r hr => (h r hr).2.1) (s5 fun r hr => (h r hr).2.2)

/-- C17, at a buffer that holds a flags record, a zero length byte and then the well-formed
iBeacon record of the unit test: nothing is found, although `canParse` accepts the iBeacon
record on its own. -/
theorem C17_zero_length_byte_ends_scan_witness :
    iBeaconParser.canParse ibeacon_packet 27 = Except.ok true ∧
    BLEBeaconParser.findManufacturerData flags_zero_ibeacon_packet 31 0x004C = Except.ok none ∧
    BLEBeaconParser.findServiceData flags_zero_ibeacon_packet 31 0xFEAA = Except.ok none ∧
    iBeaconParser.canParse flags_zero_ibeacon_packet 31 = Except.ok false ∧
    AltBeaconParser.canParse flags_zero_ibeacon_packet 31 = Except.ok false ∧
    EddystoneParser.canParse flags_zero_ibeacon_packet 31 = Except.ok false := by
  have h := C17_zero_length_byte_ends_scan flags_zero_ibeacon_packet 31 0x004C 0xFEAA 3
    [(0, 2)] (by decide) (by decide) ⟨rfl, rfl, by decide, by decide, rfl⟩ rfl
  have hk : ∀ ty lo hi, ty ≠ 1 →
      ∀ r ∈ [((0 : Nat), (2 : Nat))], ¬ recordHasKey flags_zero_ibeacon_packet ty lo hi r := by
    intro ty lo hi hty r hr
    rw [List.mem_singleton] at hr
    subst hr
    rintro ⟨h1, -⟩
    exact hty (Option.some.inj h1).symm
  exact ⟨rfl, h.1 (hk _ _ _ (by decide)), h.2.1 (hk _ _ _ (by decide)),
    h.2.2.1 (hk _ _ _ (by decide)), h.2.2.2.1 (hk _ _ _ (by decide)),
    h.2.2.2.2 (hk _ _ _ (by decide))⟩

/-- C18, at the buffer `05 FF 4C 00 02` of the unit test: its only record claims 5 bytes where
4 remain, no scanner finds anything and the dispatcher returns false with type unknown. -/
theorem C18_truncated_record_ends_scan_witness :
    BLEBeaconParser.findManufacturerData short_data 5 0x004C = Except.ok none ∧
    BLEBeaconParser.findServiceData short_data 5 0xFEAA = Except.ok none ∧
    iBeaconParser.findAppleManufacturerData short_data 5 = Except.ok none ∧
    AltBeaconParser.findRadiusManufacturerData short_data 5 = Except.ok none ∧
    EddystoneParser.findEddystoneServiceData short_data 5 = Except.ok none ∧
    BLEBeaconParser.parse (some short_data) 5 BeaconData.new
      = Except.ok (false, BeaconData.new) := by
  have h := C18_truncated_record_ends_scan short_data 5 0x004C 0xFEAA 0 5 [] BeaconData.new
    (by decide) (by decide) rfl rfl (by decide)
  exact ⟨h.1 (by simp), h.2.1 (by simp), h.2.2.1 (by simp), h.2.2.2.1 (by simp),
    h.2.2.2.2.1 (by simp), h.2.2.2.2.2 (by simp)⟩

theorem key16_true (cid : Nat) (h : cid < 65536) :
    decide (((cid / 256) <<< 8 ||| cid % 256) % 65536 = cid) = true := by
  rw [decide_eq_true_eq, shl8_or _ _ (Nat.mod_lt _ (by norm_num))]
  omega

/-- C19: a record at offset `p` that ends exactly at `len` (`p + 1 + L = len`) and carries the
scanner's AD type and key is admitted by each of the five scanners: the scan returns found,
and it returns the view of that record when no earlier record of the chain carries the key. -/
theorem C19_record_filling_buffer_is_admitted (data : List Nat)
    (len company_id service_uuid p L : Nat) (recs : List (Nat × Nat))
    (h256 : len < 256) (hbytes : ∀ b ∈ data, b < 256)
    (hchain : isChain data len 0 recs p) (hrec : data[p]? = some L)
    (hfill : p + 1 + L = len) :
    (company_id < 65536 →
      recordHasKey data 0xFF (company_id % 256) (company_id / 256) (p, L) →
      (∃ v, BLEBeaconParser.findManufacturerData data len company_id = Except.ok (some v)) ∧
      ((∀ r ∈ recs, ¬ recordHasKey data 0xFF (company_id % 256) (company_id / 256) r) →
        BLEBeaconParser.findManufacturerData data len company_id
          = Except.ok (some (p + 4, (L - 2) % 256)))) ∧
    (service_uuid < 65536 →
      recordHasKey data 0x16 (service_uuid % 256) (service_uuid / 256) (p, L) →
      (∃ v, BLEBeaconParser.findServiceData data len service_uuid = Except.ok (some v)) ∧
      ((∀ r ∈ recs, ¬ recordHasKey data 0x16 (service_uuid % 256) (service_uuid / 256) r) →
        BLEBeaconParser.findServiceData data len service_uuid = Except.ok (some (p + 2, L)))) ∧
    (recordHasKey data 0xFF 0x4C 0x00 (p, L) →
      (∃ v, iBeaconParser.findAppleManufacturerData data len = Except.ok (some v)) ∧
      ((∀ r ∈ recs, ¬ recordHasKey data 0xFF 0x4C 0x00 r) →
        iBeaconParser.findAppleManufacturerData data len
          = Except.ok (some (p + 4, (L - 2) % 256)))) ∧
    (recordHasKey data 0xFF 0x18 0x01 (p, L) →
      (∃ v, AltBeaconParser.findRadiusManufacturerData data len = Except.ok (some v)) ∧
      ((∀ r ∈ recs, ¬ recordHasKey data 0xFF 0x18 0x01 r) →
        AltBeaconParser.findRadiusManufacturerData data len
          = Except.ok (some (p + 4, (L - 2) % 256)))) ∧
    (recordHasKey data 0x16 0xAA 0xFE (p, L) →
      (∃ v, EddystoneParser.findEddystoneServiceData data len = Except.ok (some v)) ∧
      ((∀ r ∈ recs, ¬ recordHasKey data 0x16 0xAA 0xFE r) →
        EddystoneParser.findEddystoneServiceData data len
          = Except.ok (some (p + 2, (L - 1) % 256)))) := by
  have hin : p + 1 + L ≤ len := by omega
  refine ⟨?_, ?_, ?_, ?_, ?_⟩
  · intro hcid hkey
    obtain ⟨f1, f2⟩ := scan_chain_found data len 0xFF
      (fun lo hi => decide ((hi <<< 8 ||| lo) % 65536 = company_id))
      (fun p L => (p + 4, (L - 2) % 256)) h256 p L _ _ hrec hin hkey (key16_true _ hcid)
      recs 0 len hchain (by omega)
    rw [BLEBeaconParser.findManufacturerData, findManufacturerLoop_eq_scan]
    exact ⟨f1, fun h => f2 (noKey_public data _ _ recs hbytes h)⟩
  · intro hcid hkey
    obtain ⟨f1, f2⟩ := scan_chain_found data len 0x16
      (fun lo hi => decide ((hi <<< 8 ||| lo) % 65536 = service_uuid))
      (fun p L => (p + 2, L)) h256 p L _ _ hrec hin hkey (key16_true _ hcid)
      recs 0 len hchain (by omega)
    rw [BLEBeaconParser.findServiceData, findServiceLoop_eq_scan]
    exact ⟨f1, fun h => f2 (noKey_public data _ _ recs hbytes h)⟩
  · intro hkey
    obtain ⟨f1, f2⟩ := scan_chain_found data len 0xFF
      (fun lo hi => decide (lo = 0x4C ∧ hi = 0x00))
      (fun p L => (p + 4, (L - 2) % 256)) h256 p L _ _ hrec hin hkey (by decide)
      recs 0 len hchain (by omega)
    rw [iBeaconParser.findAppleManufacturerData, findAppleLoop_eq_scan]
    exact ⟨f1, fun h => f2 (noKey_private data _ _ _ recs h)⟩
  · intro hkey
    obtain ⟨f1, f2⟩ := scan_chain_found data len 0xFF
      (fun lo hi => decide (lo = 0x18 ∧ hi = 0x01))
      (fun p L => (p + 4, (L - 2) % 256)) h256 p L _ _ hrec hin hkey (by decide)
      recs 0 len hchain (by omega)
    rw [AltBeaconParser.findRadiusManufacturerData, findRadiusLoop_eq_scan]
    exact ⟨f1, fun h => f2 (noKey_private data _ _ _ recs h)⟩
  · intro hkey
    obtain ⟨f1, f2⟩ := scan_chain_found data len 0x16
      (fun lo hi => decide (lo = 0xAA ∧ hi = 0xFE))
      (fun p L => (p + 2, (L - 1) % 256)) h256 p L _ _ hrec hin hkey (by decide)
      recs 0 len hchain (by omega)
    rw [EddystoneParser.findEddystoneServiceData, findEddystoneLoop_eq_scan]
    exact ⟨f1, fun h => f2 (noKey_private data _ _ _ recs h)⟩

/-- C19, at the iBeacon packet of the unit test (one record of 1 + 26 bytes in a buffer of 27)
and at the Eddystone-UID packet (1 + 21 bytes in a buffer of 22). -/
theorem C19_record_filling_buffer_is_admitted_witness :
    BLEBeaconParser.findManufacturerData ibeacon_packet 27 0x004C = Except.ok (some (4, 24)) ∧
    iBeaconParser.findAppleManufacturerData ibeacon_packet 27 = Except.ok (some (4, 24)) ∧
    BLEBeaconParser.findServiceData eddystone_uid_packet 22 0xFEAA
      = Except.ok (some (2, 21)) ∧
    EddystoneParser.findEddystoneServiceData eddystone_uid_packet 22
      = Except.ok (some (2, 20)) := by
  have h1 := C19_record_filling_buffer_is_admitted ibeacon_packet 27 0x004C 0xFEAA 0 0x1A []
    (by decide) (by decide) rfl rfl rfl
  have h2 := C19_record_filling_buffer_is_admitted eddystone_uid_packet 22 0x004C 0xFEAA 0
    0x15 [] (by decide) (by decide) rfl rfl rfl
  exact ⟨(h1.1 (by decide) ⟨rfl, by decide, rfl, rfl⟩).2 (by simp),
    (h1.2.2.1 ⟨rfl, by decide, rfl, rfl⟩).2 (by simp),
    (h2.2.1 (by decide) ⟨rfl, by decide, rfl, rfl⟩).2 (by simp),
    (h2.2.2.2.2 ⟨rfl, by decide, rfl, rfl⟩).2 (by simp)⟩

/-- C15: every view that `findManufacturerData` returns is that of a record at some offset `p`
of the chain with length byte `L`, type `0xFF` and the company ID in the bytes at `p + 2` and
`p + 3`: it starts at `p + 4` and has `out_len = L - 2`.  On the packet of the unit test the
result is found, `out_len = 3`, first output byte `0x01`. -/
theorem C15_findManufacturerData_view :
    (∀ (data : List Nat) (len company_id o n : Nat), len < 256 → (∀ b ∈ data, b < 256) →
      BLEBeaconParser.findManufacturerData data len company_id = Except.ok (some (o, n)) →
      ∃ recs p L, isChain data len 0 recs p ∧ data[p]? = some L ∧ p + 1 + L ≤ len ∧
        recordHasKey data 0xFF (company_id % 256) (company_id / 256) (p, L) ∧
        o = p + 4 ∧ n = L - 2) ∧
    BLEBeaconParser.findManufacturerData manufacturer_test_packet 10 0x004C
      = Except.ok (some (4, 3)) ∧
    manufacturer_test_packet[4]? = some 0x01 := by
  refine ⟨?_, rfl, rfl⟩
  intro data len company_id o n h256 hbytes h
  rw [BLEBeaconParser.findManufacturerData, findManufacturerLoop_eq_scan] at h
  obtain ⟨recs, p, L, lo, hi, hc, -, h0, -, hin, hkey, hk, hv⟩ :=
    scan_sound data len _ _ _ h256 len 0 (o, n) h
  have hlo : lo < 256 := hbytes lo (List.getElem?_mem hkey.2.2.1)
  have hhi : hi < 256 := hbytes hi (List.getElem?_mem hkey.2.2.2)
  have hL : L < 256 := hbytes L (List.getElem?_mem h0)
  rw [decide_eq_true_eq] at hk
  obtain ⟨rfl, rfl⟩ := (key16_iff lo hi company_id hlo hhi).1 hk
  simp only [Prod.mk.injEq] at hv
  refine ⟨recs, p, L, hc, h0, hin, hkey, hv.1, ?_⟩
  rw [hv.2]
  exact Nat.mod_eq_of_lt (by omega)

/-- C15, at the packet of the unit test `test_findManufacturerData`. -/
theorem C15_findManufacturerData_view_witness :
    ∃ recs p L, isChain manufacturer_test_packet 10 0 recs p ∧
      manufacturer_test_packet[p]? = some L ∧ p + 1 + L ≤ 10 ∧
      recordHasKey manufacturer_test_packet 0xFF (0x004C % 256) (0x004C / 256) (p, L) ∧
      4 = p + 4 ∧ 3 = L - 2 :=
  C15_findManufacturerData_view.1 manufacturer_test_packet 10 0x004C 4 3 (by decide)
    (by decide) rfl

/-- C16: every view that `findServiceData` returns for the service UUID `u` is that of a
record at some offset `p` of the chain with length byte `L` and type `0x16`: it starts at
`p + 2`, its first two bytes are the low and the high byte of `u`, and `out_len = L`.  On the
packet of the unit test the result is found, `out_len = 5`, output bytes `0xAA`, `0xFE`. -/
theorem C16_findServiceData_view :
    (∀ (data : List Nat) (len service_uuid o n : Nat), len < 256 → (∀ b ∈ data, b < 256) →
      BLEBeaconParser.findServiceData data len service_uuid = Except.ok (some (o, n)) →
      ∃ recs p L, isChain data len 0 recs p ∧ data[p]? = some L ∧ p + 1 + L ≤ len ∧
        data[p + 1]? = some 0x16 ∧ 2 ≤ L ∧
        o = p + 2 ∧ n = L ∧
        data[o]? = some (service_uuid % 256) ∧ data[o + 1]? = some (service_uuid / 256)) ∧
    BLEBeaconParser.findServiceData service_test_packet 9 0xFEAA = Except.ok (some (2, 5)) ∧
    service_test_packet[2]? = some 0xAA ∧ service_test_packet[3]? = some 0xFE := by
  refine ⟨?_, rfl, rfl, rfl⟩
  intro data len service_uuid o n h256 hbytes h
  rw [BLEBeaconParser.findServiceData, findServiceLoop_eq_scan] at h
  obtain ⟨recs, p, L, lo, hi, hc, -, h0, -, hin, hkey, hk, hv⟩ :=
    scan_sound data len _ _ _ h256 len 0 (o, n) h
  have hlo : lo < 256 := hbytes lo (List.getElem?_mem hkey.2.2.1)
  have hhi : hi < 256 := hbytes hi (List.getElem?_mem hkey.2.2.2)
  rw [decide_eq_true_eq] at hk
  obtain ⟨rfl, rfl⟩ := (key16_iff lo hi service_uuid hlo hhi).1 hk
  simp only [Prod.mk.injEq] at hv
  obtain ⟨k1, k2, k3, k4⟩ := hkey
  simp only at k1 k2 k3 k4
  refine ⟨recs, p, L, hc, h0, hin, k1, k2, hv.1, hv.2, ?_, ?_⟩
  · rw [hv.1]; exact k3
  · rw [hv.1]; exact k4

/-- C16, at the packet of the unit test `test_findServiceData`. -/
theorem C16_findServiceData_view_witness :
    ∃ recs p L, isChain service_test_packet 9 0 recs p ∧
      service_test_packet[p]? = some L ∧ p + 1 + L ≤ 9 ∧
      service_test_packet[p + 1]? = some 0x16 ∧ 2 ≤ L ∧ 2 = p + 2 ∧ 5 = L ∧
      service_test_packet[2]? = some (0xFEAA % 256) ∧
      service_test_packet[2 + 1]? = some (0xFEAA / 256) :=
  C16_findServiceData_view.1 service_test_packet 9 0xFEAA 2 5 (by decide) (by decide) rfl

/-- C14, evaluated where the code departs from it: in `02 FF 4C 02 01 06` the manufacturer
record has a value of one byte, so no record of the chain has a value that starts with the two
bytes of company ID `0x024C`; the scanner nevertheless returns found, because it takes the
length byte of the next record as the high byte of the company ID. -/
theorem C14_findManufacturerData_short_value :
    BLEBeaconParser.findManufacturerData short_manufacturer_packet 6 0x024C
      = Except.ok (some (4, 0)) ∧
    recordChain short_manufacturer_packet 6 = [(0, 2), (3, 2)] ∧
    ∀ r ∈ recordChain short_manufacturer_packet 6,
      ¬ recordValueHasKey short_manufacturer_packet 0xFF (0x024C % 256) (0x024C / 256) r := by
  refine ⟨rfl, rfl, ?_⟩
  intro r hr
  have hc : recordChain short_manufacturer_packet 6 = [(0, 2), (3, 2)] := rfl
  rw [hc] at hr
  simp only [List.mem_cons, List.mem_singleton, List.not_mem_nil, or_false] at hr
  rcases hr with rfl | rfl
  · rintro ⟨-, h2, -⟩
    exact absurd h2 (by decide)
  · rintro ⟨-, h2, -⟩
    exact absurd h2 (by decide)

/-- C20, evaluated where the code departs from it: on a buffer of exactly three bytes that
holds a record with length byte 2 and the scanner's AD type, each of the five scanners reads
index 3. -/
theorem C20_scanners_read_index_len :
    BLEBeaconParser.findManufacturerData [0x02, 0xFF, 0x4C] 3 0x004C
      = Except.error (Fault.outOfBounds 3) ∧
    BLEBeaconParser.findServiceData [0x02, 0x16, 0xAA] 3 0xFEAA
      = Except.error (Fault.outOfBounds 3) ∧
    iBeaconParser.findAppleManufacturerData [0x02, 0xFF, 0x4C] 3
      = Except.error (Fault.outOfBounds 3) ∧
    AltBeaconParser.findRadiusManufacturerData [0x02, 0xFF, 0x18] 3
      = Except.error (Fault.outOfBounds 3) ∧
    EddystoneParser.findEddystoneServiceData [0x02, 0x16, 0xAA] 3
      = Except.error (Fault.outOfBounds 3) :=
  ⟨rfl, rfl, rfl, rfl, rfl⟩


/-! ## Failing Eddystone frames -/

/-- What `findEddystoneServiceData` returns is the view of a record inside the first `len`
bytes: an 8-bit length, and the view ends at or before `len`. -/
theorem findEddystone_sound (data : List Nat) (len sd sl : Nat) (h256 : len < 256)
    (hf : EddystoneParser.findEddystoneServiceData data len = Except.ok (some (sd, sl))) :
    sl < 256 ∧ sd + sl ≤ len ∧ 2 ≤ sd := by
  rw [EddystoneParser.findEddystoneServiceData, findEddystoneLoop_eq_scan] at hf
  obtain ⟨recs, p, L, lo, hi, -, -, -, -, hin, hkey, -, hv⟩ :=
    scan_sound data len _ _ _ h256 len 0 (sd, sl) hf
  simp only [Prod.mk.injEq] at hv
  obtain ⟨rfl, rfl⟩ := hv
  have h2 := hkey.2.1
  simp only at h2
  have hm := Nat.mod_le (L - 1) 256
  have hm2 := Nat.mod_lt (L - 1) (show 0 < 256 by norm_num)
  exact ⟨hm2, by omega, by omega⟩

theorem decodeURLScheme_unknown (c : Nat) (h : c ∉ [0, 1, 2, 3]) :
    EddystoneParser.decodeURLScheme c = "" := by
  simp only [List.mem_cons, List.mem_singleton, List.not_mem_nil, or_false, not_or] at h
  unfold EddystoneParser.decodeURLScheme
  split <;> first | omega | rfl

/-- C11: when the located Eddystone record has frame type `0x10`, at least two payload bytes
and a scheme byte other than 0, 1, 2, 3, `EddystoneParser::parse` returns false, the result is
invalid, its type is as before the call (it is not set to Eddystone-URL) and its URL string is
as before the call. -/
theorem C11_unknown_url_scheme_fails (data : List Nat) (len sd sl c : Nat)
    (result : BeaconData) (h256 : len < 256) (hlen : len ≤ data.length)
    (hf : EddystoneParser.findEddystoneServiceData data len = Except.ok (some (sd, sl)))
    (hft : data[sd + 2]? = some 0x10) (hpay : 2 ≤ sl - 3)
    (hc : data[sd + 4]? = some c) (hbad : c ∉ [0, 1, 2, 3]) :
    ∃ res, EddystoneParser.parse data len result = Except.ok (false, res) ∧
      res.valid = false ∧ res.type = result.type ∧
      res.eddystone_url.url = result.eddystone_url.url := by
  obtain ⟨hsl, hend, -⟩ := findEddystone_sound data len sd sl h256 hf
  have hfl : (sl - 3) % 256 = sl - 3 := Nat.mod_eq_of_lt (by omega)
  obtain ⟨t, -, ht⟩ := readByte_of_lt data (sd + 3) (by omega)
  have hc1 : data[sd + 3 + 1]? = some c := hc
  have hn : ¬ (sl - 3 < 2) := by omega
  rw [Eddystone_parse_url data len sd sl result hf (by omega) hft, hfl]
  simp only [EddystoneParser.parseURL, if_neg hn, readByte_eq ht, readByte_eq hc1, run_bind_ok,
    decodeURLScheme_unknown c hbad, run_pure]
  exact ⟨_, rfl, rfl, rfl, rfl⟩

/-- C11, at an Eddystone-URL frame with power byte `F0`, scheme byte `04` and one URL byte. -/
theorem C11_unknown_url_scheme_fails_witness :
    ∃ res, EddystoneParser.parse [0x07, 0x16, 0xAA, 0xFE, 0x10, 0xF0, 0x04, 0x61] 8
        BeaconData.new = Except.ok (false, res) ∧
      res.valid = false ∧ res.type = BeaconData.new.type ∧
      res.eddystone_url.url = BeaconData.new.eddystone_url.url :=
  C11_unknown_url_scheme_fails [0x07, 0x16, 0xAA, 0xFE, 0x10, 0xF0, 0x04, 0x61] 8 2 6 0x04
    BeaconData.new (by decide) (by decide) rfl rfl (by decide) rfl (by decide)

theorem parseTLM_true_inv (data : List Nat) (fd fl : Nat) (r res : BeaconData)
    (h : EddystoneParser.parseTLM data fd fl r = Except.ok (true, res)) :
    13 ≤ fl ∧ data[fd]? = some 0 := by
  unfold EddystoneParser.parseTLM at h
  by_cases hl : fl < 13
  · rw [if_pos hl] at h
    simp [run_pure] at h
  · rw [if_neg hl] at h
    simp only [run_bind_eq_ok] at h
    obtain ⟨version, hv, h⟩ := h
    rw [readByte_ok_iff] at hv
    split at h
    · simp [run_pure] at h
    · rename_i hz
      have : version = 0 := by simpa using hz
      rw [this] at hv
      exact ⟨by omega, hv⟩

theorem parseTLM_version_fail (data : List Nat) (fd fl v : Nat) (r : BeaconData)
    (hv : data[fd]? = some v) (hne : v ≠ 0) :
    EddystoneParser.parseTLM data fd fl r = Except.ok (false, { r with valid := false }) := by
  unfold EddystoneParser.parseTLM
  by_cases hl : fl < 13
  · rw [if_pos hl]; rfl
  · rw [if_neg hl]
    simp only [readByte_eq hv, run_bind_ok, ne_eq, hne, not_false_eq_true, if_true, run_pure]

/-- C12: when the located Eddystone record has frame type `0x20`, `EddystoneParser::parse`
succeeds if and only if the frame payload has at least 13 bytes and its first byte, the
version, is 0; for every non-zero version byte it returns false with an invalid result. -/
theorem C12_tlm_version_and_length (data : List Nat) (len sd sl : Nat) (result : BeaconData)
    (h256 : len < 256) (hlen : len ≤ data.length)
    (hf : EddystoneParser.findEddystoneServiceData data len = Except.ok (some (sd, sl)))
    (hsl : 3 ≤ sl) (hft : data[sd + 2]? = some 0x20) :
    ((∃ res, EddystoneParser.parse data len result = Except.ok (true, res)) ↔
      (13 ≤ sl - 3 ∧ data[sd + 3]? = some 0)) ∧
    (∀ v, data[sd + 3]? = some v → v ≠ 0 →
      ∃ res, EddystoneParser.parse data len result = Except.ok (false, res) ∧
        res.valid = false) := by
  obtain ⟨hsl256, hend, -⟩ := findEddystone_sound data len sd sl h256 hf
  have hfl : (sl - 3) % 256 = sl - 3 := Nat.mod_eq_of_lt (by omega)
  rw [Eddystone_parse_tlm data len sd sl result hf hsl hft, hfl]
  refine ⟨⟨?_, ?_⟩, ?_⟩
  · rintro ⟨res, h⟩
    exact parseTLM_true_inv _ _ _ _ _ h
  · rintro ⟨h13, h0⟩
    obtain ⟨f1, -, r1⟩ := readByte_of_lt data (sd + 3 + 1) (by omega)
    obtain ⟨f2, -, r2⟩ := readByte_of_lt data (sd + 3 + 2) (by omega)
    obtain ⟨f3, -, r3⟩ := readByte_of_lt data (sd + 3 + 3) (by omega)
    obtain ⟨f4, -, r4⟩ := readByte_of_lt data (sd + 3 + 4) (by omega)
    obtain ⟨f5, -, r5⟩ := readByte_of_lt data (sd + 3 + 5) (by omega)
    obtain ⟨f6, -, r6⟩ := readByte_of_lt data (sd + 3 + 6) (by omega)
    obtain ⟨f7, -, r7⟩ := readByte_of_lt data (sd + 3 + 7) (by omega)
    obtain ⟨f8, -, r8⟩ := readByte_of_lt data (sd + 3 + 8) (by omega)
    obtain ⟨f9, -, r9⟩ := readByte_of_lt data (sd + 3 + 9) (by omega)
    obtain ⟨f10, -, r10⟩ := readByte_of_lt data (sd + 3 + 10) (by omega)
    obtain ⟨f11, -, r11⟩ := readByte_of_lt data (sd + 3 + 11) (by omega)
    obtain ⟨f12, -, r12⟩ := readByte_of_lt data (sd + 3 + 12) (by omega)
    exact ⟨_, parseTLM_ok data (sd + 3) (sl - 3) result f1 f2 f3 f4 f5 f6 f7 f8 f9 f10 f11 f12
      h13 h0 r1 r2 r3 r4 r5 r6 r7 r8 r9 r10 r11 r12⟩
  · intro v hv hne
    exact ⟨_, parseTLM_version_fail data (sd + 3) (sl - 3) v result hv hne, rfl⟩

/-- C12, at the TLM packet of the unit test with its version byte changed to 1: the parse
fails; with version 0 the payload of 13 bytes is accepted. -/
theorem C12_tlm_version_and_length_witness :
    (∃ res, EddystoneParser.parse
        [0x11, 0x16, 0xAA, 0xFE, 0x20, 0x01, 0x0B, 0xB8, 0x19, 0x00,
         0x00, 0x00, 0x00, 0x64, 0x00, 0x00, 0x03, 0xE8] 18 BeaconData.new
        = Except.ok (false, res) ∧ res.valid = false) ∧
    (∃ res, EddystoneParser.parse eddystone_tlm_packet 18 BeaconData.new
        = Except.ok (true, res)) :=
  ⟨(C12_tlm_version_and_length
      [0x11, 0x16, 0xAA, 0xFE, 0x20, 0x01, 0x0B, 0xB8, 0x19, 0x00,
       0x00, 0x00, 0x00, 0x64, 0x00, 0x00, 0x03, 0xE8] 18 2 16 BeaconData.new (by decide)
      (by decide) rfl (by decide) rfl).2 1 rfl (by decide),
   (C12_tlm_version_and_length eddystone_tlm_packet 18 2 16 BeaconData.new (by decide)
      (by decide) rfl (by decide) rfl).1.2 ⟨by decide, rfl⟩⟩

/-- C13: when the located Eddystone record holds a frame-type byte other than `0x00`, `0x10`
and `0x20`, `EddystoneParser::parse` returns false and changes nothing in the result but the
validity flag, which it clears; the type is as before the call. -/
theorem C13_unknown_frame_type_fails (data : List Nat) (len sd sl ft : Nat)
    (result : BeaconData)
    (hf : EddystoneParser.findEddystoneServiceData data len = Except.ok (some (sd, sl)))
    (hsl : 3 ≤ sl) (hft : data[sd + 2]? = some ft) (hne : ft ∉ [0x00, 0x10, 0x20]) :
    EddystoneParser.parse data len result = Except.ok (false, { result with valid := false }) := by
  simp only [List.mem_cons, List.mem_singleton, List.not_mem_nil, or_false, not_or] at hne
  have hn : ¬ sl < 3 := by omega
  simp only [EddystoneParser.parse, hf, run_bind_ok, if_neg hn, readByte_eq hft, if_neg hne.1,
    if_neg hne.2.1, if_neg hne.2.2, run_pure]

/-- C13, at an Eddystone record with frame type `0x30` (an EID frame): the parse fails and
the type stays as it was. -/
theorem C13_unknown_frame_type_fails_witness :
    EddystoneParser.parse [0x0D, 0x16, 0xAA, 0xFE, 0x30, 0xF0, 1, 2, 3, 4, 5, 6, 7, 8] 14
        BeaconData.new = Except.ok (false, BeaconData.new) :=
  C13_unknown_frame_type_fails [0x0D, 0x16, 0xAA, 0xFE, 0x30, 0xF0, 1, 2, 3, 4, 5, 6, 7, 8] 14
    2 12 0x30 BeaconData.new rfl (by decide) rfl (by decide)

/-! ## Which views let a decoder succeed -/

/-- A successful `iBeaconParser::parse` has located a view of at least 23 bytes. -/
theorem iBeacon_parse_true_view (data : List Nat) (len : Nat) (r res : BeaconData)
    (h : iBeaconParser.parse data len r = Except.ok (true, res)) :
    appleViewOfParseLength data len := by
  unfold iBeaconParser.parse at h
  simp only [run_bind_eq_ok] at h
  obtain ⟨found, hfind, h⟩ := h
  rcases found with _ | ⟨m, ml⟩
  · simp [run_pure] at h
  · simp only [] at h
    split at h
    · simp [run_pure] at h
    · exact ⟨m, ml, hfind, by omega⟩

/-- A successful `AltBeaconParser::parse` has located a view of at least 24 bytes. -/
theorem AltBeacon_parse_true_view (data : List Nat) (len : Nat) (r res : BeaconData)
    (h : AltBeaconParser.parse data len r = Except.ok (true, res)) :
    radiusViewOfParseLength data len := by
  unfold AltBeaconParser.parse at h
  simp only [run_bind_eq_ok] at h
  obtain ⟨found, hfind, h⟩ := h
  rcases found with _ | ⟨m, ml⟩
  · simp [run_pure] at h
  · simp only [] at h
    split at h
    · simp [run_pure] at h
    · exact ⟨m, ml, hfind, by omega⟩

/-- A successful `AltBeaconParser::parse` implies a successful `canParse`. -/
theorem AltBeacon_canParse_of_parse (data : List Nat) (len : Nat) (r res : BeaconData)
    (h : AltBeaconParser.parse data len r = Except.ok (true, res)) :
    AltBeaconParser.canParse data len = Except.ok true := by
  unfold AltBeaconParser.parse at h
  simp only [run_bind_eq_ok] at h
  obtain ⟨found, hfind, h⟩ := h
  rcases found with _ | ⟨m, ml⟩
  · simp [run_pure] at h
  · simp only [] at h
    split at h
    · simp [run_pure] at h
    · rename_i hml
      simp only [run_bind_eq_ok] at h
      obtain ⟨b0, e0, h⟩ := h
      split at h
      · simp [run_pure] at h
      · rename_i hb0
        simp only [run_bind_eq_ok] at h
        obtain ⟨b1, e1, h⟩ := h
        split at h
        · simp [run_pure] at h
        · rename_i hb1
          have h2 : ¬ ml < 2 := by omega
          have e0' : b0 = 0xBE := by simpa using hb0
          have e1' : b1 = 0xAC := by simpa using hb1
          subst e0' e1'
          simp [AltBeaconParser.canParse, hfind, run_bind_ok, h2, e0, e1, run_pure]

/-- Whatever `EddystoneParser::parse` returns, it has located the Eddystone record when it
returns true. -/
theorem Eddystone_canParse_of_parse (data : List Nat) (len : Nat) (r res : BeaconData)
    (h : EddystoneParser.parse data len r = Except.ok (true, res)) :
    EddystoneParser.canParse data len = Except.ok true := by
  unfold EddystoneParser.parse at h
  simp only [run_bind_eq_ok] at h
  obtain ⟨found, hfind, h⟩ := h
  rcases found with _ | ⟨sd, sl⟩
  · simp [run_pure] at h
  · simp [EddystoneParser.canParse, hfind, run_bind_ok, run_pure]

/-- The frame decoders fail without a write when the frame is shorter than 2 bytes. -/
theorem parseUID_short (data : List Nat) (fd fl : Nat) (r : BeaconData) (h : fl < 17) :
    EddystoneParser.parseUID data fd fl r = Except.ok (false, { r with valid := false }) := by
  unfold EddystoneParser.parseUID
  rw [if_pos h]; rfl

theorem parseURL_short (data : List Nat) (fd fl : Nat) (r : BeaconData) (h : fl < 2) :
    EddystoneParser.parseURL data fd fl r = Except.ok (false, { r with valid := false }) := by
  unfold EddystoneParser.parseURL
  rw [if_pos h]; rfl

theorem parseTLM_short (data : List Nat) (fd fl : Nat) (r : BeaconData) (h : fl < 13) :
    EddystoneParser.parseTLM data fd fl r = Except.ok (false, { r with valid := false }) := by
  unfold EddystoneParser.parseTLM
  rw [if_pos h]; rfl

/-- A run of `EddystoneParser::parse` either fails and only clears the validity flag, or has
located a view of at least 5 bytes. -/
theorem Eddystone_parse_cases (data : List Nat) (len : Nat) (r r1 : BeaconData) (b : Bool)
    (h : EddystoneParser.parse data len r = Except.ok (b, r1)) :
    (b = false ∧ r1 = { r with valid := false }) ∨ eddystoneViewOfFrameLength data len := by
  unfold EddystoneParser.parse at h
  simp only [run_bind_eq_ok] at h
  obtain ⟨found, hfind, h⟩ := h
  rcases found with _ | ⟨sd, sl⟩
  · simp only [run_pure, Except.ok.injEq, Prod.mk.injEq] at h
    exact Or.inl ⟨h.1.symm, h.2.symm⟩
  · by_cases h5 : 5 ≤ sl
    · exact Or.inr ⟨sd, sl, hfind, h5⟩
    · left
      simp only [] at h
      split at h
      · simp only [run_pure, Except.ok.injEq, Prod.mk.injEq] at h
        exact ⟨h.1.symm, h.2.symm⟩
      · simp only [run_bind_eq_ok] at h
        obtain ⟨ft, -, h⟩ := h
        have hfl : (sl - 3) % 256 < 2 := by omega
        rw [parseUID_short _ _ _ _ (by omega), parseURL_short _ _ _ _ hfl,
          parseTLM_short _ _ _ _ (by omega)] at h
        simp only [run_pure, ite_self, Except.ok.injEq, Prod.mk.injEq] at h
        exact ⟨h.1.symm, h.2.symm⟩

/-- A successful `EddystoneParser::parse` has located a view of at least 5 bytes. -/
theorem Eddystone_parse_true_view (data : List Nat) (len : Nat) (r res : BeaconData)
    (h : EddystoneParser.parse data len r = Except.ok (true, res)) :
    eddystoneViewOfFrameLength data len := by
  rcases Eddystone_parse_cases data len r res true h with ⟨h1, -⟩ | h1
  · exact absurd h1 (by decide)
  · exact h1

/-! ## Two records of one chain do not overlap -/

/-- Two offsets reached along the record chain from the same start are equal, or the record at
one of them ends before the other. -/
theorem isChain_compare (data : List Nat) (len : Nat) :
    ∀ (recs1 recs2 : List (Nat × Nat)) (p e1 e2 L1 L2 : Nat),
    isChain data len p recs1 e1 → isChain data len p recs2 e2 →
    data[e1]? = some L1 → data[e2]? = some L2 →
    e1 = e2 ∨ e1 + L1 + 1 ≤ e2 ∨ e2 + L2 + 1 ≤ e1 := by
  intro recs1
  induction recs1 with
  | nil =>
    intro recs2 p e1 e2 L1 L2 h1 h2 d1 d2
    simp only [isChain] at h1
    subst h1
    cases recs2 with
    | nil =>
      simp only [isChain] at h2
      exact Or.inl h2
    | cons r rs =>
      obtain ⟨q, L⟩ := r
      simp only [isChain] at h2
      obtain ⟨-, hL, -, -, hrest⟩ := h2
      have hle := isChain_le data len rs _ _ hrest
      rw [d1] at hL
      have : L1 = L := Option.some.inj hL
      right; left; omega
  | cons r rs ih =>
    intro recs2 p e1 e2 L1 L2 h1 h2 d1 d2
    obtain ⟨q, L⟩ := r
    simp only [isChain] at h1
    obtain ⟨-, hL, -, -, hrest⟩ := h1
    cases recs2 with
    | nil =>
      simp only [isChain] at h2
      subst h2
      have hle := isChain_le data len rs _ _ hrest
      rw [d2] at hL
      have : L2 = L := Option.some.inj hL
      right; right; omega
    | cons r2 rs2 =>
      obtain ⟨q2, M⟩ := r2
      simp only [isChain] at h2
      obtain ⟨-, hM, -, -, hrest2⟩ := h2
      rw [hL] at hM
      have hLM : L = M := Option.some.inj hM
      subst hLM
      exact ih rs2 _ e1 e2 L1 L2 hrest hrest2 d1 d2

/-- The record behind a view of at least 23 bytes returned by the scan for Apple. -/
theorem apple_view_record (data : List Nat) (len : Nat) (h256 : len < 256)
    (h : appleViewOfParseLength data len) :
    ∃ recs p L, isChain data len 0 recs p ∧ data[p]? = some L ∧ p + 1 + L ≤ len ∧ 25 ≤ L ∧
      data[p + 1]? = some 0xFF ∧ data[p + 2]? = some 0x4C := by
  obtain ⟨sd, sl, hf, hsl⟩ := h
  rw [iBeaconParser.findAppleManufacturerData, findAppleLoop_eq_scan] at hf
  obtain ⟨recs, p, L, lo, hi, hc, -, h0, -, hin, hkey, hk, hv⟩ :=
    scan_sound data len _ _ _ h256 len 0 (sd, sl) hf
  simp only [Prod.mk.injEq] at hv
  obtain ⟨-, rfl⟩ := hv
  obtain ⟨k1, -, k3, -⟩ := hkey
  simp only [decide_eq_true_eq] at hk
  simp only at k1 k3
  rw [hk.1] at k3
  have hm := Nat.mod_le (L - 2) 256
  exact ⟨recs, p, L, hc, h0, hin, by omega, k1, k3⟩

/-- The record behind a view of at least 24 bytes returned by the scan for Radius Networks. -/
theorem radius_view_record (data : List Nat) (len : Nat) (h256 : len < 256)
    (h : radiusViewOfParseLength data len) :
    ∃ recs p L, isChain data len 0 recs p ∧ data[p]? = some L ∧ p + 1 + L ≤ len ∧ 26 ≤ L ∧
      data[p + 1]? = some 0xFF ∧ data[p + 2]? = some 0x18 := by
  obtain ⟨sd, sl, hf, hsl⟩ := h
  rw [AltBeaconParser.findRadiusManufacturerData, findRadiusLoop_eq_scan] at hf
  obtain ⟨recs, p, L, lo, hi, hc, -, h0, -, hin, hkey, hk, hv⟩ :=
    scan_sound data len _ _ _ h256 len 0 (sd, sl) hf
  simp only [Prod.mk.injEq] at hv
  obtain ⟨-, rfl⟩ := hv
  obtain ⟨k1, -, k3, -⟩ := hkey
  simp only [decide_eq_true_eq] at hk
  simp only at k1 k3
  rw [hk.1] at k3
  have hm := Nat.mod_le (L - 2) 256
  exact ⟨recs, p, L, hc, h0, hin, by omega, k1, k3⟩

/-- The record behind a view of at least 5 bytes returned by the scan for Eddystone. -/
theorem eddystone_view_record (data : List Nat) (len : Nat) (h256 : len < 256)
    (h : eddystoneViewOfFrameLength data len) :
    ∃ recs p L, isChain data len 0 recs p ∧ data[p]? = some L ∧ p + 1 + L ≤ len ∧ 6 ≤ L ∧
      data[p + 1]? = some 0x16 := by
  obtain ⟨sd, sl, hf, hsl⟩ := h
  rw [EddystoneParser.findEddystoneServiceData, findEddystoneLoop_eq_scan] at hf
  obtain ⟨recs, p, L, lo, hi, hc, -, h0, -, hin, hkey, hk, hv⟩ :=
    scan_sound data len _ _ _ h256 len 0 (sd, sl) hf
  simp only [Prod.mk.injEq] at hv
  obtain ⟨-, rfl⟩ := hv
  obtain ⟨k1, -, -, -⟩ := hkey
  simp only at k1
  have hm := Nat.mod_le (L - 1) 256
  exact ⟨recs, p, L, hc, h0, hin, by omega, k1⟩

/-- In a buffer of at most 32 bytes no two of the three scans return a view long enough for
their decoder: the records behind two such views are different records of one chain and take
at least 26 + 7 bytes. -/
theorem views_exclusive (data : List Nat) (len : Nat) (h32 : len ≤ 32) :
    ¬ (appleViewOfParseLength data len ∧ radiusViewOfParseLength data len) ∧
    ¬ (appleViewOfParseLength data len ∧ eddystoneViewOfFrameLength data len) ∧
    ¬ (radiusViewOfParseLength data len ∧ eddystoneViewOfFrameLength data len) := by
  have h256 : len < 256 := by omega
  refine ⟨?_, ?_, ?_⟩
  · rintro ⟨ha, hr⟩
    obtain ⟨recs1, p1, L1, c1, d1, i1, b1, -, k1⟩ := apple_view_record data len h256 ha
    obtain ⟨recs2, p2, L2, c2, d2, i2, b2, -, k2⟩ := radius_view_record data len h256 hr
    rcases isChain_compare data len recs1 recs2 0 p1 p2 L1 L2 c1 c2 d1 d2 with h | h | h
    · subst h
      rw [k1] at k2
      exact absurd (Option.some.inj k2) (by decide)
    · omega
    · omega
  · rintro ⟨ha, he⟩
    obtain ⟨recs1, p1, L1, c1, d1, i1, b1, t1, -⟩ := apple_view_record data len h256 ha
    obtain ⟨recs2, p2, L2, c2, d2, i2, b2, t2⟩ := eddystone_view_record data len h256 he
    rcases isChain_compare data len recs1 recs2 0 p1 p2 L1 L2 c1 c2 d1 d2 with h | h | h
    · subst h
      rw [t1] at t2
      exact absurd (Option.some.inj t2) (by decide)
    · omega
    · omega
  · rintro ⟨hr, he⟩
    obtain ⟨recs1, p1, L1, c1, d1, i1, b1, t1, -⟩ := radius_view_record data len h256 hr
    obtain ⟨recs2, p2, L2, c2, d2, i2, b2, t2⟩ := eddystone_view_record data len h256 he
    rcases isChain_compare data len recs1 recs2 0 p1 p2 L1 L2 c1 c2 d1 d2 with h | h | h
    · subst h
      rw [t1] at t2
      exact absurd (Option.some.inj t2) (by decide)
    · omega
    · omega

/-! ## The guarded calls of the dispatcher -/

theorem valid_false_eq (s : BeaconData) (h : s.valid = false) :
    ({ s with valid := false } : BeaconData) = s := by
  cases s
  simp only at h
  subst h
  rfl

/-- One guarded call of the dispatcher. -/
theorem tryDecoders_step (data : List Nat) (len : Nat) (d : DecoderId) (ds : List DecoderId)
    (s s1 : BeaconData) (b : Bool) (h : guardedOutcome data len d s b s1) :
    tryDecoders data len (d :: ds) s
      = if b then Except.ok (true, s1) else tryDecoders data len ds s1 := by
  obtain ⟨c, hc, hp⟩ := h
  simp only [tryDecoders, hc, run_bind_ok, hp]
  cases b <;> rfl

/-- The outcome of a guarded call is determined by the state it is entered with. -/
theorem guardedOutcome_unique (data : List Nat) (len : Nat) (d : DecoderId)
    (s s1 s2 : BeaconData) (b1 b2 : Bool) (h1 : guardedOutcome data len d s b1 s1)
    (h2 : guardedOutcome data len d s b2 s2) : b1 = b2 ∧ s1 = s2 := by
  obtain ⟨c1, hc1, hp1⟩ := h1
  obtain ⟨c2, hc2, hp2⟩ := h2
  rw [hc1] at hc2
  have hc : c1 = c2 := Except.ok.inj hc2
  subst hc
  rw [hp1] at hp2
  have := Except.ok.inj hp2
  simp only [Prod.mk.injEq] at this
  exact this

/-- Where the decoders are defined, every guarded call has an outcome. -/
theorem guardedOutcome_exists (data : List Nat) (len : Nat) (alive : Bool)
    (hdef : decodersDefined data len alive)
    (d : DecoderId) (s : BeaconData) (hs : s.holds_string = alive) :
    ∃ b s1, guardedOutcome data len d s b s1 := by
  obtain ⟨⟨c, hc⟩, hp⟩ := hdef d
  cases c with
  | false => exact ⟨false, s, false, hc, rfl⟩
  | true =>
    obtain ⟨⟨b, s1⟩, hps⟩ := hp s hs
    exact ⟨b, s1, true, hc, by simpa using hps⟩

/-- A guarded call that does not return true leaves the `String` of the union as it was. -/
theorem guardedOutcome_false_string (data : List Nat) (len : Nat) (d : DecoderId)
    (s s1 : BeaconData) (h : guardedOutcome data len d s false s1) :
    s1.holds_string = s.holds_string := by
  obtain ⟨c, -, hp⟩ := h
  cases c with
  | false =>
    simp only [Bool.false_eq_true, if_false, run_pure, Except.ok.injEq, Prod.mk.injEq] at hp
    rw [← hp.2]
  | true =>
    simp only [if_true] at hp
    cases d with
    | ibeacon => exact iBeacon_parse_fail_string data len s s1 hp
    | altbeacon => exact AltBeacon_parse_fail_string data len s s1 hp
    | eddystone => exact Eddystone_parse_fail_string data len s s1 hp

/-- A guarded call that returns true has a view of the length its decoder asks for. -/
theorem guardedOutcome_true_view (data : List Nat) (len : Nat) (d : DecoderId)
    (s s1 : BeaconData) (h : guardedOutcome data len d s true s1) :
    viewOfParseLength d data len := by
  obtain ⟨c, -, hp⟩ := h
  cases c with
  | false => simp [run_pure] at hp
  | true =>
    simp only [if_true] at hp
    cases d with
    | ibeacon => exact iBeacon_parse_true_view data len s s1 hp
    | altbeacon => exact AltBeacon_parse_true_view data len s s1 hp
    | eddystone => exact Eddystone_parse_true_view data len s s1 hp

/-- A guarded call that is entered with an invalid result and does not return true leaves the
result as it was, unless its decoder has a view of the length it asks for. -/
theorem guardedOutcome_cases (data : List Nat) (len : Nat) (d : DecoderId)
    (s s1 : BeaconData) (b : Bool) (hs : s.valid = false)
    (h : guardedOutcome data len d s b s1) :
    (b = false ∧ s1 = s) ∨ viewOfParseLength d data len := by
  obtain ⟨c, hc, hp⟩ := h
  cases c with
  | false =>
    simp only [Bool.false_eq_true, if_false, run_pure, Except.ok.injEq, Prod.mk.injEq] at hp
    exact Or.inl ⟨hp.1.symm, hp.2.symm⟩
  | true =>
    simp only [if_true] at hp
    cases d with
    | ibeacon =>
      rcases iBeacon_parse_post data len s s1 b hp with ⟨hb, -, -⟩ | ⟨hb, hr⟩
      · subst hb
        exact Or.inr (iBeacon_parse_true_view data len s s1 hp)
      · exact Or.inl ⟨hb, by rw [hr, valid_false_eq s hs]⟩
    | altbeacon =>
      rcases AltBeacon_parse_post data len s s1 b hp with ⟨hb, -, -⟩ | ⟨hb, hr⟩
      · subst hb
        exact Or.inr (AltBeacon_parse_true_view data len s s1 hp)
      · exact Or.inl ⟨hb, by rw [hr, valid_false_eq s hs]⟩
    | eddystone =>
      rcases Eddystone_parse_cases data len s s1 b hp with ⟨hb, hr⟩ | hv
      · exact Or.inl ⟨hb, by rw [hr, valid_false_eq s hs]⟩
      · exact Or.inr hv

/-- A failing guarded call of the iBeacon or AltBeacon decoder, entered with an invalid
result, leaves the result as it was. -/
theorem guardedOutcome_false_same (data : List Nat) (len : Nat) (d : DecoderId)
    (hd : d ≠ DecoderId.eddystone) (s s1 : BeaconData) (hs : s.valid = false)
    (h : guardedOutcome data len d s false s1) : s1 = s := by
  obtain ⟨c, hc, hp⟩ := h
  cases c with
  | false =>
    simp only [Bool.false_eq_true, if_false, run_pure, Except.ok.injEq, Prod.mk.injEq] at hp
    exact hp.2.symm
  | true =>
    simp only [if_true] at hp
    cases d with
    | ibeacon =>
      rcases iBeacon_parse_post data len s s1 false hp with ⟨hb, -, -⟩ | ⟨-, hr⟩
      · exact absurd hb (by decide)
      · rw [hr, valid_false_eq s hs]
    | altbeacon =>
      rcases AltBeacon_parse_post data len s s1 false hp with ⟨hb, -, -⟩ | ⟨-, hr⟩
      · exact absurd hb (by decide)
      · rw [hr, valid_false_eq s hs]
    | eddystone => exact absurd rfl hd

/-- A failing guarded call entered with an invalid result leaves an invalid result. -/
theorem guardedOutcome_false_valid (data : List Nat) (len : Nat) (d : DecoderId)
    (s s1 : BeaconData) (hs : s.valid = false)
    (h : guardedOutcome data len d s false s1) : s1.valid = false := by
  by_cases hd : d = DecoderId.eddystone
  · subst hd
    obtain ⟨c, hc, hp⟩ := h
    cases c with
    | false =>
      simp only [Bool.false_eq_true, if_false, run_pure, Except.ok.injEq, Prod.mk.injEq] at hp
      rw [← hp.2]; exact hs
    | true =>
      simp only [if_true] at hp
      rcases Eddystone_parse_post data len s s1 false hp with ⟨hb, -, -⟩ | ⟨-, hv, -⟩
      · exact absurd hb (by decide)
      · exact hv
  · rw [guardedOutcome_false_same data len d hd s s1 hs h]; exact hs

/-- In a buffer of at most 32 bytes at most one decoder has a view of the length it asks
for. -/
theorem viewOfParseLength_unique (data : List Nat) (len : Nat) (h32 : len ≤ 32)
    (d1 d2 : DecoderId) (h1 : viewOfParseLength d1 data len)
    (h2 : viewOfParseLength d2 data len) : d1 = d2 := by
  obtain ⟨x1, x2, x3⟩ := views_exclusive data len h32
  cases d1 with
  | ibeacon =>
    cases d2 with
    | ibeacon => rfl
    | altbeacon => exact absurd (And.intro h1 h2) x1
    | eddystone => exact absurd (And.intro h1 h2) x2
  | altbeacon =>
    cases d2 with
    | ibeacon => exact absurd (And.intro h2 h1) x1
    | altbeacon => rfl
    | eddystone => exact absurd (And.intro h1 h2) x3
  | eddystone =>
    cases d2 with
    | ibeacon => exact absurd (And.intro h2 h1) x2
    | altbeacon => exact absurd (And.intro h2 h1) x3
    | eddystone => rfl

/-- A decoder that succeeds has a view of the length it asks for. -/
theorem parseSucceeds_view (data : List Nat) (len : Nat) (d : DecoderId)
    (h : parseSucceeds d data len) : viewOfParseLength d data len := by
  obtain ⟨r, res, hp⟩ := h
  cases d with
  | ibeacon => exact iBeacon_parse_true_view data len r res hp
  | altbeacon => exact AltBeacon_parse_true_view data len r res hp
  | eddystone => exact Eddystone_parse_true_view data len r res hp

/-- When the guarded call of `k` returns true and every other guarded call leaves the result
as it was, the calls return the result of `k` in every order that contains `k`. -/
theorem tryDecoders_accept (data : List Nat) (len : Nat) (s0 r : BeaconData) (k : DecoderId)
    (hk : guardedOutcome data len k s0 true r)
    (ho : ∀ j, j ≠ k → guardedOutcome data len j s0 false s0) :
    ∀ order : List DecoderId, k ∈ order → tryDecoders data len order s0 = Except.ok (true, r) := by
  intro order
  induction order with
  | nil => intro h; simp at h
  | cons d ds ih =>
    intro hmem
    by_cases hd : d = k
    · subst hd
      rw [tryDecoders_step data len d ds s0 r true hk]
      rfl
    · rw [tryDecoders_step data len d ds s0 s0 false (ho d hd)]
      simp only [Bool.false_eq_true, if_false]
      apply ih
      rcases List.mem_cons.1 hmem with h | h
      · exact absurd h.symm hd
      · exact h

/-- When no guarded call returns true, the Eddystone call leaves `e0` and the other calls
leave the result as it was, the calls return false with `e0` in every order that contains the
Eddystone decoder once. -/
theorem tryDecoders_decline (data : List Nat) (len : Nat) (s0 e0 : BeaconData)
    (hE : guardedOutcome data len DecoderId.eddystone s0 false e0)
    (ho : ∀ j, j ≠ DecoderId.eddystone →
      guardedOutcome data len j s0 false s0 ∧ guardedOutcome data len j e0 false e0) :
    ∀ order : List DecoderId,
      (DecoderId.eddystone ∉ order → ∀ s, s = s0 ∨ s = e0 →
        tryDecoders data len order s = Except.ok (false, s)) ∧
      (order.Nodup → DecoderId.eddystone ∈ order →
        tryDecoders data len order s0 = Except.ok (false, e0)) := by
  intro order
  induction order with
  | nil =>
    refine ⟨fun _ s _ => rfl, fun _ h => ?_⟩
    simp at h
  | cons d ds ih =>
    refine ⟨?_, ?_⟩
    · intro hnot s hs
      have hd : d ≠ DecoderId.eddystone := fun h => hnot (by rw [h]; exact List.mem_cons_self _ _)
      have hds : DecoderId.eddystone ∉ ds := fun h => hnot (List.mem_cons_of_mem _ h)
      have hstep : guardedOutcome data len d s false s := by
        rcases hs with h | h
        · rw [h]; exact (ho d hd).1
        · rw [h]; exact (ho d hd).2
      rw [tryDecoders_step data len d ds s s false hstep]
      simp only [Bool.false_eq_true, if_false]
      exact ih.1 hds s hs
    · intro hnd hmem
      have hnd2 := List.nodup_cons.1 hnd
      by_cases hd : d = DecoderId.eddystone
      · subst hd
        rw [tryDecoders_step data len _ ds s0 e0 false hE]
        simp only [Bool.false_eq_true, if_false]
        exact ih.1 hnd2.1 e0 (Or.inr rfl)
      · rw [tryDecoders_step data len d ds s0 s0 false (ho d hd).1]
        simp only [Bool.false_eq_true, if_false]
        apply ih.2 hnd2.2
        rcases List.mem_cons.1 hmem with h | h
        · exact absurd h.symm hd
        · exact h

/-- In a buffer of at most 32 bytes on which the decoders are defined, the guarded calls
return the same in every order that holds each decoder once. -/
theorem tryDecoders_perm (data : List Nat) (len : Nat) (h32 : len ≤ 32)
    (s0 : BeaconData) (hdef : decodersDefined data len s0.holds_string)
    (hs0 : s0.valid = false)
    (order : List DecoderId) (hperm : order.Perm sourceOrder) :
    tryDecoders data len order s0 = tryDecoders data len sourceOrder s0 := by
  have hnd0 : sourceOrder.Nodup := by decide
  have hnd : order.Nodup := hperm.nodup_iff.2 hnd0
  have hmem : ∀ d : DecoderId, d ∈ order := by
    intro d
    rw [hperm.mem_iff]
    cases d <;> decide
  have hmem0 : ∀ d : DecoderId, d ∈ sourceOrder := by
    intro d
    cases d <;> decide
  by_cases hacc : ∃ k r, guardedOutcome data len k s0 true r
  · obtain ⟨k, r, hk⟩ := hacc
    have hv := guardedOutcome_true_view data len k s0 r hk
    have ho : ∀ j, j ≠ k → guardedOutcome data len j s0 false s0 := by
      intro j hj
      obtain ⟨b, s1, hout⟩ := guardedOutcome_exists data len _ hdef j s0 rfl
      rcases guardedOutcome_cases data len j s0 s1 b hs0 hout with ⟨hb, hs1⟩ | hvj
      · rw [hb, hs1] at hout; exact hout
      · exact absurd (viewOfParseLength_unique data len h32 j k hvj hv) hj
    rw [tryDecoders_accept data len s0 r k hk ho order (hmem k),
      tryDecoders_accept data len s0 r k hk ho sourceOrder (hmem0 k)]
  · have hfalse : ∀ d s1 b, guardedOutcome data len d s0 b s1 → b = false := by
      intro d s1 b h
      cases b with
      | false => rfl
      | true => exact absurd ⟨d, s1, h⟩ hacc
    obtain ⟨bE, e0, hE⟩ := guardedOutcome_exists data len _ hdef DecoderId.eddystone s0 rfl
    have hbE := hfalse _ _ _ hE
    subst hbE
    have he0 : e0.valid = false := guardedOutcome_false_valid data len _ s0 e0 hs0 hE
    have hes : e0.holds_string = s0.holds_string :=
      guardedOutcome_false_string data len _ s0 e0 hE
    have ho : ∀ j, j ≠ DecoderId.eddystone →
        guardedOutcome data len j s0 false s0 ∧ guardedOutcome data len j e0 false e0 := by
      intro j hj
      obtain ⟨b, s1, hout⟩ := guardedOutcome_exists data len _ hdef j s0 rfl
      have hb := hfalse _ _ _ hout
      subst hb
      have hs1 := guardedOutcome_false_same data len j hj s0 s1 hs0 hout
      subst hs1
      refine ⟨hout, ?_⟩
      obtain ⟨b2, s2, hout2⟩ := guardedOutcome_exists data len _ hdef j e0 hes
      rcases guardedOutcome_cases data len j e0 s2 b2 he0 hout2 with ⟨hb, hs2⟩ | hvj
      · rw [hb, hs2] at hout2; exact hout2
      · rcases guardedOutcome_cases data len _ s1 e0 false hs0 hE with ⟨-, hsame⟩ | hvE
        · rw [hsame] at hout2 ⊢
          have := guardedOutcome_unique data len j s1 s2 s1 b2 false hout2 hout
          rw [this.1, this.2] at hout2
          exact hout2
        · exact absurd (viewOfParseLength_unique data len h32 j _ hvj hvE) hj
    rw [((tryDecoders_decline data len s0 e0 hE ho) order).2 hnd (hmem _),
      ((tryDecoders_decline data len s0 e0 hE ho) sourceOrder).2 hnd0 (hmem0 _)]

/-! ## Views that run past their record -/

/-- C21, evaluated where the code departs from it: an Apple record with length byte 25 that
fills a buffer of 26 bytes passes the length test of `iBeaconParser::parse` (`mfg_len` is 23)
and the TX-power read is at index 26; a Radius Networks record with length byte 26 that fills
a buffer of 27 bytes passes the test of `AltBeaconParser::parse` (`mfg_len` is 24) and the
read of the low byte of the minor is at index 27. -/
theorem C21_decoders_read_index_len :
    ibeacon_len25_packet.length = 26 ∧
    iBeaconParser.findAppleManufacturerData ibeacon_len25_packet 26 = Except.ok (some (4, 23)) ∧
    iBeaconParser.parse ibeacon_len25_packet 26 BeaconData.new
      = Except.error (Fault.outOfBounds 26) ∧
    altbeacon_len26_packet.length = 27 ∧
    AltBeaconParser.findRadiusManufacturerData altbeacon_len26_packet 27
      = Except.ok (some (4, 24)) ∧
    AltBeaconParser.parse altbeacon_len26_packet 27 BeaconData.new
      = Except.error (Fault.outOfBounds 27) :=
  ⟨rfl, rfl, rfl, rfl, rfl, rfl⟩

/-- C22, evaluated where the code departs from it: on the packet of the unit test the matched
record is at offset 0 with length byte 5, so it ends before offset 6, and the returned view
(offset 4, length 3) ends at 7; on the iBeacon packet of the unit test the view (offset 4,
length 24) ends at 28 in a buffer of 27 bytes. -/
theorem C22_findManufacturerData_view_overruns :
    recordChain manufacturer_test_packet 10 = [(0, 5), (6, 3)] ∧
    BLEBeaconParser.findManufacturerData manufacturer_test_packet 10 0x004C
      = Except.ok (some (4, 3)) ∧
    ¬ (4 + 3 ≤ 0 + 1 + 5) ∧
    recordChain ibeacon_packet 27 = [(0, 26)] ∧
    BLEBeaconParser.findManufacturerData ibeacon_packet 27 0x004C
      = Except.ok (some (4, 24)) ∧
    ¬ (4 + 24 ≤ 27) :=
  ⟨rfl, rfl, by decide, rfl, rfl, by decide⟩

/-- C23, evaluated where the code departs from it: on the Eddystone-UID packet of the unit
test the matched record is at offset 0 with length byte 21 and fills the buffer of 22 bytes;
the returned view (offset 2, length 21) ends at 23. -/
theorem C23_findServiceData_view_overruns :
    recordChain eddystone_uid_packet 22 = [(0, 21)] ∧
    BLEBeaconParser.findServiceData eddystone_uid_packet 22 0xFEAA
      = Except.ok (some (2, 21)) ∧
    ¬ (2 + 21 ≤ 0 + 1 + 21) ∧
    ¬ (2 + 21 ≤ 22) ∧
    EddystoneParser.findEddystoneServiceData eddystone_uid_packet 22
      = Except.ok (some (2, 20)) :=
  ⟨rfl, rfl, by decide, by decide, rfl⟩

/-- C24, evaluated where the code departs from it: the first Apple record has length byte 25,
so 22 bytes after the company ID; `iBeaconParser::parse` returns true and reports as TX power
the length byte `02` of the record that follows. -/
theorem C24_ibeacon_parse_accepts_length_25 :
    recordChain ibeacon_len25_flags_packet 29 = [(0, 25), (26, 2)] ∧
    iBeaconParser.parse ibeacon_len25_flags_packet 29 BeaconData.new
      = Except.ok (true,
          { BeaconData.new with
            type := BEACON_TYPE_IBEACON
            valid := true
            ibeacon :=
              { uuid := "5F2DD896-B886-4549-AE01-E41ACD7A354A"
                major := 1
                minor := 2
                tx_power := 2 } }) :=
  ⟨rfl, by decide⟩

/-- C29, evaluated where the code departs from it: on an Eddystone-URL frame with the unknown
scheme byte `04`, `EddystoneParser::parse` returns false and the result holds the TX power
`-16` of the frame in `eddystone_url.tx_power`, a payload field that was 0 before the call. -/
theorem C29_failed_url_parse_writes_tx_power :
    EddystoneParser.parse url_unknown_scheme_packet 8 BeaconData.new
      = Except.ok (false,
          { BeaconData.new with eddystone_url := { url := "", tx_power := -16 } }) ∧
    BeaconData.new.eddystone_url.tx_power = 0 ∧
    ({ BeaconData.new with eddystone_url := { url := "", tx_power := -16 } } : BeaconData)
      ≠ { BeaconData.new with valid := false } :=
  ⟨rfl, rfl, by decide⟩

/-- C30, evaluated where the code departs from it: on `05 FF 4C 00 01 03 01 02 03` with
company ID `0x004C` the matched record is at offset 0 with length byte 5, so it ends before
offset 6 and holds the two bytes `01 03` after the company ID.  The scanner returns the view
at offset 4, whose first byte is `0x01`, with `out_len = 3`: neither the 1 that the test of
the library asserts nor the 2 bytes of the record, and the view ends at 7, inside the next
record. -/
theorem C30_lib_test_packet_out_len :
    recordChain manufacturer_lib_test_packet 9 = [(0, 5), (6, 1)] ∧
    BLEBeaconParser.findManufacturerData manufacturer_lib_test_packet 9 0x004C
      = Except.ok (some (4, 3)) ∧
    manufacturer_lib_test_packet[4]? = some 0x01 ∧
    (¬ ∃ o, BLEBeaconParser.findManufacturerData manufacturer_lib_test_packet 9 0x004C
      = Except.ok (some (o, 1))) ∧
    0 + 1 + 5 - (0 + 4) = 2 ∧
    ¬ (4 + 3 ≤ 0 + 1 + 5) := by
  refine ⟨rfl, rfl, rfl, ?_, rfl, by decide⟩
  rintro ⟨o, h⟩
  have h3 : BLEBeaconParser.findManufacturerData manufacturer_lib_test_packet 9 0x004C
      = Except.ok (some (4, 3)) := rfl
  rw [h3] at h
  exact absurd h (by simp)

/-- C25 as stated fails for each decoder: `canParse` returns true and `parse` returns false on
an Apple record with the iBeacon prefix but 4 bytes after the company ID, on a Radius Networks
record with the beacon code but 4 bytes after the company ID, and on an Eddystone record that
holds the UUID only. -/
theorem C25_canParse_true_parse_false :
    iBeaconParser.canParse [0x06, 0xFF, 0x4C, 0x00, 0x02, 0x15, 0x00] 7 = Except.ok true ∧
    iBeaconParser.parse [0x06, 0xFF, 0x4C, 0x00, 0x02, 0x15, 0x00] 7 BeaconData.new
      = Except.ok (false, BeaconData.new) ∧
    AltBeaconParser.canParse [0x06, 0xFF, 0x18, 0x01, 0xBE, 0xAC, 0x00] 7 = Except.ok true ∧
    AltBeaconParser.parse [0x06, 0xFF, 0x18, 0x01, 0xBE, 0xAC, 0x00] 7 BeaconData.new
      = Except.ok (false, BeaconData.new) ∧
    EddystoneParser.canParse [0x03, 0x16, 0xAA, 0xFE] 4 = Except.ok true ∧
    EddystoneParser.parse [0x03, 0x16, 0xAA, 0xFE] 4 BeaconData.new
      = Except.ok (false, BeaconData.new) :=
  ⟨rfl, rfl, rfl, rfl, rfl, rfl⟩

/-- C26 as stated fails: the Eddystone record `03 16 AA FE` carries 2 bytes after the type
byte and `EddystoneParser::canParse` returns true on it. -/
theorem C26_canParse_accepts_short_record :
    EddystoneParser.findEddystoneServiceData [0x03, 0x16, 0xAA, 0xFE] 4
      = Except.ok (some (2, 2)) ∧
    EddystoneParser.canParse [0x03, 0x16, 0xAA, 0xFE] 4 = Except.ok true ∧
    EddystoneParser.canParse [0x03, 0x16, 0xAA, 0xFE] 4 ≠ Except.ok false :=
  ⟨rfl, rfl, by decide⟩

/-- C27 as stated fails: on the 49-byte buffer that holds the Eddystone-UID record and then
the iBeacon record of the unit tests, both `iBeaconParser::parse` and `EddystoneParser::parse`
return true; the same on a buffer of 33 bytes. -/
theorem C27_two_decoders_succeed :
    uid_then_ibeacon_packet.length = 49 ∧
    (Prod.fst <$> iBeaconParser.parse uid_then_ibeacon_packet 49 BeaconData.new)
      = Except.ok true ∧
    (Prod.fst <$> EddystoneParser.parse uid_then_ibeacon_packet 49 BeaconData.new)
      = Except.ok true ∧
    ibeacon_len25_url_packet.length = 33 ∧
    (Prod.fst <$> iBeaconParser.parse ibeacon_len25_url_packet 33 BeaconData.new)
      = Except.ok true ∧
    (Prod.fst <$> EddystoneParser.parse ibeacon_len25_url_packet 33 BeaconData.new)
      = Except.ok true :=
  ⟨rfl, rfl, rfl, rfl, rfl, rfl⟩

/-! ## What `canParse` checks and what `parse` checks -/

/-- What a successful `iBeaconParser::canParse` has seen: a view of at least 2 bytes that
starts with the prefix `02 15`. -/
theorem iBeacon_canParse_true_inv (data : List Nat) (len : Nat)
    (h : iBeaconParser.canParse data len = Except.ok true) :
    ∃ sd sl, iBeaconParser.findAppleManufacturerData data len = Except.ok (some (sd, sl)) ∧
      2 ≤ sl ∧ readByte data sd = Except.ok 0x02 ∧ readByte data (sd + 1) = Except.ok 0x15 := by
  unfold iBeaconParser.canParse at h
  simp only [run_bind_eq_ok] at h
  obtain ⟨found, hfind, h⟩ := h
  rcases found with _ | ⟨m, ml⟩
  · simp [run_pure] at h
  · simp only [] at h
    split at h
    · simp [run_pure] at h
    · rename_i hml
      simp only [run_bind_eq_ok] at h
      obtain ⟨b0, e0, h⟩ := h
      split at h
      · rename_i hb0
        simp only [run_bind_eq_ok] at h
        obtain ⟨b1, e1, h⟩ := h
        simp only [run_pure, Except.ok.injEq, decide_eq_true_eq] at h
        subst hb0 h
        exact ⟨m, ml, hfind, by omega, e0, e1⟩
      · simp [run_pure] at h

/-- What a successful `AltBeaconParser::canParse` has seen: a view of at least 2 bytes that
starts with the beacon code `BE AC`. -/
theorem AltBeacon_canParse_true_inv (data : List Nat) (len : Nat)
    (h : AltBeaconParser.canParse data len = Except.ok true) :
    ∃ sd sl, AltBeaconParser.findRadiusManufacturerData data len = Except.ok (some (sd, sl)) ∧
      2 ≤ sl ∧ readByte data sd = Except.ok 0xBE ∧ readByte data (sd + 1) = Except.ok 0xAC := by
  unfold AltBeaconParser.canParse at h
  simp only [run_bind_eq_ok] at h
  obtain ⟨found, hfind, h⟩ := h
  rcases found with _ | ⟨m, ml⟩
  · simp [run_pure] at h
  · simp only [] at h
    split at h
    · simp [run_pure] at h
    · rename_i hml
      simp only [run_bind_eq_ok] at h
      obtain ⟨b0, e0, h⟩ := h
      split at h
      · rename_i hb0
        simp only [run_bind_eq_ok] at h
        obtain ⟨b1, e1, h⟩ := h
        simp only [run_pure, Except.ok.injEq, decide_eq_true_eq] at h
        subst hb0 h
        exact ⟨m, ml, hfind, by omega, e0, e1⟩
      · simp [run_pure] at h

/-- Where `iBeaconParser::canParse` returns true and the view has the 23 bytes that `parse`
asks for, a run of `parse` that reads inside the array object returns true. -/
theorem iBeacon_parse_of_canParse (data : List Nat) (len : Nat) (r : BeaconData)
    (hc : iBeaconParser.canParse data len = Except.ok true)
    (hv : appleViewOfParseLength data len)
    (hd : ∃ p, iBeaconParser.parse data len r = Except.ok p) :
    ∃ res, iBeaconParser.parse data len r = Except.ok (true, res) := by
  obtain ⟨sd, sl, hf, -, e0, e1⟩ := iBeacon_canParse_true_inv data len hc
  obtain ⟨sd2, sl2, hf2, hsl⟩ := hv
  rw [hf] at hf2
  simp only [Except.ok.injEq, Option.some.injEq, Prod.mk.injEq] at hf2
  obtain ⟨rfl, rfl⟩ := hf2
  obtain ⟨⟨b, r1⟩, hp⟩ := hd
  cases b with
  | true => exact ⟨r1, hp⟩
  | false =>
    exfalso
    have hn : ¬ sl < 23 := by omega
    unfold iBeaconParser.parse at hp
    simp only [hf, run_bind_ok, if_neg hn, e0, e1, ne_eq, not_true_eq_false, if_false,
      run_bind_eq_ok] at hp
    obtain ⟨u, -, m18, -, m19, -, m20, -, m21, -, m22, -, hp⟩ := hp
    simp [run_pure] at hp

/-- Where `AltBeaconParser::canParse` returns true and the view has the 24 bytes that `parse`
asks for, a run of `parse` that reads inside the array object returns true. -/
theorem AltBeacon_parse_of_canParse (data : List Nat) (len : Nat) (r : BeaconData)
    (hc : AltBeaconParser.canParse data len = Except.ok true)
    (hv : radiusViewOfParseLength data len)
    (hd : ∃ p, AltBeaconParser.parse data len r = Except.ok p) :
    ∃ res, AltBeaconParser.parse data len r = Except.ok (true, res) := by
  obtain ⟨sd, sl, hf, -, e0, e1⟩ := AltBeacon_canParse_true_inv data len hc
  obtain ⟨sd2, sl2, hf2, hsl⟩ := hv
  rw [hf] at hf2
  simp only [Except.ok.injEq, Option.some.injEq, Prod.mk.injEq] at hf2
  obtain ⟨rfl, rfl⟩ := hf2
  obtain ⟨⟨b, r1⟩, hp⟩ := hd
  cases b with
  | true => exact ⟨r1, hp⟩
  | false =>
    exfalso
    have hn : ¬ sl < 24 := by omega
    unfold AltBeaconParser.parse at hp
    simp only [hf, run_bind_ok, if_neg hn, e0, e1, ne_eq, not_true_eq_false, if_false,
      run_bind_eq_ok] at hp
    obtain ⟨u, -, m18, -, m19, -, m20, -, m21, -, m22, -, m23, -, hp⟩ := hp
    simp [run_pure] at hp

/-- C25 as amended: for each decoder `parse` returns true only where `canParse` returns true.
For iBeacon and AltBeacon a run of `parse` that comes to its return returns true
exactly when `canParse` returns true and the located view has the length that `parse` asks for
(23 and 24 bytes); `canParse` alone asks for 2 bytes. -/
theorem C25_parse_only_where_canParse (data : List Nat) (len : Nat) (r : BeaconData) :
    ((∃ p, iBeaconParser.parse data len r = Except.ok p) →
      ((∃ res, iBeaconParser.parse data len r = Except.ok (true, res)) ↔
        (iBeaconParser.canParse data len = Except.ok true ∧
          appleViewOfParseLength data len))) ∧
    ((∃ p, AltBeaconParser.parse data len r = Except.ok p) →
      ((∃ res, AltBeaconParser.parse data len r = Except.ok (true, res)) ↔
        (AltBeaconParser.canParse data len = Except.ok true ∧
          radiusViewOfParseLength data len))) ∧
    ((∃ res, EddystoneParser.parse data len r = Except.ok (true, res)) →
      EddystoneParser.canParse data len = Except.ok true) := by
  refine ⟨fun hd => ⟨?_, ?_⟩, fun hd => ⟨?_, ?_⟩, ?_⟩
  · rintro ⟨res, h⟩
    exact ⟨iBeacon_canParse_of_parse data len r res h, iBeacon_parse_true_view data len r res h⟩
  · rintro ⟨hc, hv⟩
    exact iBeacon_parse_of_canParse data len r hc hv hd
  · rintro ⟨res, h⟩
    exact ⟨AltBeacon_canParse_of_parse data len r res h,
      AltBeacon_parse_true_view data len r res h⟩
  · rintro ⟨hc, hv⟩
    exact AltBeacon_parse_of_canParse data len r hc hv hd
  · rintro ⟨res, h⟩
    exact Eddystone_canParse_of_parse data len r res h

/-- C25 as amended, at the packets of the unit tests: `parse` returns true on each, so
`canParse` returns true; and from `canParse` and the length of the view, `parse` returns
true. -/
theorem C25_parse_only_where_canParse_witness :
    ((iBeaconParser.canParse ibeacon_packet 27 = Except.ok true ∧
        appleViewOfParseLength ibeacon_packet 27) ∧
      ∃ res, iBeaconParser.parse ibeacon_packet 27 BeaconData.new = Except.ok (true, res)) ∧
    ((AltBeaconParser.canParse altbeacon_packet 28 = Except.ok true ∧
        radiusViewOfParseLength altbeacon_packet 28) ∧
      ∃ res, AltBeaconParser.parse altbeacon_packet 28 BeaconData.new = Except.ok (true, res)) ∧
    EddystoneParser.canParse eddystone_uid_packet 22 = Except.ok true :=
  ⟨⟨((C25_parse_only_where_canParse ibeacon_packet 27 BeaconData.new).1 ⟨_, rfl⟩).1 ⟨_, rfl⟩,
     ((C25_parse_only_where_canParse ibeacon_packet 27 BeaconData.new).1 ⟨_, rfl⟩).2
       ⟨rfl, 4, 24, rfl, by decide⟩⟩,
   ⟨((C25_parse_only_where_canParse altbeacon_packet 28 BeaconData.new).2.1 ⟨_, rfl⟩).1
       ⟨_, rfl⟩,
     ((C25_parse_only_where_canParse altbeacon_packet 28 BeaconData.new).2.1 ⟨_, rfl⟩).2
       ⟨rfl, 4, 25, rfl, by decide⟩⟩,
   (C25_parse_only_where_canParse eddystone_uid_packet 22 BeaconData.new).2.2 ⟨_, rfl⟩⟩

/-- C26 as amended: on every buffer whose first Eddystone record carries fewer than 3 bytes
after the type byte, `EddystoneParser::parse` returns false and only clears the validity flag,
while `EddystoneParser::canParse` returns true, because it only locates the record. -/
theorem C26_short_record_parse_fails (data : List Nat) (len sd sl : Nat) (result : BeaconData)
    (hf : EddystoneParser.findEddystoneServiceData data len = Except.ok (some (sd, sl)))
    (hsl : sl < 3) :
    EddystoneParser.parse data len result = Except.ok (false, { result with valid := false }) ∧
    EddystoneParser.canParse data len = Except.ok true := by
  constructor
  · simp only [EddystoneParser.parse, hf, run_bind_ok, if_pos hsl, run_pure]
  · simp only [EddystoneParser.canParse, hf, run_bind_ok, run_pure]

/-- C26 as amended, at the record `03 16 AA FE`. -/
theorem C26_short_record_parse_fails_witness :
    EddystoneParser.parse [0x03, 0x16, 0xAA, 0xFE] 4 BeaconData.new
      = Except.ok (false, { BeaconData.new with valid := false }) ∧
    EddystoneParser.canParse [0x03, 0x16, 0xAA, 0xFE] 4 = Except.ok true :=
  C26_short_record_parse_fails [0x03, 0x16, 0xAA, 0xFE] 4 2 2 BeaconData.new rfl (by decide)

/-- C27 as amended: on a buffer of at most 32 bytes at most one of `iBeaconParser::parse`,
`AltBeaconParser::parse` and `EddystoneParser::parse` returns true. -/
theorem C27_exclusive_up_to_32_bytes (data : List Nat) (len : Nat) (h32 : len ≤ 32)
    (d1 d2 : DecoderId) (h1 : parseSucceeds d1 data len) (h2 : parseSucceeds d2 data len) :
    d1 = d2 :=
  viewOfParseLength_unique data len h32 d1 d2 (parseSucceeds_view data len d1 h1)
    (parseSucceeds_view data len d2 h2)

/-- C27 as amended, at the iBeacon packet of the unit test: the AltBeacon decoder does not
succeed on it. -/
theorem C27_exclusive_up_to_32_bytes_witness :
    parseSucceeds DecoderId.ibeacon ibeacon_packet 27 ∧
    ¬ parseSucceeds DecoderId.altbeacon ibeacon_packet 27 ∧
    ¬ parseSucceeds DecoderId.eddystone ibeacon_packet 27 :=
  ⟨⟨BeaconData.new, _, rfl⟩,
   fun h => absurd (C27_exclusive_up_to_32_bytes ibeacon_packet 27 (by decide)
     DecoderId.ibeacon DecoderId.altbeacon ⟨BeaconData.new, _, rfl⟩ h) (by decide),
   fun h => absurd (C27_exclusive_up_to_32_bytes ibeacon_packet 27 (by decide)
     DecoderId.ibeacon DecoderId.eddystone ⟨BeaconData.new, _, rfl⟩ h) (by decide)⟩

/-- C28: on a buffer of at most 31 bytes at most one of the three `parse` functions returns
true, and where the decoders run to their return on results in the state of the one given
(its payload union holding its `String` or not), `BLEBeaconParser::parse` returns the same
flag and the same result with its three guarded calls in any order.  On results whose union
holds its `String` the decoders run to their return whenever the array object extends at
least one byte past `len`. -/
theorem C28_dispatch_order_irrelevant (data : List Nat) (len : Nat) (result : BeaconData)
    (h31 : len ≤ 31) :
    (∀ d1 d2, parseSucceeds d1 data len → parseSucceeds d2 data len → d1 = d2) ∧
    (decodersDefined data len result.holds_string →
      ∀ order : List DecoderId, order.Perm sourceOrder →
        parseInOrder order (some data) len result
          = BLEBeaconParser.parse (some data) len result) ∧
    (len < data.length → decodersDefined data len true) := by
  have h32 : len ≤ 32 := by omega
  have h256 : len < 256 := by omega
  refine ⟨fun d1 d2 h1 h2 => viewOfParseLength_unique data len h32 d1 d2
    (parseSucceeds_view data len d1 h1) (parseSucceeds_view data len d2 h2), ?_, ?_⟩
  swap
  · intro hlt d
    cases d with
    | ibeacon =>
      exact ⟨iBeacon_canParse_total data len hlt h256,
        fun r hr => iBeacon_parse_total data len r hlt h256 hr⟩
    | altbeacon =>
      exact ⟨AltBeacon_canParse_total data len hlt h256,
        fun r _ => AltBeacon_parse_total data len r hlt h256⟩
    | eddystone =>
      exact ⟨Eddystone_canParse_total data len hlt h256,
        fun r hr => Eddystone_parse_total data len r hlt h256 hr⟩
  intro hdef order hperm
  have hsrc : BLEBeaconParser.parse (some data) len result
      = parseInOrder sourceOrder (some data) len result := rfl
  rw [hsrc]
  unfold parseInOrder
  by_cases hl : len = 0
  · simp only [hl, if_true]
  · simp only [hl, if_false]
    exact tryDecoders_perm data len h32
      { result with type := BEACON_TYPE_UNKNOWN, valid := false } hdef rfl order hperm

/-- C28, at the iBeacon packet of the unit test, with the Eddystone decoder called first and
the iBeacon decoder last. -/
theorem C28_dispatch_order_irrelevant_witness :
    parseInOrder [DecoderId.eddystone, DecoderId.altbeacon, DecoderId.ibeacon]
        (some ibeacon_packet) 27 BeaconData.new
      = BLEBeaconParser.parse (some ibeacon_packet) 27 BeaconData.new :=
  (C28_dispatch_order_irrelevant ibeacon_packet 27 BeaconData.new (by decide)).2.1
    (fun d => by
      cases d <;> refine ⟨⟨_, rfl⟩, fun r hr => ?_⟩ <;> obtain ⟨a, b, c, d, e, f, g, h⟩ := r <;>
        cases hr <;> exact ⟨_, rfl⟩) _ (by decide)

/-! ## The sample packets of the generic example -/

/-- C31, evaluated where the code departs from it: the arrays `ibeacon_data` and
`eddystone_uid_data` are decoded as labelled, but `eddystone_url_data` (length byte 15, 13
bytes after it) and `altbeacon_data` (length byte 28, 27 bytes after it) hold a truncated
record and `BLEBeaconParser::parse` returns false with type unknown on them.  With the length
bytes `0x0D` and `0x1B` that fit the arrays the same bytes decode to the values the example
names.  The two readings that assign a `String` (iBeacon, Eddystone-URL) are returned when
the payload union of the result holds its `String`; the example passes one `BeaconData` to
all its calls, and after its Eddystone-UID decode the union does not. -/
theorem C31_example_packets :
    (ibeacon_data.length = 27 ∧ eddystone_uid_data.length = 22 ∧
      eddystone_url_data.length = 14 ∧ altbeacon_data.length = 28) ∧
    (∀ r : BeaconData, BLEBeaconParser.parse (some ibeacon_data) 27 r
      = if r.holds_string then
          Except.ok (true,
            { r with
              type := BEACON_TYPE_IBEACON
              valid := true
              ibeacon :=
                { uuid := "5F2DD896-B886-4549-AE01-E41ACD7A354A"
                  major := 1
                  minor := 2
                  tx_power := -59 } })
        else Except.error Fault.deadString) ∧
    (∀ r : BeaconData, BLEBeaconParser.parse (some eddystone_uid_data) 22 r
      = Except.ok (true,
          { r with
            type := BEACON_TYPE_EDDYSTONE_UID
            valid := true
            eddystone_uid :=
              { namespace_id := List.replicate 10 0
                instance_id := List.replicate 6 0
                tx_power := -18 }
            holds_string := false })) ∧
    (∀ r : BeaconData, BLEBeaconParser.parse (some eddystone_url_data) 14 r
      = Except.ok (false, { r with type := BEACON_TYPE_UNKNOWN, valid := false })) ∧
    (∀ r : BeaconData, BLEBeaconParser.parse (some altbeacon_data) 28 r
      = Except.ok (false, { r with type := BEACON_TYPE_UNKNOWN, valid := false })) ∧
    (∀ r : BeaconData, BLEBeaconParser.parse (some (0x0D :: eddystone_url_data.tail)) 14 r
      = if r.holds_string then
          Except.ok (true,
            { r with
              type := BEACON_TYPE_EDDYSTONE_URL
              valid := true
              eddystone_url := { url := "http://google.com", tx_power := -12 } })
        else Except.error Fault.deadString) ∧
    (∀ r : BeaconData, BLEBeaconParser.parse (some (0x1B :: altbeacon_data.tail)) 28 r
      = Except.ok (true,
          { r with
            type := BEACON_TYPE_ALTBEACON
            valid := true
            altbeacon :=
              { id := List.replicate 16 0
                major := 1
                minor := 2
                tx_power := -59
                mfg_reserved := 0 }
            holds_string := false })) :=
  ⟨⟨rfl, rfl, rfl, rfl⟩,
    fun r => by obtain ⟨a, b, c, d, e, f, g, h⟩ := r; cases h <;> rfl,
    fun _ => rfl, fun _ => rfl, fun _ => rfl,
    fun r => by obtain ⟨a, b, c, d, e, f, g, h⟩ := r; cases h <;> rfl,
    fun _ => rfl⟩

/-! ## The two end-of-buffer tests agree -/

/-- C32 as stated fails: there are no cursor, length byte and buffer length, in `0..255` or
beyond, on which the two end-of-buffer tests give different answers. -/
theorem C32_no_disagreement :
    ¬ ∃ pos ad_len len : Nat, pos < 256 ∧ ad_len < 256 ∧ len < 256 ∧
      manufacturerEndTest pos ad_len len ≠ eddystoneEndTest pos ad_len len := by
  rintro ⟨pos, ad_len, len, -, -, -, h⟩
  apply h
  unfold manufacturerEndTest eddystoneEndTest
  by_cases hc : pos + ad_len ≥ len
  · have : pos + 1 + ad_len > len := by omega
    simp [hc, this]
  · have : ¬ pos + 1 + ad_len > len := by omega
    simp [hc, this]

/-- C32 as amended: the two end-of-buffer tests give the same answer for every cursor, length
byte and buffer length, and the Eddystone scanner, which is written with the second test, is
the common scanning loop, which is written with the first. -/
theorem C32_end_tests_agree :
    (∀ pos ad_len len : Nat,
      manufacturerEndTest pos ad_len len = eddystoneEndTest pos ad_len len) ∧
    (∀ (data : List Nat) (len fuel pos : Nat),
      EddystoneParser.findEddystoneServiceDataLoop data len fuel pos
        = scanLoop data len 0x16 (fun lo hi => decide (lo = 0xAA ∧ hi = 0xFE))
            (fun p L => (p + 2, (L - 1) % 256)) fuel pos) := by
  refine ⟨?_, fun data len fuel pos => findEddystoneLoop_eq_scan data len fuel pos⟩
  intro pos ad_len len
  unfold manufacturerEndTest eddystoneEndTest
  by_cases hc : pos + ad_len ≥ len
  · have : pos + 1 + ad_len > len := by omega
    simp [hc, this]
  · have : ¬ pos + 1 + ad_len > len := by omega
    simp [hc, this]

/-! ## The common loop under a change of key test and output -/

theorem readByte_lt_256 {data : List Nat} {i b : Nat} (hbytes : ∀ x ∈ data, x < 256)
    (h : readByte data i = Except.ok b) : b < 256 :=
  hbytes b (List.getElem?_mem (readByte_ok_iff.1 h))

theorem run_map_ok {α β : Type} (g : α → β) (a : α) :
    (g <$> (Except.ok a : Run α)) = Except.ok (g a) := rfl

theorem run_map_error {α β : Type} (g : α → β) (e : Fault) :
    (g <$> (Except.error e : Run α)) = Except.error e := rfl

/-- Two instances of the common loop whose key tests agree on bytes and whose outputs differ
by the map `g` return results that differ by `g`. -/
theorem scanLoop_map (data : List Nat) (len ty : Nat) (key1 key2 : Nat → Nat → Bool)
    (out1 out2 : Nat → Nat → Nat × Nat) (g : Nat × Nat → Nat × Nat)
    (hbytes : ∀ b ∈ data, b < 256)
    (hkey : ∀ lo hi, lo < 256 → hi < 256 → key1 lo hi = key2 lo hi)
    (hout : ∀ p L, 2 ≤ L → L < 256 → out1 p L = g (out2 p L)) :
    ∀ (fuel pos : Nat), scanLoop data len ty key1 out1 fuel pos
      = (Option.map g) <$> scanLoop data len ty key2 out2 fuel pos := by
  intro fuel
  induction fuel with
  | zero =>
    intro pos
    simp only [scanLoop]
    split <;> rfl
  | succ f ih =>
    intro pos
    simp only [scanLoop]
    split
    · cases hr : readByte data pos with
      | error e => rfl
      | ok L =>
        have hL256 := readByte_lt_256 hbytes hr
        simp only [run_bind_ok]
        split
        · rfl
        · split
          · rfl
          · cases hr1 : readByte data (pos + 1) with
            | error e => rfl
            | ok t =>
              simp only [run_bind_ok]
              by_cases hty : t = ty
              · by_cases h2 : L ≥ 2
                · simp only [if_pos hty, if_pos h2]
                  cases hr2 : readByte data (pos + 2) with
                  | error e => rfl
                  | ok lo =>
                    simp only [run_bind_ok]
                    cases hr3 : readByte data (pos + 3) with
                    | error e => rfl
                    | ok hi =>
                      simp only [run_bind_ok]
                      rw [hkey lo hi (readByte_lt_256 hbytes hr2) (readByte_lt_256 hbytes hr3)]
                      cases hk : key2 lo hi with
                      | true =>
                        simp only [if_true, run_pure, run_bind_ok, run_map_ok, Option.map_some']
                        rw [hout pos L h2 hL256]
                      | false =>
                        simp only [Bool.false_eq_true, if_false, run_pure, run_bind_ok]
                        exact ih _
                · simp only [if_pos hty, if_neg h2, run_pure, run_bind_ok]
                  exact ih _
              · simp only [if_neg hty, run_pure, run_bind_ok]
                exact ih _
    · rfl

/-! ## The number of iterations of the common loop -/

/-- The common loop does not need more iterations than half the bytes that remain, rounded
up: with that much fuel or more its result does not depend on the fuel. -/
theorem scanLoop_fuel (data : List Nat) (len ty : Nat) (key : Nat → Nat → Bool)
    (out : Nat → Nat → Nat × Nat) (h256 : len < 256) :
    ∀ (f1 f2 pos : Nat), (len - pos + 1) / 2 ≤ f1 → (len - pos + 1) / 2 ≤ f2 →
      scanLoop data len ty key out f1 pos = scanLoop data len ty key out f2 pos := by
  intro f1
  induction f1 with
  | zero =>
    intro f2 pos h1 h2
    have hp : ¬ pos < len := by omega
    rw [scan_end data len ty key out 0 pos hp, scan_end data len ty key out f2 pos hp]
  | succ f ih =>
    intro f2 pos h1 h2
    by_cases hp : pos < len
    · obtain ⟨g2, rfl⟩ : ∃ g2, f2 = g2 + 1 := ⟨f2 - 1, by omega⟩
      simp only [scanLoop, if_pos hp]
      cases hr : readByte data pos with
      | error e => rfl
      | ok L =>
        simp only [run_bind_ok]
        split
        · rfl
        · rename_i hL
          split
          · rfl
          · rename_i hb
            have hmod : (pos + L + 1) % 256 = pos + L + 1 := Nat.mod_eq_of_lt (by omega)
            have hrec := ih g2 (pos + L + 1) (by omega) (by omega)
            rw [hmod, hrec]
    · rw [scan_end data len ty key out _ pos hp, scan_end data len ty key out f2 pos hp]

/-! ## The private scanners and the public ones -/

/-- C35: on a buffer of bytes, `findAppleManufacturerData` returns what `findManufacturerData`
returns for company ID `0x004C`, and `findRadiusManufacturerData` what it returns for
`0x0118`: the same found flag, output offset and output length, and the same fault when a read
leaves the array. -/
theorem C35_private_manufacturer_scanners (data : List Nat) (len : Nat)
    (hbytes : ∀ b ∈ data, b < 256) :
    iBeaconParser.findAppleManufacturerData data len
      = BLEBeaconParser.findManufacturerData data len 0x004C ∧
    AltBeaconParser.findRadiusManufacturerData data len
      = BLEBeaconParser.findManufacturerData data len 0x0118 := by
  constructor
  · rw [iBeaconParser.findAppleManufacturerData, BLEBeaconParser.findManufacturerData,
      findAppleLoop_eq_scan, findManufacturerLoop_eq_scan,
      scanLoop_map data len 0xFF _ (fun lo hi => decide ((hi <<< 8 ||| lo) % 65536 = 0x004C))
        _ (fun p L => (p + 4, (L - 2) % 256)) id hbytes]
    · cases scanLoop data len 0xFF (fun lo hi => decide ((hi <<< 8 ||| lo) % 65536 = 0x004C))
        (fun p L => (p + 4, (L - 2) % 256)) len 0 with
      | error e => rfl
      | ok o => cases o <;> rfl
    · intro lo hi hlo hhi
      have := key16_iff lo hi 0x004C hlo hhi
      simp only [Nat.reduceMod, Nat.reduceDiv] at this
      simp only [this]
    · intro p L _ _
      rfl
  · rw [AltBeaconParser.findRadiusManufacturerData, BLEBeaconParser.findManufacturerData,
      findRadiusLoop_eq_scan, findManufacturerLoop_eq_scan,
      scanLoop_map data len 0xFF _ (fun lo hi => decide ((hi <<< 8 ||| lo) % 65536 = 0x0118))
        _ (fun p L => (p + 4, (L - 2) % 256)) id hbytes]
    · cases scanLoop data len 0xFF (fun lo hi => decide ((hi <<< 8 ||| lo) % 65536 = 0x0118))
        (fun p L => (p + 4, (L - 2) % 256)) len 0 with
      | error e => rfl
      | ok o => cases o <;> rfl
    · intro lo hi hlo hhi
      have := key16_iff lo hi 0x0118 hlo hhi
      simp only [Nat.reduceMod, Nat.reduceDiv] at this
      simp only [this]
    · intro p L _ _
      rfl

/-- C35, at the iBeacon and the AltBeacon packet of the unit tests. -/
theorem C35_private_manufacturer_scanners_witness :
    (iBeaconParser.findAppleManufacturerData ibeacon_packet 27
        = BLEBeaconParser.findManufacturerData ibeacon_packet 27 0x004C ∧
      AltBeaconParser.findRadiusManufacturerData ibeacon_packet 27
        = BLEBeaconParser.findManufacturerData ibeacon_packet 27 0x0118) ∧
    BLEBeaconParser.findManufacturerData ibeacon_packet 27 0x004C = Except.ok (some (4, 24)) ∧
    (iBeaconParser.findAppleManufacturerData altbeacon_packet 28
        = BLEBeaconParser.findManufacturerData altbeacon_packet 28 0x004C ∧
      AltBeaconParser.findRadiusManufacturerData altbeacon_packet 28
        = BLEBeaconParser.findManufacturerData altbeacon_packet 28 0x0118) ∧
    BLEBeaconParser.findManufacturerData altbeacon_packet 28 0x0118 = Except.ok (some (4, 25)) :=
  ⟨C35_private_manufacturer_scanners ibeacon_packet 27 (by decide), rfl,
    C35_private_manufacturer_scanners altbeacon_packet 28 (by decide), rfl⟩

/-- C36: on a buffer of bytes, `findServiceData` for the UUID `0xFEAA` returns what
`findEddystoneServiceData` returns with the output length increased by one: the same found
flag, the same output offset, and the same fault when a read leaves the array. -/
theorem C36_public_and_private_service_scanner (data : List Nat) (len : Nat)
    (hbytes : ∀ b ∈ data, b < 256) :
    BLEBeaconParser.findServiceData data len 0xFEAA
      = (Option.map (fun v : Nat × Nat => (v.1, v.2 + 1))) <$>
          EddystoneParser.findEddystoneServiceData data len := by
  rw [BLEBeaconParser.findServiceData, EddystoneParser.findEddystoneServiceData,
    findServiceLoop_eq_scan, findEddystoneLoop_eq_scan]
  apply scanLoop_map data len 0x16 _ _ _ _ _ hbytes
  · intro lo hi hlo hhi
    have := key16_iff lo hi 0xFEAA hlo hhi
    simp only [Nat.reduceMod, Nat.reduceDiv] at this
    simp only [this]
  · intro p L h2 h256
    have : (L - 1) % 256 + 1 = L := by omega
    simp only [this]

/-- C36, at the Eddystone-UID packet of the unit test (length byte 21): the private scanner
returns a view of 20 bytes, the public one a view of 21 bytes at the same offset. -/
theorem C36_public_and_private_service_scanner_witness :
    BLEBeaconParser.findServiceData eddystone_uid_packet 22 0xFEAA
      = (Option.map (fun v : Nat × Nat => (v.1, v.2 + 1))) <$>
          EddystoneParser.findEddystoneServiceData eddystone_uid_packet 22 ∧
    EddystoneParser.findEddystoneServiceData eddystone_uid_packet 22
      = Except.ok (some (2, 20)) ∧
    BLEBeaconParser.findServiceData eddystone_uid_packet 22 0xFEAA
      = Except.ok (some (2, 21)) :=
  ⟨C36_public_and_private_service_scanner eddystone_uid_packet 22 (by decide), rfl, rfl⟩

/-! ## Every run ends -/

theorem terminates_ok {α : Type} (a : α) : terminates (Except.ok a : Run α) := by
  intro h; cases h

theorem terminates_pure {α : Type} (a : α) : terminates (pure a : Run α) := by
  intro h; cases h

theorem terminates_bind {α β : Type} {x : Run α} {f : α → Run β} (hx : terminates x)
    (hf : ∀ a, terminates (f a)) : terminates (x >>= f) := by
  cases x with
  | error e =>
    intro h
    rw [run_bind_error] at h
    cases h
    exact hx rfl
  | ok a => exact hf a

theorem terminates_readByte (data : List Nat) (i : Nat) : terminates (readByte data i) := by
  unfold readByte
  split
  · exact terminates_ok _
  · intro h; cases h

theorem terminates_readBytes (data : List Nat) : ∀ (n off : Nat),
    terminates (readBytes data off n) := by
  intro n
  induction n with
  | zero => intro off; exact terminates_pure _
  | succ k ih =>
    intro off
    unfold readBytes
    refine terminates_bind (terminates_readByte _ _) (fun b => ?_)
    refine terminates_bind (ih _) (fun rest => ?_)
    exact terminates_pure _

theorem terminates_uuidToStringLoop (data : List Nat) (off : Nat) : ∀ (n i : Nat) (acc : String),
    terminates (iBeaconParser.uuidToStringLoop data off n i acc) := by
  intro n
  induction n with
  | zero => intro i acc; exact terminates_pure _
  | succ k ih =>
    intro i acc
    unfold iBeaconParser.uuidToStringLoop
    exact terminates_bind (terminates_readByte _ _) (fun b => ih _ _)

theorem terminates_parseURLLoop (data : List Nat) (fd : Nat) : ∀ (n i : Nat) (url : String),
    terminates (EddystoneParser.parseURLLoop data fd n i url) := by
  intro n
  induction n with
  | zero => intro i url; exact terminates_pure _
  | succ k ih =>
    intro i url
    unfold EddystoneParser.parseURLLoop
    exact terminates_bind (terminates_readByte _ _) (fun b => ih _ _)

/-- With fuel for half the remaining bytes, rounded up, the common loop does not run out of
fuel. -/
theorem scanLoop_terminates (data : List Nat) (len ty : Nat) (key : Nat → Nat → Bool)
    (out : Nat → Nat → Nat × Nat) (h256 : len < 256) :
    ∀ (fuel pos : Nat), (len - pos + 1) / 2 ≤ fuel →
      terminates (scanLoop data len ty key out fuel pos) := by
  intro fuel
  induction fuel with
  | zero =>
    intro pos h
    have hp : ¬ pos < len := by omega
    rw [scan_end data len ty key out 0 pos hp]
    exact terminates_ok _
  | succ f ih =>
    intro pos h
    by_cases hp : pos < len
    · simp only [scanLoop, if_pos hp]
      refine terminates_bind (terminates_readByte _ _) (fun L => ?_)
      split
      · exact terminates_pure _
      · rename_i hL
        split
        · exact terminates_pure _
        · rename_i hb
          refine terminates_bind (terminates_readByte _ _) (fun t => ?_)
          refine terminates_bind ?_ (fun hit => ?_)
          · split
            · split
              · refine terminates_bind (terminates_readByte _ _) (fun lo => ?_)
                refine terminates_bind (terminates_readByte _ _) (fun hi => ?_)
                split
                · exact terminates_pure _
                · exact terminates_pure _
              · exact terminates_pure _
            · exact terminates_pure _
          · cases hit with
            | some found => exact terminates_pure _
            | none =>
              have hmod : (pos + L + 1) % 256 = pos + L + 1 := Nat.mod_eq_of_lt (by omega)
              simp only [hmod]
              exact ih _ (by omega)
    · rw [scan_end data len ty key out _ pos hp]
      exact terminates_ok _

/-- The loop of `findADType` does not need more iterations than half the bytes that remain,
rounded up: with that much fuel or more its result does not depend on the fuel. -/
theorem findADTypeLoop_fuel (data : List Nat) (len ad_type : Nat) (h256 : len < 256) :
    ∀ (f1 f2 pos : Nat), (len - pos + 1) / 2 ≤ f1 → (len - pos + 1) / 2 ≤ f2 →
      BLEBeaconParser.findADTypeLoop data len ad_type f1 pos
        = BLEBeaconParser.findADTypeLoop data len ad_type f2 pos := by
  intro f1
  induction f1 with
  | zero =>
    intro f2 pos h1 h2
    have hp : ¬ pos < len := by omega
    cases f2 <;> simp [BLEBeaconParser.findADTypeLoop, hp]
  | succ f ih =>
    intro f2 pos h1 h2
    by_cases hp : pos < len
    · obtain ⟨g2, rfl⟩ : ∃ g2, f2 = g2 + 1 := ⟨f2 - 1, by omega⟩
      simp only [BLEBeaconParser.findADTypeLoop, if_pos hp]
      cases hr : readByte data pos with
      | error e => rfl
      | ok L =>
        simp only [run_bind_ok]
        split
        · rfl
        · rename_i hL
          split
          · rfl
          · rename_i hb
            have hmod : (pos + L + 1) % 256 = pos + L + 1 := Nat.mod_eq_of_lt (by omega)
            have hrec := ih g2 (pos + L + 1) (by omega) (by omega)
            rw [hmod, hrec]
    · cases f2 <;> simp [BLEBeaconParser.findADTypeLoop, hp]

theorem findADTypeLoop_terminates (data : List Nat) (len ad_type : Nat) (h256 : len < 256) :
    ∀ (fuel pos : Nat), (len - pos + 1) / 2 ≤ fuel →
      terminates (BLEBeaconParser.findADTypeLoop data len ad_type fuel pos) := by
  intro fuel
  induction fuel with
  | zero =>
    intro pos h
    have hp : ¬ pos < len := by omega
    simp only [BLEBeaconParser.findADTypeLoop, if_neg hp]
    exact terminates_pure _
  | succ f ih =>
    intro pos h
    by_cases hp : pos < len
    · simp only [BLEBeaconParser.findADTypeLoop, if_pos hp]
      refine terminates_bind (terminates_readByte _ _) (fun L => ?_)
      split
      · exact terminates_pure _
      · rename_i hL
        split
        · exact terminates_pure _
        · rename_i hb
          refine terminates_bind (terminates_readByte _ _) (fun t => ?_)
          split
          · exact terminates_pure _
          · have hmod : (pos + L + 1) % 256 = pos + L + 1 := Nat.mod_eq_of_lt (by omega)
            rw [hmod]
            exact ih _ (by omega)
    · simp only [BLEBeaconParser.findADTypeLoop, if_neg hp]
      exact terminates_pure _

theorem half_le (len : Nat) : (len - 0 + 1) / 2 ≤ len := by omega

theorem terminates_findApple (data : List Nat) (len : Nat) (h256 : len < 256) :
    terminates (iBeaconParser.findAppleManufacturerData data len) := by
  rw [iBeaconParser.findAppleManufacturerData, findAppleLoop_eq_scan]
  exact scanLoop_terminates data len _ _ _ h256 len 0 (half_le len)

theorem terminates_findRadius (data : List Nat) (len : Nat) (h256 : len < 256) :
    terminates (AltBeaconParser.findRadiusManufacturerData data len) := by
  rw [AltBeaconParser.findRadiusManufacturerData, findRadiusLoop_eq_scan]
  exact scanLoop_terminates data len _ _ _ h256 len 0 (half_le len)

theorem terminates_findEddystone (data : List Nat) (len : Nat) (h256 : len < 256) :
    terminates (EddystoneParser.findEddystoneServiceData data len) := by
  rw [EddystoneParser.findEddystoneServiceData, findEddystoneLoop_eq_scan]
  exact scanLoop_terminates data len _ _ _ h256 len 0 (half_le len)

theorem terminates_findManufacturer (data : List Nat) (len cid : Nat) (h256 : len < 256) :
    terminates (BLEBeaconParser.findManufacturerData data len cid) := by
  rw [BLEBeaconParser.findManufacturerData, findManufacturerLoop_eq_scan]
  exact scanLoop_terminates data len _ _ _ h256 len 0 (half_le len)

theorem terminates_findService (data : List Nat) (len uuid : Nat) (h256 : len < 256) :
    terminates (BLEBeaconParser.findServiceData data len uuid) := by
  rw [BLEBeaconParser.findServiceData, findServiceLoop_eq_scan]
  exact scanLoop_terminates data len _ _ _ h256 len 0 (half_le len)

theorem terminates_findADType (data : List Nat) (len ad_type : Nat) (h256 : len < 256) :
    terminates (BLEBeaconParser.findADType data len ad_type) :=
  findADTypeLoop_terminates data len ad_type h256 len 0 (half_le len)

theorem terminates_iBeacon_canParse (data : List Nat) (len : Nat) (h256 : len < 256) :
    terminates (iBeaconParser.canParse data len) := by
  unfold iBeaconParser.canParse
  refine terminates_bind (terminates_findApple data len h256) (fun o => ?_)
  rcases o with _ | ⟨m, ml⟩
  · exact terminates_pure _
  · simp only []
    split
    · exact terminates_pure _
    · refine terminates_bind (terminates_readByte _ _) (fun b0 => ?_)
      split
      · exact terminates_bind (terminates_readByte _ _) (fun b1 => terminates_pure _)
      · exact terminates_pure _

theorem terminates_AltBeacon_canParse (data : List Nat) (len : Nat) (h256 : len < 256) :
    terminates (AltBeaconParser.canParse data len) := by
  unfold AltBeaconParser.canParse
  refine terminates_bind (terminates_findRadius data len h256) (fun o => ?_)
  rcases o with _ | ⟨m, ml⟩
  · exact terminates_pure _
  · simp only []
    split
    · exact terminates_pure _
    · refine terminates_bind (terminates_readByte _ _) (fun b0 => ?_)
      split
      · exact terminates_bind (terminates_readByte _ _) (fun b1 => terminates_pure _)
      · exact terminates_pure _

theorem terminates_Eddystone_canParse (data : List Nat) (len : Nat) (h256 : len < 256) :
    terminates (EddystoneParser.canParse data len) := by
  unfold EddystoneParser.canParse
  refine terminates_bind (terminates_findEddystone data len h256) (fun o => ?_)
  rcases o with _ | ⟨m, ml⟩
  · exact terminates_pure _
  · exact terminates_pure _

theorem terminates_assignString (r : BeaconData) : terminates (assignString r) := by
  unfold assignString terminates
  split
  · intro h; cases h
  · intro h; cases h

theorem terminates_iBeacon_parse (data : List Nat) (len : Nat) (r : BeaconData)
    (h256 : len < 256) : terminates (iBeaconParser.parse data len r) := by
  unfold iBeaconParser.parse
  refine terminates_bind (terminates_findApple data len h256) (fun o => ?_)
  rcases o with _ | ⟨m, ml⟩
  · exact terminates_pure _
  · simp only []
    split
    · exact terminates_pure _
    · refine terminates_bind (terminates_readByte _ _) (fun b0 => ?_)
      split
      · exact terminates_pure _
      · refine terminates_bind (terminates_readByte _ _) (fun b1 => ?_)
        split
        · exact terminates_pure _
        · refine terminates_bind (terminates_uuidToStringLoop _ _ _ _ _) (fun u => ?_)
          refine terminates_bind (terminates_assignString _) (fun _ => ?_)
          refine terminates_bind (terminates_readByte _ _) (fun m18 => ?_)
          refine terminates_bind (terminates_readByte _ _) (fun m19 => ?_)
          refine terminates_bind (terminates_readByte _ _) (fun m20 => ?_)
          refine terminates_bind (terminates_readByte _ _) (fun m21 => ?_)
          refine terminates_bind (terminates_readByte _ _) (fun m22 => ?_)
          exact terminates_pure _

theorem terminates_AltBeacon_parse (data : List Nat) (len : Nat) (r : BeaconData)
    (h256 : len < 256) : terminates (AltBeaconParser.parse data len r) := by
  unfold AltBeaconParser.parse
  refine terminates_bind (terminates_findRadius data len h256) (fun o => ?_)
  rcases o with _ | ⟨m, ml⟩
  · exact terminates_pure _
  · simp only []
    split
    · exact terminates_pure _
    · refine terminates_bind (terminates_readByte _ _) (fun b0 => ?_)
      split
      · exact terminates_pure _
      · refine terminates_bind (terminates_readByte _ _) (fun b1 => ?_)
        split
        · exact terminates_pure _
        · refine terminates_bind (terminates_readBytes _ _ _) (fun u => ?_)
          refine terminates_bind (terminates_readByte _ _) (fun m18 => ?_)
          refine terminates_bind (terminates_readByte _ _) (fun m19 => ?_)
          refine terminates_bind (terminates_readByte _ _) (fun m20 => ?_)
          refine terminates_bind (terminates_readByte _ _) (fun m21 => ?_)
          refine terminates_bind (terminates_readByte _ _) (fun m22 => ?_)
          refine terminates_bind (terminates_readByte _ _) (fun m23 => ?_)
          exact terminates_pure _

theorem terminates_parseUID (data : List Nat) (fd fl : Nat) (r : BeaconData) :
    terminates (EddystoneParser.parseUID data fd fl r) := by
  unfold EddystoneParser.parseUID
  split
  · exact terminates_pure _
  · refine terminates_bind (terminates_readByte _ _) (fun f0 => ?_)
    refine terminates_bind (terminates_readBytes _ _ _) (fun ns => ?_)
    refine terminates_bind (terminates_readBytes _ _ _) (fun ins => ?_)
    exact terminates_pure _

theorem terminates_parseURL (data : List Nat) (fd fl : Nat) (r : BeaconData) :
    terminates (EddystoneParser.parseURL data fd fl r) := by
  unfold EddystoneParser.parseURL
  split
  · exact terminates_pure _
  · refine terminates_bind (terminates_readByte _ _) (fun f0 => ?_)
    refine terminates_bind (terminates_readByte _ _) (fun f1 => ?_)
    show terminates (if (EddystoneParser.decodeURLScheme f1).length = 0 then _ else _)
    split
    · exact terminates_pure _
    · refine terminates_bind (terminates_parseURLLoop _ _ _ _ _) (fun u => ?_)
      refine terminates_bind (terminates_assignString _) (fun _ => ?_)
      exact terminates_pure _

theorem terminates_parseTLM (data : List Nat) (fd fl : Nat) (r : BeaconData) :
    terminates (EddystoneParser.parseTLM data fd fl r) := by
  unfold EddystoneParser.parseTLM
  split
  · exact terminates_pure _
  · refine terminates_bind (terminates_readByte _ _) (fun v => ?_)
    split
    · exact terminates_pure _
    · refine terminates_bind (terminates_readByte _ _) (fun f1 => ?_)
      refine terminates_bind (terminates_readByte _ _) (fun f2 => ?_)
      refine terminates_bind (terminates_readByte _ _) (fun f3 => ?_)
      refine terminates_bind (terminates_readByte _ _) (fun f4 => ?_)
      refine terminates_bind (terminates_readByte _ _) (fun f5 => ?_)
      refine terminates_bind (terminates_readByte _ _) (fun f6 => ?_)
      refine terminates_bind (terminates_readByte _ _) (fun f7 => ?_)
      refine terminates_bind (terminates_readByte _ _) (fun f8 => ?_)
      refine terminates_bind (terminates_readByte _ _) (fun f9 => ?_)
      refine terminates_bind (terminates_readByte _ _) (fun f10 => ?_)
      refine terminates_bind (terminates_readByte _ _) (fun f11 => ?_)
      refine terminates_bind (terminates_readByte _ _) (fun f12 => ?_)
      exact terminates_pure _

theorem terminates_Eddystone_parse (data : List Nat) (len : Nat) (r : BeaconData)
    (h256 : len < 256) : terminates (EddystoneParser.parse data len r) := by
  unfold EddystoneParser.parse
  refine terminates_bind (terminates_findEddystone data len h256) (fun o => ?_)
  rcases o with _ | ⟨sd, sl⟩
  · exact terminates_pure _
  · simp only []
    split
    · exact terminates_pure _
    · refine terminates_bind (terminates_readByte _ _) (fun ft => ?_)
      split
      · exact terminates_parseUID _ _ _ _
      · split
        · exact terminates_parseURL _ _ _ _
        · split
          · exact terminates_parseTLM _ _ _ _
          · exact terminates_pure _

theorem terminates_guarded (c : Bool) (p : Run (Bool × BeaconData)) (r : BeaconData)
    (hp : terminates p) :
    terminates (if c then p else pure (false, r) : Run (Bool × BeaconData)) := by
  cases c
  · exact terminates_pure _
  · exact hp

theorem terminates_parse (data : Option (List Nat)) (len : Nat) (r : BeaconData)
    (h256 : len < 256) : terminates (BLEBeaconParser.parse data len r) := by
  unfold BLEBeaconParser.parse
  cases data with
  | none => exact terminates_pure _
  | some data =>
    simp only []
    split
    · exact terminates_pure _
    · refine terminates_bind (terminates_iBeacon_canParse data len h256) (fun c1 => ?_)
      refine terminates_bind
        (terminates_guarded c1 _ _ (terminates_iBeacon_parse data len _ h256)) (fun p1 => ?_)
      obtain ⟨r1, result1⟩ := p1
      simp only []
      split
      · exact terminates_pure _
      · refine terminates_bind (terminates_AltBeacon_canParse data len h256) (fun c2 => ?_)
        refine terminates_bind
          (terminates_guarded c2 _ _ (terminates_AltBeacon_parse data len _ h256)) (fun p2 => ?_)
        obtain ⟨r2, result2⟩ := p2
        simp only []
        split
        · exact terminates_pure _
        · refine terminates_bind (terminates_Eddystone_canParse data len h256) (fun c3 => ?_)
          refine terminates_bind
            (terminates_guarded c3 _ _ (terminates_Eddystone_parse data len _ h256))
            (fun p3 => ?_)
          obtain ⟨r3, result3⟩ := p3
          simp only []
          split
          · exact terminates_pure _
          · exact terminates_pure _

/-- C33: the loop of every scanner ends, and it ends within `ceil(len / 2)` iterations: run
with fuel for that many iterations or more, each loop returns what the scanner returns.  The
dispatcher, which calls at most six scans, ends as well. -/
theorem C33_scans_terminate (data : List Nat) (len company_id service_uuid ad_type : Nat)
    (h256 : len < 256) :
    (∀ fuel, (len + 1) / 2 ≤ fuel →
      BLEBeaconParser.findManufacturerDataLoop data len company_id fuel 0
        = BLEBeaconParser.findManufacturerData data len company_id ∧
      BLEBeaconParser.findServiceDataLoop data len service_uuid fuel 0
        = BLEBeaconParser.findServiceData data len service_uuid ∧
      BLEBeaconParser.findADTypeLoop data len ad_type fuel 0
        = BLEBeaconParser.findADType data len ad_type ∧
      iBeaconParser.findAppleManufacturerDataLoop data len fuel 0
        = iBeaconParser.findAppleManufacturerData data len ∧
      AltBeaconParser.findRadiusManufacturerDataLoop data len fuel 0
        = AltBeaconParser.findRadiusManufacturerData data len ∧
      EddystoneParser.findEddystoneServiceDataLoop data len fuel 0
        = EddystoneParser.findEddystoneServiceData data len) ∧
    (terminates (BLEBeaconParser.findManufacturerData data len company_id) ∧
      terminates (BLEBeaconParser.findServiceData data len service_uuid) ∧
      terminates (BLEBeaconParser.findADType data len ad_type) ∧
      terminates (iBeaconParser.findAppleManufacturerData data len) ∧
      terminates (AltBeaconParser.findRadiusManufacturerData data len) ∧
      terminates (EddystoneParser.findEddystoneServiceData data len)) ∧
    (∀ result, terminates (BLEBeaconParser.parse (some data) len result)) := by
  refine ⟨?_, ⟨terminates_findManufacturer data len _ h256, terminates_findService data len _ h256,
    terminates_findADType data len _ h256, terminates_findApple data len h256,
    terminates_findRadius data len h256, terminates_findEddystone data len h256⟩,
    fun result => terminates_parse (some data) len result h256⟩
  intro fuel hf
  have h1 : (len - 0 + 1) / 2 ≤ fuel := by omega
  have h2 := half_le len
  refine ⟨?_, ?_, ?_, ?_, ?_, ?_⟩
  · rw [BLEBeaconParser.findManufacturerData, findManufacturerLoop_eq_scan,
      findManufacturerLoop_eq_scan]
    exact scanLoop_fuel data len _ _ _ h256 fuel len 0 h1 h2
  · rw [BLEBeaconParser.findServiceData, findServiceLoop_eq_scan, findServiceLoop_eq_scan]
    exact scanLoop_fuel data len _ _ _ h256 fuel len 0 h1 h2
  · exact findADTypeLoop_fuel data len ad_type h256 fuel len 0 h1 h2
  · rw [iBeaconParser.findAppleManufacturerData, findAppleLoop_eq_scan, findAppleLoop_eq_scan]
    exact scanLoop_fuel data len _ _ _ h256 fuel len 0 h1 h2
  · rw [AltBeaconParser.findRadiusManufacturerData, findRadiusLoop_eq_scan,
      findRadiusLoop_eq_scan]
    exact scanLoop_fuel data len _ _ _ h256 fuel len 0 h1 h2
  · rw [EddystoneParser.findEddystoneServiceData, findEddystoneLoop_eq_scan,
      findEddystoneLoop_eq_scan]
    exact scanLoop_fuel data len _ _ _ h256 fuel len 0 h1 h2

/-- C33, at a buffer of three records of two bytes each: three iterations, which is
`ceil(6 / 2)`, are enough, two are not; and at the iBeacon packet of the unit test. -/
theorem C33_scans_terminate_witness :
    BLEBeaconParser.findADTypeLoop [0x01, 0x01, 0x01, 0x01, 0x01, 0x01] 6 0xFF 3 0
      = BLEBeaconParser.findADType [0x01, 0x01, 0x01, 0x01, 0x01, 0x01] 6 0xFF ∧
    BLEBeaconParser.findADTypeLoop [0x01, 0x01, 0x01, 0x01, 0x01, 0x01] 6 0xFF 2 0
      = Except.error Fault.outOfFuel ∧
    iBeaconParser.findAppleManufacturerDataLoop ibeacon_packet 27 14 0
      = iBeaconParser.findAppleManufacturerData ibeacon_packet 27 ∧
    terminates (BLEBeaconParser.parse (some ibeacon_packet) 27 BeaconData.new) :=
  ⟨((C33_scans_terminate [0x01, 0x01, 0x01, 0x01, 0x01, 0x01] 6 0x004C 0xFEAA 0xFF
      (by decide)).1 3 (by decide)).2.2.1,
   rfl,
   ((C33_scans_terminate ibeacon_packet 27 0x004C 0xFEAA 0xFF (by decide)).1 14
      (by decide)).2.2.2.1,
   (C33_scans_terminate ibeacon_packet 27 0x004C 0xFEAA 0xFF (by decide)).2.2 BeaconData.new⟩

/-! ## The `canParse` test before each `parse` of the dispatcher -/

/-- C34: for each decoder, a `parse` that returns true is on a buffer on which `canParse`
returns true, so the guarded call of the dispatcher returns what `parse` returns. -/
theorem C34_canParse_necessary (data : List Nat) (len : Nat) (r res : BeaconData) :
    (iBeaconParser.parse data len r = Except.ok (true, res) →
      iBeaconParser.canParse data len = Except.ok true) ∧
    (AltBeaconParser.parse data len r = Except.ok (true, res) →
      AltBeaconParser.canParse data len = Except.ok true) ∧
    (EddystoneParser.parse data len r = Except.ok (true, res) →
      EddystoneParser.canParse data len = Except.ok true) ∧
    (∀ d : DecoderId, d.parse data len r = Except.ok (true, res) →
      guardedOutcome data len d r true res) := by
  refine ⟨iBeacon_canParse_of_parse data len r res, AltBeacon_canParse_of_parse data len r res,
    Eddystone_canParse_of_parse data len r res, ?_⟩
  intro d h
  cases d with
  | ibeacon => exact ⟨true, iBeacon_canParse_of_parse data len r res h, h⟩
  | altbeacon => exact ⟨true, AltBeacon_canParse_of_parse data len r res h, h⟩
  | eddystone => exact ⟨true, Eddystone_canParse_of_parse data len r res h, h⟩

/-- C34, at the Eddystone-URL packet of the unit test. -/
theorem C34_canParse_necessary_witness :
    EddystoneParser.canParse eddystone_url_packet 15 = Except.ok true ∧
    guardedOutcome eddystone_url_packet 15 DecoderId.eddystone BeaconData.new true
      { BeaconData.new with
        type := BEACON_TYPE_EDDYSTONE_URL
        valid := true
        eddystone_url := { url := "http://www.example.com/", tx_power := -16 } } :=
  ⟨(C34_canParse_necessary eddystone_url_packet 15 BeaconData.new
      { BeaconData.new with
        type := BEACON_TYPE_EDDYSTONE_URL
        valid := true
        eddystone_url := { url := "http://www.example.com/", tx_power := -16 } }).2.2.1 rfl,
   (C34_canParse_necessary eddystone_url_packet 15 BeaconData.new
      { BeaconData.new with
        type := BEACON_TYPE_EDDYSTONE_URL
        valid := true
        eddystone_url := { url := "http://www.example.com/", tx_power := -16 } }).2.2.2
      DecoderId.eddystone rfl⟩

/-! ## The first record with the key decides -/

theorem upperHexDigits_getD_inj (n m : Nat) (hn : n < 16) (hm : m < 16)
    (h : upperHexDigits.getD n '?' = upperHexDigits.getD m '?') : n = m := by
  interval_cases n <;> interval_cases m <;> first | rfl | exact absurd h (by decide)

theorem hexPair_inj (a b : Nat) (ha : a < 256) (hb : b < 256) (h : hexPair a = hexPair b) :
    a = b := by
  unfold hexPair at h
  simp only [List.cons.injEq, and_true] at h
  have h1 := upperHexDigits_getD_inj (a / 16) (b / 16) (by omega) (by omega) h.1
  have h2 := upperHexDigits_getD_inj (a % 16) (b % 16) (by omega) (by omega) h.2
  omega

theorem flatMap_hexPair_inj : ∀ (u v : List Nat), u.length = v.length →
    (∀ b ∈ u, b < 256) → (∀ b ∈ v, b < 256) →
    u.flatMap hexPair = v.flatMap hexPair → u = v := by
  intro u
  induction u with
  | nil =>
    intro v hl _ _ _
    cases v with
    | nil => rfl
    | cons b bs => simp at hl
  | cons a as ih =>
    intro v hl hu hv h
    cases v with
    | nil => simp at hl
    | cons b bs =>
      simp only [List.flatMap_cons] at h
      have hlen : (hexPair a).length = (hexPair b).length := rfl
      obtain ⟨h1, h2⟩ := List.append_inj h hlen
      have hab := hexPair_inj a b (hu a (by simp)) (hv b (by simp)) h1
      have hrest := ih bs (by simpa using hl) (fun x hx => hu x (by simp [hx]))
        (fun x hx => hv x (by simp [hx])) h2
      rw [hab, hrest]

/-- C39: two arrays of sixteen bytes that `uuidToString` renders as the same string are the
same array. -/
theorem C39_uuidToString_injective (u v : List Nat) (hu : u.length = 16) (hv : v.length = 16)
    (hbu : ∀ b ∈ u, b < 256) (hbv : ∀ b ∈ v, b < 256)
    (h : iBeaconParser.uuidToString u 0 = iBeaconParser.uuidToString v 0) : u = v := by
  rw [uuidToString_eq u u 0 hu hbu (fun j _ => by simp),
    uuidToString_eq v v 0 hv hbv (fun j _ => by simp)] at h
  have hd : dashedHex u = dashedHex v := Except.ok.inj h
  rw [← uuidChars_eq_dashedHex u hu hbu, ← uuidChars_eq_dashedHex v hv hbv] at hd
  have hc : uuidChars 0 u = uuidChars 0 v := by
    have := congrArg String.data hd
    simpa using this
  have hf := congrArg (List.filter (fun c => decide (c ≠ '-'))) hc
  rw [filter_uuidChars u 0 hbu, filter_uuidChars v 0 hbv] at hf
  exact flatMap_hexPair_inj u v (by rw [hu, hv]) hbu hbv hf

/-- C39, at the UUID of the unit tests: an array rendered as the same string is that UUID. -/
theorem C39_uuidToString_injective_witness :
    ([0x5F, 0x2D, 0xD8, 0x96, 0xB8, 0x86, 0x45, 0x49, 0xAE, 0x01, 0xE4, 0x1A, 0xCD, 0x7A,
      0x35, 0x4A] : List Nat)
      = (ibeacon_packet.drop 6).take 16 :=
  C39_uuidToString_injective _ _ rfl rfl (by decide) (by decide) rfl

/-! ## The reads of the Eddystone decoder -/

/-- A read below `n` does not see that the buffer is cut after `n` bytes. -/
theorem readByte_take (data : List Nat) (n i : Nat) (h : i < n) :
    readByte (data.take n) i = readByte data i := by
  unfold readByte
  rw [List.getElem?_take_of_lt h]

theorem readBytes_take (data : List Nat) (n : Nat) : ∀ (k off : Nat), off + k ≤ n →
    readBytes (data.take n) off k = readBytes data off k := by
  intro k
  induction k with
  | zero => intro off _; rfl
  | succ j ih =>
    intro off h
    unfold readBytes
    rw [readByte_take data n off (by omega), ih (off + 1) (by omega)]

theorem parseURLLoop_take (data : List Nat) (n fd : Nat) : ∀ (k i : Nat) (url : String),
    fd + i + k ≤ n →
    EddystoneParser.parseURLLoop (data.take n) fd k i url
      = EddystoneParser.parseURLLoop data fd k i url := by
  intro k
  induction k with
  | zero => intro i url _; rfl
  | succ j ih =>
    intro i url h
    unfold EddystoneParser.parseURLLoop
    rw [readByte_take data n (fd + i) (by omega)]
    cases readByte data (fd + i) with
    | error e => rfl
    | ok b =>
      simp only [run_bind_ok]
      exact ih (i + 1) _ (by omega)

theorem parseUID_take (data : List Nat) (n fd fl : Nat) (r : BeaconData) (h : fd + fl ≤ n) :
    EddystoneParser.parseUID (data.take n) fd fl r = EddystoneParser.parseUID data fd fl r := by
  unfold EddystoneParser.parseUID
  by_cases hl : fl < 17
  · rw [if_pos hl, if_pos hl]
  · rw [if_neg hl, if_neg hl, readByte_take data n fd (by omega),
      readBytes_take data n 10 (fd + 1) (by omega), readBytes_take data n 6 (fd + 11) (by omega)]

theorem parseURL_take (data : List Nat) (n fd fl : Nat) (r : BeaconData) (h : fd + fl ≤ n) :
    EddystoneParser.parseURL (data.take n) fd fl r = EddystoneParser.parseURL data fd fl r := by
  unfold EddystoneParser.parseURL
  by_cases hl : fl < 2
  · rw [if_pos hl, if_pos hl]
  · rw [if_neg hl, if_neg hl, readByte_take data n fd (by omega),
      readByte_take data n (fd + 1) (by omega)]
    simp only [parseURLLoop_take data n fd (fl - 2) 2 _ (by omega)]

theorem parseTLM_take (data : List Nat) (n fd fl : Nat) (r : BeaconData) (h : fd + fl ≤ n) :
    EddystoneParser.parseTLM (data.take n) fd fl r = EddystoneParser.parseTLM data fd fl r := by
  unfold EddystoneParser.parseTLM
  by_cases hl : fl < 13
  · rw [if_pos hl, if_pos hl]
  · rw [if_neg hl, if_neg hl, readByte_take data n fd (by omega),
      readByte_take data n (fd + 1) (by omega), readByte_take data n (fd + 2) (by omega),
      readByte_take data n (fd + 3) (by omega), readByte_take data n (fd + 4) (by omega),
      readByte_take data n (fd + 5) (by omega), readByte_take data n (fd + 6) (by omega),
      readByte_take data n (fd + 7) (by omega), readByte_take data n (fd + 8) (by omega),
      readByte_take data n (fd + 9) (by omega), readByte_take data n (fd + 10) (by omega),
      readByte_take data n (fd + 11) (by omega), readByte_take data n (fd + 12) (by omega)]

/-- The part of `EddystoneParser::parse` after the scan does not see that the buffer is cut at
the end of the view. -/
theorem parseService_take (data : List Nat) (sd sl : Nat) (r : BeaconData) (hsl : sl < 256) :
    EddystoneParser.parseService (data.take (sd + sl)) sd sl r
      = EddystoneParser.parseService data sd sl r := by
  unfold EddystoneParser.parseService
  by_cases h3 : sl < 3
  · rw [if_pos h3, if_pos h3]
  · have hfl : (sl - 3) % 256 = sl - 3 := Nat.mod_eq_of_lt (by omega)
    rw [if_neg h3, if_neg h3, readByte_take data (sd + sl) (sd + 2) (by omega), hfl]
    simp only [parseUID_take data (sd + sl) (sd + 3) (sl - 3) r (by omega),
      parseURL_take data (sd + sl) (sd + 3) (sl - 3) r (by omega),
      parseTLM_take data (sd + sl) (sd + 3) (sl - 3) r (by omega)]

/-- The part of `EddystoneParser::parse` after the scan returns when the view lies inside the
array object and the payload union of the result holds its `String`. -/
theorem parseService_total (data : List Nat) (sd sl : Nat) (r : BeaconData) (hsl : sl < 256)
    (h : sd + sl ≤ data.length) (hs : r.holds_string = true) :
    ∃ out, EddystoneParser.parseService data sd sl r = Except.ok out := by
  unfold EddystoneParser.parseService
  by_cases h3 : sl < 3
  · rw [if_pos h3]; exact ⟨_, rfl⟩
  · have hfl : (sl - 3) % 256 = sl - 3 := Nat.mod_eq_of_lt (by omega)
    obtain ⟨ft, eft, -⟩ := readByte_of_lt data (sd + 2) (by omega)
    rw [if_neg h3, eft, hfl]
    simp only [run_bind_ok]
    split
    · exact parseUID_total data _ _ r (by omega)
    · split
      · exact parseURL_total data _ _ r (by omega) hs
      · split
        · exact parseTLM_total data _ _ r (by omega)
        · exact ⟨_, rfl⟩

/-- The function `EddystoneParser::parseURL` on a frame inside the array object returns, or
stops at its assignment to the `String`. -/
theorem parseURL_returns_or_dead (data : List Nat) (fd fl : Nat) (r : BeaconData)
    (h : fd + fl ≤ data.length) :
    (∃ p, EddystoneParser.parseURL data fd fl r = Except.ok p) ∨
      EddystoneParser.parseURL data fd fl r = Except.error Fault.deadString := by
  cases hs : r.holds_string with
  | true => exact Or.inl (parseURL_total data fd fl r h hs)
  | false =>
    unfold EddystoneParser.parseURL
    by_cases hl : fl < 2
    · rw [if_pos hl]; exact Or.inl ⟨_, rfl⟩
    · rw [if_neg hl]
      obtain ⟨f0, e0, -⟩ := readByte_of_lt data (fd) (by omega)
      obtain ⟨f1, e1, -⟩ := readByte_of_lt data (fd + 1) (by omega)
      obtain ⟨u, eu⟩ := parseURLLoop_total data fd (fl - 2) 2
        (EddystoneParser.decodeURLScheme f1) (by omega)
      simp only [e0, e1, eu, run_bind_ok, assignString, hs, Bool.false_eq_true, if_false,
        run_bind_error]
      split
      · exact Or.inl ⟨_, rfl⟩
      · exact Or.inr rfl

/-- The part of `EddystoneParser::parse` after the scan, when the view lies inside the array
object, returns or stops at the assignment to the `String`: it stops at no read. -/
theorem parseService_returns_or_dead (data : List Nat) (sd sl : Nat) (r : BeaconData)
    (hsl : sl < 256) (h : sd + sl ≤ data.length) :
    (∃ out, EddystoneParser.parseService data sd sl r = Except.ok out) ∨
      EddystoneParser.parseService data sd sl r = Except.error Fault.deadString := by
  unfold EddystoneParser.parseService
  by_cases h3 : sl < 3
  · rw [if_pos h3]; exact Or.inl ⟨_, rfl⟩
  · have hfl : (sl - 3) % 256 = sl - 3 := Nat.mod_eq_of_lt (by omega)
    obtain ⟨ft, eft, -⟩ := readByte_of_lt data (sd + 2) (by omega)
    rw [if_neg h3, eft, hfl]
    simp only [run_bind_ok]
    split
    · exact Or.inl (parseUID_total data _ _ r (by omega))
    · split
      · exact parseURL_returns_or_dead data _ _ r (by omega)
      · split
        · exact Or.inl (parseTLM_total data _ _ r (by omega))
        · exact Or.inl ⟨_, rfl⟩

/-- After a successful scan `EddystoneParser::parse` is its second part applied to the
view. -/
theorem Eddystone_parse_eq_service (data : List Nat) (len sd sl : Nat) (r : BeaconData)
    (hf : EddystoneParser.findEddystoneServiceData data len = Except.ok (some (sd, sl))) :
    EddystoneParser.parse data len r = EddystoneParser.parseService data sd sl r := by
  unfold EddystoneParser.parse EddystoneParser.parseService
  rw [hf]
  rfl

/-- C37: when `findEddystoneServiceData` finds a record at offset `p` with length byte `L`,
the view is the `L - 1` bytes at offsets `p + 2 .. p + L`, which lie below `len`, and what
`EddystoneParser::parse` does afterwards reads no index above `p + L`: it does the same on
the buffer cut after offset `p + L`, where every higher index is outside the array, and it
stops at no read.  While the payload union of the result holds its `String`, it runs to its
result there. -/
theorem C37_eddystone_reads_inside_record (data : List Nat) (len sd sl : Nat) (r : BeaconData)
    (h256 : len < 256) (hlen : len ≤ data.length)
    (hf : EddystoneParser.findEddystoneServiceData data len = Except.ok (some (sd, sl))) :
    ∃ p L, data[p]? = some L ∧ data[p + 1]? = some 0x16 ∧ sd = p + 2 ∧ sl + 1 = L ∧
      p + L < len ∧
      EddystoneParser.parse data len r = EddystoneParser.parseService data sd sl r ∧
      (data.take (p + L + 1)).length = p + L + 1 ∧
      EddystoneParser.parseService (data.take (p + L + 1)) sd sl r
        = EddystoneParser.parseService data sd sl r ∧
      (∀ i, EddystoneParser.parseService data sd sl r ≠ Except.error (Fault.outOfBounds i)) ∧
      (r.holds_string = true →
        ∃ out, EddystoneParser.parseService (data.take (p + L + 1)) sd sl r = Except.ok out ∧
          EddystoneParser.parseService data sd sl r = Except.ok out) := by
  have hf2 := hf
  rw [EddystoneParser.findEddystoneServiceData, findEddystoneLoop_eq_scan] at hf2
  obtain ⟨recs, p, L, lo, hi, -, -, h0, -, hin, hkey, -, hv⟩ :=
    scan_sound data len _ _ _ h256 len 0 (sd, sl) hf2
  simp only [Prod.mk.injEq] at hv
  obtain ⟨rfl, rfl⟩ := hv
  obtain ⟨k1, k2, -, -⟩ := hkey
  simp only at k1 k2
  have hmod : (L - 1) % 256 = L - 1 := Nat.mod_eq_of_lt (by omega)
  rw [hmod] at hf ⊢
  have hsl : L - 1 < 256 := by omega
  have hend : p + 2 + (L - 1) = p + L + 1 := by omega
  have hrun := parseService_returns_or_dead data (p + 2) (L - 1) r hsl (by omega)
  have htake := parseService_take data (p + 2) (L - 1) r hsl
  rw [hend] at htake
  refine ⟨p, L, h0, k1, rfl, by omega, by omega,
    Eddystone_parse_eq_service data len _ _ r hf, ?_, htake, ?_, ?_⟩
  · rw [List.length_take]; omega
  · intro i hi
    rcases hrun with ⟨out, hout⟩ | hdead
    · rw [hout] at hi; cases hi
    · rw [hdead] at hi; cases hi
  · intro hs
    obtain ⟨out, hout⟩ := parseService_total data (p + 2) (L - 1) r hsl (by omega) hs
    exact ⟨out, by rw [htake, hout], hout⟩

/-- C37, at the Eddystone-TLM packet of the unit test: the record is at offset 0 with length
byte 17, and the decoder reaches its result on the 18 bytes of the record. -/
theorem C37_eddystone_reads_inside_record_witness :
    ∃ p L, eddystone_tlm_packet[p]? = some L ∧ eddystone_tlm_packet[p + 1]? = some 0x16 ∧
      2 = p + 2 ∧ 16 + 1 = L ∧ p + L < 18 ∧
      EddystoneParser.parse eddystone_tlm_packet 18 BeaconData.new
        = EddystoneParser.parseService eddystone_tlm_packet 2 16 BeaconData.new ∧
      (eddystone_tlm_packet.take (p + L + 1)).length = p + L + 1 ∧
      EddystoneParser.parseService (eddystone_tlm_packet.take (p + L + 1)) 2 16 BeaconData.new
        = EddystoneParser.parseService eddystone_tlm_packet 2 16 BeaconData.new ∧
      (∀ i, EddystoneParser.parseService eddystone_tlm_packet 2 16 BeaconData.new
        ≠ Except.error (Fault.outOfBounds i)) ∧
      (BeaconData.new.holds_string = true →
        ∃ out, EddystoneParser.parseService (eddystone_tlm_packet.take (p + L + 1)) 2 16
            BeaconData.new = Except.ok out ∧
          EddystoneParser.parseService eddystone_tlm_packet 2 16 BeaconData.new
            = Except.ok out) :=
  C37_eddystone_reads_inside_record eddystone_tlm_packet 18 2 16 BeaconData.new (by decide)
    (by decide) rfl

/-! ## No 8-bit arithmetic wraps -/

/-- Whatever `findADType` returns is the view of a record with a non-zero length byte `L`:
the view starts after the type byte and its length is `L - 1`, computed without borrow. -/
theorem findADTypeLoop_sound (data : List Nat) (len ad_type : Nat) (h256 : len < 256) :
    ∀ (fuel pos o n : Nat),
    BLEBeaconParser.findADTypeLoop data len ad_type fuel pos = Except.ok (some (o, n)) →
    ∃ p L, data[p]? = some L ∧ 1 ≤ L ∧ p + 1 + L ≤ len ∧ o = p + 2 ∧ n + 1 = L := by
  intro fuel
  induction fuel with
  | zero =>
    intro pos o n h
    simp only [BLEBeaconParser.findADTypeLoop] at h
    split at h <;> simp [run_pure] at h
  | succ f ih =>
    intro pos o n h
    simp only [BLEBeaconParser.findADTypeLoop] at h
    split at h
    · simp only [run_bind_eq_ok] at h
      obtain ⟨L, h0, h⟩ := h
      rw [readByte_ok_iff] at h0
      split at h
      · simp [run_pure] at h
      · rename_i hL
        split at h
        · simp [run_pure] at h
        · rename_i hb
          simp only [run_bind_eq_ok] at h
          obtain ⟨t, h1, h⟩ := h
          split at h
          · simp only [run_pure, Except.ok.injEq, Option.some.injEq, Prod.mk.injEq] at h
            have hmod : (L - 1) % 256 = L - 1 := Nat.mod_eq_of_lt (by omega)
            rw [hmod] at h
            exact ⟨pos, L, h0, by omega, by omega, h.1.symm, by omega⟩
          · exact ih _ o n h
    · simp [run_pure] at h

/-- Whatever an instance of the common loop returns is computed from a record whose length
byte is at least 2 and below 256. -/
theorem scan_found_length (data : List Nat) (len ty : Nat) (key : Nat → Nat → Bool)
    (out : Nat → Nat → Nat × Nat) (h256 : len < 256) (v : Nat × Nat)
    (h : scanLoop data len ty key out len 0 = Except.ok (some v)) :
    ∃ p L, data[p]? = some L ∧ 2 ≤ L ∧ L < 256 ∧ v = out p L := by
  obtain ⟨recs, p, L, lo, hi, -, -, h0, -, hin, hkey, -, hv⟩ :=
    scan_sound data len ty key out h256 len 0 v h
  exact ⟨p, L, h0, hkey.2.1, by omega, hv⟩

/-- The common loop runs `scanStep`. -/
theorem scanLoop_succ_eq_step (data : List Nat) (len ty : Nat) (key : Nat → Nat → Bool)
    (out : Nat → Nat → Nat × Nat) (fuel pos : Nat) :
    scanLoop data len ty key out (fuel + 1) pos
      = scanStep data len ty key out pos >>= continueWith (scanLoop data len ty key out fuel) := by
  simp only [scanLoop, scanStep]
  by_cases hp : pos < len
  · simp only [if_pos hp]
    cases h0 : readByte data pos with
    | error e => rfl
    | ok L =>
      simp only [run_bind_ok]
      by_cases hL : L = 0
      · simp only [if_pos hL]; rfl
      · simp only [if_neg hL]
        by_cases hb : pos + L ≥ len
        · simp only [if_pos hb]; rfl
        · simp only [if_neg hb]
          cases h1 : readByte data (pos + 1) with
          | error e => rfl
          | ok t =>
            simp only [run_bind_ok]
            generalize (if t = ty then
                if L ≥ 2 then do
                  let lo ← readByte data (pos + 2)
                  let hi ← readByte data (pos + 3)
                  if key lo hi = true then pure (some (out pos L)) else pure none
                else pure none
              else pure none : Run (Option (Nat × Nat))) = hit
            cases hit with
            | error e => rfl
            | ok v =>
              cases v with
              | none => rfl
              | some f => rfl
  · simp only [if_neg hp]; rfl

/-- An iteration of the common loop updates the cursor only at a record that ends below
`len`, so the new cursor needs no reduction modulo 256. -/
theorem scanStep_next (data : List Nat) (len ty : Nat) (key : Nat → Nat → Bool)
    (out : Nat → Nat → Nat × Nat) (h256 : len < 256) (pos p : Nat)
    (h : scanStep data len ty key out pos = Except.ok (ScanStep.next p)) :
    ∃ L, data[pos]? = some L ∧ L ≠ 0 ∧ pos + L < len ∧
      p = pos + L + 1 ∧ p ≤ len ∧ p ≤ 255 := by
  unfold scanStep at h
  split at h
  · simp only [run_bind_eq_ok] at h
    obtain ⟨L, h0, h⟩ := h
    rw [readByte_ok_iff] at h0
    split at h
    · simp [run_pure] at h
    · rename_i hL
      split at h
      · simp [run_pure] at h
      · rename_i hb
        simp only [run_bind_eq_ok] at h
        obtain ⟨t, -, hit, -, h⟩ := h
        cases hit with
        | some f => simp [run_pure] at h
        | none =>
          simp only [run_pure, Except.ok.injEq, ScanStep.next.injEq] at h
          have hmod : (pos + L + 1) % 256 = pos + L + 1 := Nat.mod_eq_of_lt (by omega)
          rw [hmod] at h
          exact ⟨L, h0, hL, by omega, h.symm, by omega, by omega⟩
  · simp [run_pure] at h

/-- The loop of `findADType` runs `findADTypeStep`. -/
theorem findADTypeLoop_succ_eq_step (data : List Nat) (len ad_type fuel pos : Nat) :
    BLEBeaconParser.findADTypeLoop data len ad_type (fuel + 1) pos
      = BLEBeaconParser.findADTypeStep data len ad_type pos
          >>= continueWith (BLEBeaconParser.findADTypeLoop data len ad_type fuel) := by
  simp only [BLEBeaconParser.findADTypeLoop, BLEBeaconParser.findADTypeStep]
  by_cases hp : pos < len
  · simp only [if_pos hp]
    cases h0 : readByte data pos with
    | error e => rfl
    | ok L =>
      simp only [run_bind_ok]
      by_cases hL : L = 0
      · simp only [if_pos hL]; rfl
      · simp only [if_neg hL]
        by_cases hb : pos + L ≥ len
        · simp only [if_pos hb]; rfl
        · simp only [if_neg hb]
          cases h1 : readByte data (pos + 1) with
          | error e => rfl
          | ok t =>
            simp only [run_bind_ok]
            by_cases ht : t = ad_type
            · simp only [if_pos ht]; rfl
            · simp only [if_neg ht]; rfl
  · simp only [if_neg hp]; rfl

/-- An iteration of the loop of `findADType` updates the cursor only at a record that ends
below `len`, so the new cursor needs no reduction modulo 256. -/
theorem findADTypeStep_next (data : List Nat) (len ad_type : Nat) (h256 : len < 256)
    (pos p : Nat)
    (h : BLEBeaconParser.findADTypeStep data len ad_type pos = Except.ok (ScanStep.next p)) :
    ∃ L, data[pos]? = some L ∧ L ≠ 0 ∧ pos + L < len ∧
      p = pos + L + 1 ∧ p ≤ len ∧ p ≤ 255 := by
  unfold BLEBeaconParser.findADTypeStep at h
  split at h
  · simp only [run_bind_eq_ok] at h
    obtain ⟨L, h0, h⟩ := h
    rw [readByte_ok_iff] at h0
    split at h
    · simp [run_pure] at h
    · rename_i hL
      split at h
      · simp [run_pure] at h
      · rename_i hb
        simp only [run_bind_eq_ok] at h
        obtain ⟨t, -, h⟩ := h
        split at h
        · simp [run_pure] at h
        · simp only [run_pure, Except.ok.injEq, ScanStep.next.injEq] at h
          have hmod : (pos + L + 1) % 256 = pos + L + 1 := Nat.mod_eq_of_lt (by omega)
          rw [hmod] at h
          exact ⟨L, h0, hL, by omega, h.symm, by omega, by omega⟩
  · simp [run_pure] at h

/-- An instance of the common loop advances in bounds. -/
theorem scanLoop_advancesInBounds (data : List Nat) (len ty : Nat) (key : Nat → Nat → Bool)
    (out : Nat → Nat → Nat × Nat) (h256 : len < 256) :
    advancesInBounds data len (scanLoop data len ty key out) (scanStep data len ty key out) :=
  ⟨fun fuel pos => scanLoop_succ_eq_step data len ty key out fuel pos,
   fun pos p h => scanStep_next data len ty key out h256 pos p h⟩

/-- A loop that agrees with one that advances in bounds does so as well. -/
theorem advancesInBounds_congr (data : List Nat) (len : Nat)
    (loop1 loop2 : Nat → Nat → Run (Option (Nat × Nat))) (step : Nat → Run ScanStep)
    (heq : ∀ fuel pos, loop1 fuel pos = loop2 fuel pos)
    (h : advancesInBounds data len loop2 step) : advancesInBounds data len loop1 step := by
  refine ⟨fun fuel pos => ?_, h.2⟩
  have hf : loop1 fuel = loop2 fuel := funext (heq fuel)
  rw [heq, hf]
  exact h.1 fuel pos

/-- C40: each of the six scanner loops runs an iteration that updates the `uint8_t` cursor
only after its test `pos + ad_len >= len` has failed: every update starts at a record with
`pos + L < len`, and the new cursor is `pos + L + 1` without reduction modulo 256, at most
`len` and at most 255.  Every output length that a scanner returns is the difference `L - 2`
or `L - 1` computed without borrow (`out_len + 2 = L`, `out_len + 1 = L`), and
`EddystoneParser::parse` computes `service_len - 3` only for `service_len ≥ 3`, so that
`frame_len + 3 = service_len`. -/
theorem C40_no_wrap (data : List Nat) (len company_id service_uuid ad_type : Nat)
    (h256 : len < 256) :
    advancesInBounds data len (BLEBeaconParser.findManufacturerDataLoop data len company_id)
      (scanStep data len 0xFF (fun lo hi => decide ((hi <<< 8 ||| lo) % 65536 = company_id))
        (fun p L => (p + 4, (L - 2) % 256))) ∧
    advancesInBounds data len (BLEBeaconParser.findServiceDataLoop data len service_uuid)
      (scanStep data len 0x16 (fun lo hi => decide ((hi <<< 8 ||| lo) % 65536 = service_uuid))
        (fun p L => (p + 2, L))) ∧
    advancesInBounds data len (iBeaconParser.findAppleManufacturerDataLoop data len)
      (scanStep data len 0xFF (fun lo hi => decide (lo = 0x4C ∧ hi = 0x00))
        (fun p L => (p + 4, (L - 2) % 256))) ∧
    advancesInBounds data len (AltBeaconParser.findRadiusManufacturerDataLoop data len)
      (scanStep data len 0xFF (fun lo hi => decide (lo = 0x18 ∧ hi = 0x01))
        (fun p L => (p + 4, (L - 2) % 256))) ∧
    advancesInBounds data len (EddystoneParser.findEddystoneServiceDataLoop data len)
      (scanStep data len 0x16 (fun lo hi => decide (lo = 0xAA ∧ hi = 0xFE))
        (fun p L => (p + 2, (L - 1) % 256))) ∧
    advancesInBounds data len (BLEBeaconParser.findADTypeLoop data len ad_type)
      (BLEBeaconParser.findADTypeStep data len ad_type) ∧
    (∀ o n, BLEBeaconParser.findManufacturerData data len company_id = Except.ok (some (o, n)) →
      ∃ p L, data[p]? = some L ∧ 2 ≤ L ∧ o = p + 4 ∧ n + 2 = L) ∧
    (∀ o n, iBeaconParser.findAppleManufacturerData data len = Except.ok (some (o, n)) →
      ∃ p L, data[p]? = some L ∧ 2 ≤ L ∧ o = p + 4 ∧ n + 2 = L) ∧
    (∀ o n, AltBeaconParser.findRadiusManufacturerData data len = Except.ok (some (o, n)) →
      ∃ p L, data[p]? = some L ∧ 2 ≤ L ∧ o = p + 4 ∧ n + 2 = L) ∧
    (∀ o n, EddystoneParser.findEddystoneServiceData data len = Except.ok (some (o, n)) →
      ∃ p L, data[p]? = some L ∧ 2 ≤ L ∧ o = p + 2 ∧ n + 1 = L) ∧
    (∀ o n, BLEBeaconParser.findADType data len ad_type = Except.ok (some (o, n)) →
      ∃ p L, data[p]? = some L ∧ 1 ≤ L ∧ o = p + 2 ∧ n + 1 = L) ∧
    (∀ sd sl r, EddystoneParser.findEddystoneServiceData data len = Except.ok (some (sd, sl)) →
      EddystoneParser.parse data len r = EddystoneParser.parseService data sd sl r ∧
      (sl < 3 → EddystoneParser.parseService data sd sl r
        = Except.ok (false, { r with valid := false })) ∧
      (3 ≤ sl → ∃ frame_len, frame_len + 3 = sl ∧
        EddystoneParser.parseService data sd sl r
          = (do
              let frame_type ← readByte data (sd + 2)
              if frame_type = 0x00 then EddystoneParser.parseUID data (sd + 3) frame_len r
              else if frame_type = 0x10 then
                EddystoneParser.parseURL data (sd + 3) frame_len r
              else if frame_type = 0x20 then
                EddystoneParser.parseTLM data (sd + 3) frame_len r
              else pure (false, { r with valid := false })))) := by
  refine ⟨?_, ?_, ?_, ?_, ?_, ?_, ?_, ?_, ?_, ?_, ?_, ?_⟩
  · exact advancesInBounds_congr data len _ _ _ (findManufacturerLoop_eq_scan data len company_id)
      (scanLoop_advancesInBounds data len _ _ _ h256)
  · exact advancesInBounds_congr data len _ _ _ (findServiceLoop_eq_scan data len service_uuid)
      (scanLoop_advancesInBounds data len _ _ _ h256)
  · exact advancesInBounds_congr data len _ _ _ (findAppleLoop_eq_scan data len)
      (scanLoop_advancesInBounds data len _ _ _ h256)
  · exact advancesInBounds_congr data len _ _ _ (findRadiusLoop_eq_scan data len)
      (scanLoop_advancesInBounds data len _ _ _ h256)
  · exact advancesInBounds_congr data len _ _ _ (findEddystoneLoop_eq_scan data len)
      (scanLoop_advancesInBounds data len _ _ _ h256)
  · exact ⟨fun fuel pos => findADTypeLoop_succ_eq_step data len ad_type fuel pos,
      fun pos p h => findADTypeStep_next data len ad_type h256 pos p h⟩
  · intro o n h
    rw [BLEBeaconParser.findManufacturerData, findManufacturerLoop_eq_scan] at h
    obtain ⟨p, L, h0, h2, hL, hv⟩ := scan_found_length data len _ _ _ h256 (o, n) h
    simp only [Prod.mk.injEq] at hv
    exact ⟨p, L, h0, h2, hv.1, by omega⟩
  · intro o n h
    rw [iBeaconParser.findAppleManufacturerData, findAppleLoop_eq_scan] at h
    obtain ⟨p, L, h0, h2, hL, hv⟩ := scan_found_length data len _ _ _ h256 (o, n) h
    simp only [Prod.mk.injEq] at hv
    exact ⟨p, L, h0, h2, hv.1, by omega⟩
  · intro o n h
    rw [AltBeaconParser.findRadiusManufacturerData, findRadiusLoop_eq_scan] at h
    obtain ⟨p, L, h0, h2, hL, hv⟩ := scan_found_length data len _ _ _ h256 (o, n) h
    simp only [Prod.mk.injEq] at hv
    exact ⟨p, L, h0, h2, hv.1, by omega⟩
  · intro o n h
    rw [EddystoneParser.findEddystoneServiceData, findEddystoneLoop_eq_scan] at h
    obtain ⟨p, L, h0, h2, hL, hv⟩ := scan_found_length data len _ _ _ h256 (o, n) h
    simp only [Prod.mk.injEq] at hv
    exact ⟨p, L, h0, h2, hv.1, by omega⟩
  · intro o n h
    obtain ⟨p, L, h0, h1, -, ho, hn⟩ := findADTypeLoop_sound data len ad_type h256 len 0 o n h
    exact ⟨p, L, h0, h1, ho, hn⟩
  · intro sd sl r hf
    obtain ⟨hsl, -, -⟩ := findEddystone_sound data len sd sl h256 hf
    refine ⟨Eddystone_parse_eq_service data len sd sl r hf, ?_, ?_⟩
    · intro h3
      unfold EddystoneParser.parseService
      rw [if_pos h3]
      rfl
    · intro h3
      have hn : ¬ sl < 3 := by omega
      have hfl : (sl - 3) % 256 = sl - 3 := Nat.mod_eq_of_lt (by omega)
      refine ⟨sl - 3, by omega, ?_⟩
      unfold EddystoneParser.parseService
      rw [if_neg hn, hfl]

/-- C40, at the packet of `test_findServiceData`, where the iteration of the Apple scanner at
cursor 0 passes the service record of length byte 5 and sets the cursor to 6, and at the
iBeacon packet of the unit test, where the output length 24 is `26 - 2`. -/
theorem C40_no_wrap_witness :
    scanStep service_test_packet 9 0xFF (fun lo hi => decide (lo = 0x4C ∧ hi = 0x00))
      (fun p L => (p + 4, (L - 2) % 256)) 0 = Except.ok (ScanStep.next 6) ∧
    (∃ L, service_test_packet[0]? = some L ∧ L ≠ 0 ∧ 0 + L < 9 ∧
      6 = 0 + L + 1 ∧ 6 ≤ 9 ∧ 6 ≤ 255) ∧
    ∃ p L, ibeacon_packet[p]? = some L ∧ 2 ≤ L ∧ 4 = p + 4 ∧ 24 + 2 = L :=
  ⟨rfl,
   (C40_no_wrap service_test_packet 9 0x004C 0xFEAA 0x01 (by decide)).2.2.1.2 0 6 rfl,
   (C40_no_wrap ibeacon_packet 27 0x004C 0xFEAA 0x01 (by decide)).2.2.2.2.2.2.2.1 4 24 rfl⟩
